import Mathlib

/-!
# Motion engine of the rotary controller (`Core/Src/Ramps.c`, `Core/Inc/Ramps.h`)

A shallow embedding of the step generator: the register window shared with the
fieldbus, the Bresenham synchronizer, the trapezoidal indexer, the pulse-complete
callback and one iteration of the supervisor task.

Modelling conventions

* `int32_t` and `int16_t` fields are mathematical integers.  Every arithmetic
  operation of `Ramps.c` on them is signed, and C leaves signed overflow
  undefined, so the embedding describes the executions C defines: those in
  which no signed operation leaves its range.
* `float` is an arbitrary carrier `F` with the operations of `FloatOps`; the
  results hold for every interpretation of them (IEEE or exact).
* Timer handles and the direction pin are pointers to peripherals in C; here
  the registers the code touches are fields of the handler state.
* A C `for` loop over master counts is structural recursion on its trip count;
  C arrays are maps from the index.
-/

namespace Ramps

/-! ## Constants of `Ramps.h` -/

/-- Value of the `MODE_HALT` enumerator. -/
def MODE_HALT : Nat := 0
/-- Value of the `MODE_SYNCHRO` enumerator. -/
def MODE_SYNCHRO : Nat := 20
/-- Value of the `MODE_SYNCHRO_INIT` enumerator. -/
def MODE_SYNCHRO_INIT : Nat := 21
/-- Value of the `MODE_JOG` enumerator. -/
def MODE_JOG : Nat := 30
/-- Value of the `MODE_JOG_FW` enumerator. -/
def MODE_JOG_FW : Nat := 31
/-- Value of the `MODE_JOG_BW` enumerator. -/
def MODE_JOG_BW : Nat := 32
/-- Value of the `MODE_SET_ENCODER` enumerator. -/
def MODE_SET_ENCODER : Nat := 40
/-- Value of the `MODE_SYNCHRO_BAD_RATIO` enumerator. -/
def MODE_SYNCHRO_BAD_RATIO : Nat := 101

/-- Timer clock in Hz, `RAMPS_CLOCK_FREQUENCY`. -/
def RAMPS_CLOCK_FREQUENCY : Int := 1000000

/-! ## Data model -/

/-- Operations on C `float` used by the indexer: conversion from an integer,
the four arithmetic operations, the comparison `<` and the cast to
`uint16_t`. -/
structure FloatOps (F : Type) where
  ofInt : Int → F
  add : F → F → F
  sub : F → F → F
  mul : F → F → F
  div : F → F → F
  lt : F → F → Bool
  toUInt16 : F → Nat

/-- Exact rational arithmetic as an interpretation of the float operations. -/
def ratOps : FloatOps Rat where
  ofInt := fun z => (z : Rat)
  add := fun a b => a + b
  sub := fun a b => a - b
  mul := fun a b => a * b
  div := fun a b => a / b
  lt := fun a b => decide (a < b)
  toUInt16 := fun a => (Rat.floor a).toNat % 65536

/-- Register window `rampsSharedData_t`, in declaration order.  `mode` holds
the numeric value of the enumerator, as the fieldbus may store any word. -/
structure rampsSharedData_t (F : Type) where
  mode : Nat
  currentPosition : Int
  finalPosition : Int
  indexDeltaSteps : Int
  unused_8 : Int
  encoderPresetIndex : Nat
  encoderPresetValue : Int
  unused_14 : Int
  maxSpeed : F
  minSpeed : F
  currentSpeed : F
  acceleration : F
  stepRatioNum : Int
  stepRatioDen : Int
  unused_28 : F
  synRatioNum : Int
  synRatioDen : Int
  synOffset : Int
  synScaleIndex : Nat
  scalesPosition : Nat → Int

/-- Synchronizer state `rampsSyncData_t`. -/
structure rampsSyncData_t where
  positionPrevious : Int
  positionCurrent : Int
  yi : Int
  D : Int
  direction : Int
deriving DecidableEq, Repr

/-- Indexer state `rampsIndexData_t`. -/
structure rampsIndexData_t (F : Type) where
  floatAccelInterval : F
  stepRatio : F
  currentStep : Int
  totalSteps : Int
  decelSteps : Int
  direction : Int

/-- Registers of a timer peripheral reached through a `TIM_HandleTypeDef`:
status `SR`, control `CR1`, auto-reload `ARR`, compare `CCR1`, counter `CNT`,
and whether channel 1 PWM interrupts are started (`HAL_TIM_PWM_Start_IT` /
`HAL_TIM_PWM_Stop_IT`). -/
structure TIM_HandleTypeDef where
  SR : Nat
  CR1 : Nat
  ARR : Nat
  CCR1 : Nat
  CNT : Nat
  pwmStarted : Bool
deriving DecidableEq, Repr

/-- Modelled from the spec: one entry of `scales_t.scalePosition` (declared in
`Scales.h`, which is not among the sources), with the three members `Ramps.c`
accesses. -/
structure scalePosition_t where
  positionCurrent : Int
  encoderCurrent : Int
  encoderPrevious : Int
deriving DecidableEq, Repr

/-- Modelled from the spec: `scales_t` of `Scales.h`, which is not among the
sources: the per-channel positions and the per-channel encoder timers, indexed
by channel number. -/
structure scales_t where
  scalePosition : Nat → scalePosition_t
  scaleTimer : Nat → TIM_HandleTypeDef

/-- Handler `rampsHandler_t`: the three data blocks, the scales, the three
timers and the level of the direction output `DIR_PIN` (`true` is
`GPIO_PIN_SET`). -/
structure rampsHandler_t (F : Type) where
  shared : rampsSharedData_t F
  syncData : rampsSyncData_t
  indexData : rampsIndexData_t F
  scales : scales_t
  motorPwmTimer : TIM_HandleTypeDef
  synchroRefreshTimer : TIM_HandleTypeDef
  indexRefreshTimer : TIM_HandleTypeDef
  dirPin : Bool

variable {F : Type}

/-! ## Pulse-complete callback -/

/-- `motorSynchroModeIsr`: sample the direction line, count the pulse into
`currentPosition`, stop the pulse channel. -/
def motorSynchroModeIsr (data : rampsHandler_t F) : rampsHandler_t F :=
  let data1 : rampsHandler_t F :=
    if data.dirPin = true then
      { data with shared := { data.shared with currentPosition := data.shared.currentPosition + 1 } }
    else
      { data with shared := { data.shared with currentPosition := data.shared.currentPosition - 1 } }
  { data1 with motorPwmTimer := { data1.motorPwmTimer with pwmStarted := false } }

/-- `RampsMotionIsr`: the pulse timer interrupt; acts only in `MODE_SYNCHRO`. -/
def RampsMotionIsr (data : rampsHandler_t F) : rampsHandler_t F :=
  if data.shared.mode = MODE_SYNCHRO then motorSynchroModeIsr data else data

/-! ## Synchronizer initialisation -/

/-- `SyncMotionInit`: reject a ratio with a zero term or `den > num`;
otherwise load the Bresenham values, program the pulse timer, forget
outstanding steps and enter `MODE_SYNCHRO`. -/
def SyncMotionInit (data : rampsHandler_t F) : rampsHandler_t F :=
  let shared := data.shared
  if shared.synRatioNum = 0 ∨ shared.synRatioDen = 0 ∨ shared.synRatioDen > shared.synRatioNum then
    { data with shared := { shared with mode := MODE_SYNCHRO_BAD_RATIO } }
  else
    let yi : Int := if shared.synRatioDen < 0 then -1 else 1
    let D : Int := 2 * (shared.synRatioDen - shared.synRatioNum)
    { data with
      syncData := { data.syncData with yi := yi, D := D }
      motorPwmTimer := { data.motorPwmTimer with ARR := 150, CCR1 := 75 }
      shared := { shared with currentPosition := shared.finalPosition, mode := MODE_SYNCHRO } }

/-! ## Indexer -/

/-- Start block of `IndexMotionIsr`: when a request is pending and the
indexer is idle, latch direction and length, acknowledge the request and
reset the profile. -/
def indexStart (ops : FloatOps F) (data : rampsHandler_t F) : rampsHandler_t F :=
  if data.shared.indexDeltaSteps ≠ 0 ∧ data.indexData.currentStep = data.indexData.totalSteps then
    { data with
      indexData :=
        { data.indexData with
          direction := if data.shared.indexDeltaSteps > 0 then 1 else -1
          currentStep := 0
          totalSteps := |data.shared.indexDeltaSteps|
          floatAccelInterval := data.shared.acceleration
          stepRatio :=
            ops.div (ops.ofInt data.shared.stepRatioNum) (ops.ofInt data.shared.stepRatioDen)
          decelSteps := 0 }
      shared :=
        { data.shared with
          indexDeltaSteps := 0
          currentSpeed := data.shared.minSpeed } }
  else data

/-- Acceleration block of `IndexMotionIsr`: below `maxSpeed` and in the first
half, speed up (clamped after the interval is computed); otherwise record the
step at which acceleration ended, once. -/
def indexAccelerate (ops : FloatOps F) (data : rampsHandler_t F) : rampsHandler_t F :=
  if ops.lt data.shared.currentSpeed data.shared.maxSpeed = true ∧
      data.indexData.currentStep < Int.tdiv data.indexData.totalSteps 2 then
    let speed := ops.add data.shared.currentSpeed data.shared.acceleration
    { data with
      indexData :=
        { data.indexData with
          floatAccelInterval :=
            ops.div (ops.mul (ops.ofInt RAMPS_CLOCK_FREQUENCY) data.indexData.stepRatio) speed }
      shared :=
        { data.shared with
          currentSpeed :=
            if ops.lt data.shared.maxSpeed speed = true then data.shared.maxSpeed else speed } }
  else if data.indexData.decelSteps = 0 then
    { data with indexData := { data.indexData with decelSteps := data.indexData.currentStep } }
  else data

/-- Deceleration block of `IndexMotionIsr`: above `minSpeed`, past the middle
and within `decelSteps` of the end, slow down. -/
def indexDecelerate (ops : FloatOps F) (data : rampsHandler_t F) : rampsHandler_t F :=
  if ops.lt data.shared.minSpeed data.shared.currentSpeed = true ∧
      data.indexData.currentStep > Int.tdiv data.indexData.totalSteps 2 ∧
      data.indexData.currentStep > data.indexData.totalSteps - data.indexData.decelSteps then
    let speed := ops.sub data.shared.currentSpeed data.shared.acceleration
    { data with
      indexData :=
        { data.indexData with
          floatAccelInterval :=
            ops.div (ops.mul (ops.ofInt RAMPS_CLOCK_FREQUENCY) data.indexData.stepRatio) speed }
      shared := { data.shared with currentSpeed := speed } }
  else data

/-- Timer block of `IndexMotionIsr`: auto-reload from the interval, capped at
65535, and a compare value of 10. -/
def indexProgramTimer (ops : FloatOps F) (data : rampsHandler_t F) : rampsHandler_t F :=
  if ops.lt (ops.ofInt 65535) data.indexData.floatAccelInterval = true then
    { data with indexRefreshTimer := { data.indexRefreshTimer with ARR := 65535, CCR1 := 10 } }
  else
    { data with
      indexRefreshTimer :=
        { data.indexRefreshTimer with
          ARR := ops.toUInt16 data.indexData.floatAccelInterval, CCR1 := 10 } }

/-- Last block of `IndexMotionIsr`: count the step and apply it to
`finalPosition`. -/
def indexEmit (data : rampsHandler_t F) : rampsHandler_t F :=
  { data with
    indexData := { data.indexData with currentStep := data.indexData.currentStep + 1 }
    shared :=
      { data.shared with finalPosition := data.shared.finalPosition + data.indexData.direction } }

/-- `IndexMotionIsr`: one tick of the index timer, its blocks in source order.
After the start block, an idle indexer with nothing pending rearms the timer
slowly and returns; otherwise the acceleration, deceleration and timer blocks
run and one step is emitted. -/
def IndexMotionIsr (ops : FloatOps F) (data : rampsHandler_t F) : rampsHandler_t F :=
  let data1 := indexStart ops data
  if data1.shared.indexDeltaSteps = 0 ∧ data1.indexData.currentStep = data1.indexData.totalSteps then
    { data1 with indexRefreshTimer := { data1.indexRefreshTimer with ARR := 10000, CCR1 := 10 } }
  else
    indexEmit (indexProgramTimer ops (indexDecelerate ops (indexAccelerate ops data1)))

/-! ## Synchronizer -/

/-- Body of the forward loop of `SyncMotionIsr` on the pair
`(D, finalPosition)`: one master count in the positive direction. -/
def syncForwardStep (num den yi : Int) (acc : Int × Int) : Int × Int :=
  if acc.1 > 0 then (acc.1 + 2 * (den - num), acc.2 + yi)
  else (acc.1 + 2 * den, acc.2)

/-- Forward loop `for (x = positionPrevious; x < positionCurrent; ++x)`,
by its trip count. -/
def syncForwardLoop (num den yi : Int) : Nat → Int × Int → Int × Int
  | 0, acc => acc
  | n + 1, acc => syncForwardLoop num den yi n (syncForwardStep num den yi acc)

/-- Body of the backward loop of `SyncMotionIsr` on the pair
`(D, finalPosition)`: one master count in the negative direction. -/
def syncBackwardStep (num den yi : Int) (acc : Int × Int) : Int × Int :=
  if acc.1 < 0 then (acc.1 - 2 * (den - num), acc.2 - yi)
  else (acc.1 - 2 * den, acc.2)

/-- Backward loop `for (x = positionPrevious; x > positionCurrent; --x)`,
by its trip count. -/
def syncBackwardLoop (num den yi : Int) : Nat → Int × Int → Int × Int
  | 0, acc => acc
  | n + 1, acc => syncBackwardLoop num den yi n (syncBackwardStep num den yi acc)

/-- `SyncMotionIsr`: one tick of the synchro timer.  `updateScales` is the
scale sampler of `Scales.c` (not among the sources), taken as a parameter.
Nothing happens unless the update flag `SR & 1` is set.  Phase A: in
`MODE_SYNCHRO` with outstanding steps, set the direction line and start a
pulse if the tick timer is enabled (`CR1 & 1`).  Phase B: in `MODE_SYNCHRO`
with nothing outstanding, take the master snapshot and run the Bresenham loop
over the counts moved. -/
def SyncMotionIsr (updateScales : scales_t → scales_t) (data : rampsHandler_t F) :
    rampsHandler_t F :=
  if data.synchroRefreshTimer.SR &&& 1 = 0 then data
  else
    let data0 : rampsHandler_t F := { data with scales := updateScales data.scales }
    if data0.shared.mode = MODE_SYNCHRO ∧
        data0.shared.finalPosition ≠ data0.shared.currentPosition then
      let data1 : rampsHandler_t F :=
        if data0.shared.finalPosition > data0.shared.currentPosition then
          { data0 with dirPin := true }
        else
          { data0 with dirPin := false }
      if data1.synchroRefreshTimer.CR1 &&& 1 = 1 then
        { data1 with motorPwmTimer := { data1.motorPwmTimer with pwmStarted := true } }
      else data1
    else if data0.shared.mode ≠ MODE_SYNCHRO then data0
    else
      let positionPrevious := data0.syncData.positionCurrent
      let positionCurrent :=
        (data0.scales.scalePosition data0.shared.synScaleIndex).positionCurrent
      if positionPrevious < positionCurrent then
        let r := syncForwardLoop data0.shared.synRatioNum data0.shared.synRatioDen
          data0.syncData.yi (positionCurrent - positionPrevious).toNat
          (data0.syncData.D, data0.shared.finalPosition)
        { data0 with
          dirPin := true
          syncData :=
            { data0.syncData with
              positionPrevious := positionPrevious
              positionCurrent := positionCurrent
              direction := 1
              D := r.1 }
          shared := { data0.shared with finalPosition := r.2 } }
      else if positionPrevious > positionCurrent then
        let r := syncBackwardLoop data0.shared.synRatioNum data0.shared.synRatioDen
          data0.syncData.yi (positionPrevious - positionCurrent).toNat
          (data0.syncData.D, data0.shared.finalPosition)
        { data0 with
          dirPin := false
          syncData :=
            { data0.syncData with
              positionPrevious := positionPrevious
              positionCurrent := positionCurrent
              direction := -1
              D := r.1 }
          shared := { data0.shared with finalPosition := r.2 } }
      else
        { data0 with
          syncData :=
            { data0.syncData with
              positionPrevious := positionPrevious
              positionCurrent := positionCurrent } }

/-! ## Supervisor task -/

/-- Telemetry loop of `RampsTask`: copy the position of each of the
`SCALES_COUNT` scales into the register window. -/
def taskRefreshScales (SCALES_COUNT : Nat) (data : rampsHandler_t F) : rampsHandler_t F :=
  { data with
    shared :=
      { data.shared with
        scalesPosition := fun i =>
          if i < SCALES_COUNT then (data.scales.scalePosition i).positionCurrent
          else data.shared.scalesPosition i } }

/-- Set-encoder block of `RampsTask` for the scale `encoderPresetIndex`: zero
the encoder timer counter and the encoder readings, load the preset into the
scale and into its telemetry copy, and go to `MODE_HALT`. -/
def taskSetEncoder (data : rampsHandler_t F) : rampsHandler_t F :=
  let scaleIndex := data.shared.encoderPresetIndex
  { data with
    scales :=
      { scalePosition := fun i =>
          if i = scaleIndex then
            { positionCurrent := data.shared.encoderPresetValue
              encoderCurrent := 0
              encoderPrevious := 0 }
          else data.scales.scalePosition i
        scaleTimer := fun i =>
          if i = scaleIndex then { data.scales.scaleTimer i with CNT := 0 }
          else data.scales.scaleTimer i }
    shared :=
      { data.shared with
        scalesPosition := fun i =>
          if i = scaleIndex then data.shared.encoderPresetValue
          else data.shared.scalesPosition i
        mode := MODE_HALT } }

/-- One iteration of the `for (;;)` loop of `RampsTask` (after the delay):
refresh the telemetry, serve a `MODE_SYNCHRO_INIT` request, then serve a
`MODE_SET_ENCODER` request.  `SCALES_COUNT` is the constant of `Scales.h` (not
among the sources), taken as a parameter.  The result is `none` when the
preset index addresses an element outside the arrays of `SCALES_COUNT`
entries. -/
def RampsTask (SCALES_COUNT : Nat) (data : rampsHandler_t F) : Option (rampsHandler_t F) :=
  let data1 := taskRefreshScales SCALES_COUNT data
  let data2 := if data1.shared.mode = MODE_SYNCHRO_INIT then SyncMotionInit data1 else data1
  if data2.shared.mode = MODE_SET_ENCODER then
    if data2.shared.encoderPresetIndex < SCALES_COUNT then some (taskSetEncoder data2) else none
  else some data2

/-! ## Runs and concrete states used by the statements -/

/-- A scale sampler result: channel `i` reads position `p`, the other
channels are as before. -/
def scalesAt (i : Nat) (p : Int) (sc : scales_t) : scales_t :=
  { sc with
    scalePosition := fun j =>
      if j = i then { sc.scalePosition j with positionCurrent := p } else sc.scalePosition j }

/-- The state once the outstanding pulses have completed: `currentPosition`
has reached `finalPosition`. -/
def drained (data : rampsHandler_t F) : rampsHandler_t F :=
  { data with shared := { data.shared with currentPosition := data.shared.finalPosition } }

/-- Successive synchro ticks that find the master channel at the positions
`ps`, in order, with the pulses drained before each tick. -/
def syncTicks : List Int → rampsHandler_t F → rampsHandler_t F
  | [], data => data
  | p :: ps, data =>
    syncTicks ps (SyncMotionIsr (scalesAt data.shared.synScaleIndex p) (drained data))

/-- An event seen by the indexer: a tick of the index timer, or a fieldbus
write, which may replace the register window by any other. -/
inductive IndexEvent (F : Type) where
  | tick : IndexEvent F
  | write : (rampsSharedData_t F → rampsSharedData_t F) → IndexEvent F

/-- Effect of one event. -/
def IndexEvent.apply (ops : FloatOps F) : IndexEvent F → rampsHandler_t F → rampsHandler_t F
  | IndexEvent.tick, data => IndexMotionIsr ops data
  | IndexEvent.write w, data => { data with shared := w data.shared }

/-- Effect of a sequence of events, first to last. -/
def runIndexEvents (ops : FloatOps F) : List (IndexEvent F) → rampsHandler_t F → rampsHandler_t F
  | [], data => data
  | e :: es, data => runIndexEvents ops es (e.apply ops data)

/-- The handler with every field zero, as at boot, over exact rationals. -/
def zeroHandler : rampsHandler_t Rat where
  shared :=
    { mode := 0, currentPosition := 0, finalPosition := 0, indexDeltaSteps := 0, unused_8 := 0
      encoderPresetIndex := 0, encoderPresetValue := 0, unused_14 := 0
      maxSpeed := 0, minSpeed := 0, currentSpeed := 0, acceleration := 0
      stepRatioNum := 0, stepRatioDen := 0, unused_28 := 0
      synRatioNum := 0, synRatioDen := 0, synOffset := 0, synScaleIndex := 0
      scalesPosition := fun _ => 0 }
  syncData := { positionPrevious := 0, positionCurrent := 0, yi := 0, D := 0, direction := 0 }
  indexData :=
    { floatAccelInterval := 0, stepRatio := 0, currentStep := 0, totalSteps := 0
      decelSteps := 0, direction := 0 }
  scales :=
    { scalePosition := fun _ => { positionCurrent := 0, encoderCurrent := 0, encoderPrevious := 0 }
      scaleTimer := fun _ => { SR := 0, CR1 := 0, ARR := 0, CCR1 := 0, CNT := 0, pwmStarted := false } }
  motorPwmTimer := { SR := 0, CR1 := 0, ARR := 0, CCR1 := 0, CNT := 0, pwmStarted := false }
  synchroRefreshTimer := { SR := 0, CR1 := 0, ARR := 0, CCR1 := 0, CNT := 0, pwmStarted := false }
  indexRefreshTimer := { SR := 0, CR1 := 0, ARR := 0, CCR1 := 0, CNT := 0, pwmStarted := false }
  dirPin := false

/-- The zero handler with the synchro ratio registers written, the mode
register requesting `MODE_SYNCHRO_INIT`, and the synchro timer running with
its update flag raised. -/
def syncRequest (num den : Int) : rampsHandler_t Rat :=
  { zeroHandler with
    shared := { zeroHandler.shared with mode := MODE_SYNCHRO_INIT, synRatioNum := num, synRatioDen := den }
    synchroRefreshTimer := { zeroHandler.synchroRefreshTimer with SR := 1, CR1 := 1 } }

/-- The zero handler with an index request of `k` steps and the profile of
scenario S4 (maxSpeed 1000, minSpeed 100, acceleration 10, step ratio 1:1). -/
def indexRequest (k : Int) : rampsHandler_t Rat :=
  { zeroHandler with
    shared :=
      { zeroHandler.shared with
        indexDeltaSteps := k, maxSpeed := 1000, minSpeed := 100, acceleration := 10
        stepRatioNum := 1, stepRatioDen := 1 } }

/-- The 2:1 synchro request with five steps outstanding: `currentPosition = 7`
and `finalPosition = 12`. -/
def pendingSync : rampsHandler_t Rat :=
  { syncRequest 2 1 with
    shared := { (syncRequest 2 1).shared with currentPosition := 7, finalPosition := 12 } }

/-- The zero handler (mode `MODE_HALT`) with the direction line high. -/
def haltHigh : rampsHandler_t Rat :=
  { zeroHandler with dirPin := true }

/-- A handler in `MODE_SYNCHRO` with the direction line high and
`currentPosition = 3`. -/
def synchroHigh : rampsHandler_t Rat :=
  { zeroHandler with
    dirPin := true
    shared := { zeroHandler.shared with mode := MODE_SYNCHRO, currentPosition := 3 } }

/-- An operation of the engine: a synchro tick with the scale sampler it
runs, an index tick, a pulse-complete interrupt, or one task iteration. -/
inductive EngineOp where
  | syncTick : (scales_t → scales_t) → EngineOp
  | indexTick : EngineOp
  | pulseComplete : EngineOp
  | taskIteration : EngineOp

/-- Effect of one engine operation; `none` only when the task iteration is. -/
def EngineOp.apply (SCALES_COUNT : Nat) (ops : FloatOps F) :
    EngineOp → rampsHandler_t F → Option (rampsHandler_t F)
  | EngineOp.syncTick updateScales, data => some (SyncMotionIsr updateScales data)
  | EngineOp.indexTick, data => some (IndexMotionIsr ops data)
  | EngineOp.pulseComplete, data => some (RampsMotionIsr data)
  | EngineOp.taskIteration, data => RampsTask SCALES_COUNT data

/-- Effect of a sequence of engine operations, first to last. -/
def runEngineOps (SCALES_COUNT : Nat) (ops : FloatOps F) :
    List EngineOp → rampsHandler_t F → Option (rampsHandler_t F)
  | [], data => some data
  | o :: os, data =>
    match o.apply SCALES_COUNT ops data with
    | some data' => runEngineOps SCALES_COUNT ops os data'
    | none => none

/-- One drain round: a synchro tick with the sampler `updateScales`, then the
pulse-complete interrupt of the pulse it requested. -/
def drainRound (updateScales : scales_t → scales_t) (data : rampsHandler_t F) :
    rampsHandler_t F :=
  RampsMotionIsr (SyncMotionIsr updateScales data)

/-- Successive drain rounds, one per sampler of the list. -/
def drainRounds : List (scales_t → scales_t) → rampsHandler_t F → rampsHandler_t F
  | [], data => data
  | u :: us, data => drainRounds us (drainRound u data)

/-- Whether the index tick leaves `currentSpeed` above its value on entry. -/
def tickRaisesSpeed (ops : FloatOps F) (data : rampsHandler_t F) : Bool :=
  ops.lt data.shared.currentSpeed (IndexMotionIsr ops data).shared.currentSpeed

/-- Whether the index tick leaves `currentSpeed` below its value on entry. -/
def tickLowersSpeed (ops : FloatOps F) (data : rampsHandler_t F) : Bool :=
  ops.lt (IndexMotionIsr ops data).shared.currentSpeed data.shared.currentSpeed

/-- Number of the next `n` index ticks that raise `currentSpeed`. -/
def countRaising (ops : FloatOps F) : Nat → rampsHandler_t F → Nat
  | 0, _ => 0
  | n + 1, data =>
    (if tickRaisesSpeed ops data = true then 1 else 0)
      + countRaising ops n (IndexMotionIsr ops data)

/-- Number of the next `n` index ticks that lower `currentSpeed`. -/
def countLowering (ops : FloatOps F) : Nat → rampsHandler_t F → Nat
  | 0, _ => 0
  | n + 1, data =>
    (if tickLowersSpeed ops data = true then 1 else 0)
      + countLowering ops n (IndexMotionIsr ops data)

/-- A handler in `MODE_SYNCHRO_BAD_RATIO` with the rejected ratio 1:2, an index
request of 3 steps pending, the direction line high and the synchro timer
running with its update flag raised. -/
def badRatio : rampsHandler_t Rat :=
  { syncRequest 1 2 with
    dirPin := true
    shared :=
      { (syncRequest 1 2).shared with
        mode := MODE_SYNCHRO_BAD_RATIO, currentPosition := 4, finalPosition := 9
        indexDeltaSteps := 3 } }

/-- A handler in `MODE_SET_ENCODER` asking to preset scale 0 to 12345
(scenario S5), with scale 1 at position 77. -/
def presetRequest : rampsHandler_t Rat :=
  { zeroHandler with
    shared :=
      { zeroHandler.shared with
        mode := MODE_SET_ENCODER, encoderPresetIndex := 0, encoderPresetValue := 12345 }
    scales :=
      { zeroHandler.scales with
        scalePosition := fun i =>
          if i = 1 then { positionCurrent := 77, encoderCurrent := 5, encoderPrevious := 3 }
          else { positionCurrent := 0, encoderCurrent := 9, encoderPrevious := 8 } } }

/-- A handler in `MODE_SYNCHRO` with five steps outstanding
(`currentPosition = 0`, `finalPosition = 5`), the direction line low and the
synchro timer running with its update flag raised. -/
def outstanding : rampsHandler_t Rat :=
  { syncRequest 2 1 with
    shared := { (syncRequest 2 1).shared with mode := MODE_SYNCHRO, finalPosition := 5 } }

/-- The 1:1 synchro request with the master scale already at 5 while the
snapshot of the synchronizer is still 0. -/
def staleSync : rampsHandler_t Rat :=
  { syncRequest 1 1 with scales := scalesAt 0 5 (syncRequest 1 1).scales }

/-! ## Synchronizer initialisation: theorems -/

/-- C1: `SyncMotionInit` sets the mode to `MODE_SYNCHRO_BAD_RATIO` exactly when
`synRatioNum = 0`, `synRatioDen = 0` or `synRatioDen > synRatioNum`, and to
`MODE_SYNCHRO` otherwise; when it rejects, `currentPosition`, `finalPosition`,
`yi` and `D` keep their values. -/
theorem SyncMotionInit_rejects_iff (data : rampsHandler_t F) :
    ((SyncMotionInit data).shared.mode = MODE_SYNCHRO_BAD_RATIO ↔
      (data.shared.synRatioNum = 0 ∨ data.shared.synRatioDen = 0 ∨
        data.shared.synRatioDen > data.shared.synRatioNum)) ∧
    (¬ (data.shared.synRatioNum = 0 ∨ data.shared.synRatioDen = 0 ∨
        data.shared.synRatioDen > data.shared.synRatioNum) →
      (SyncMotionInit data).shared.mode = MODE_SYNCHRO) ∧
    ((data.shared.synRatioNum = 0 ∨ data.shared.synRatioDen = 0 ∨
        data.shared.synRatioDen > data.shared.synRatioNum) →
      (SyncMotionInit data).shared.currentPosition = data.shared.currentPosition ∧
      (SyncMotionInit data).shared.finalPosition = data.shared.finalPosition ∧
      (SyncMotionInit data).syncData.yi = data.syncData.yi ∧
      (SyncMotionInit data).syncData.D = data.syncData.D) := by
  by_cases h : data.shared.synRatioNum = 0 ∨ data.shared.synRatioDen = 0 ∨
      data.shared.synRatioDen > data.shared.synRatioNum
  · simp [SyncMotionInit, h]
  · simp [SyncMotionInit, h, MODE_SYNCHRO, MODE_SYNCHRO_BAD_RATIO]

/-- Witness for C1: the ratio 1:2 of scenario S3 is rejected and the positions
and Bresenham values stay as they were. -/
theorem SyncMotionInit_rejects_iff_witness :
    (SyncMotionInit (syncRequest 1 2)).shared.mode = MODE_SYNCHRO_BAD_RATIO ∧
    (SyncMotionInit (syncRequest 1 2)).shared.currentPosition
      = (syncRequest 1 2).shared.currentPosition ∧
    (SyncMotionInit (syncRequest 1 2)).shared.finalPosition
      = (syncRequest 1 2).shared.finalPosition ∧
    (SyncMotionInit (syncRequest 1 2)).syncData.yi = (syncRequest 1 2).syncData.yi ∧
    (SyncMotionInit (syncRequest 1 2)).syncData.D = (syncRequest 1 2).syncData.D :=
  ⟨(SyncMotionInit_rejects_iff (syncRequest 1 2)).1.mpr (by decide),
   (SyncMotionInit_rejects_iff (syncRequest 1 2)).2.2 (by decide)⟩

/-- C2: on an accepted ratio `SyncMotionInit` leaves `yi = sign(synRatioDen)`,
which is `1` or `-1`, `D = 2 * (synRatioDen - synRatioNum)`, the mode
`MODE_SYNCHRO`, `finalPosition` as it was and `currentPosition` equal to it. -/
theorem SyncMotionInit_accepts (data : rampsHandler_t F)
    (hacc : ¬ (data.shared.synRatioNum = 0 ∨ data.shared.synRatioDen = 0 ∨
        data.shared.synRatioDen > data.shared.synRatioNum)) :
    (SyncMotionInit data).syncData.yi = Int.sign data.shared.synRatioDen ∧
    ((SyncMotionInit data).syncData.yi = 1 ∨ (SyncMotionInit data).syncData.yi = -1) ∧
    (SyncMotionInit data).syncData.D = 2 * (data.shared.synRatioDen - data.shared.synRatioNum) ∧
    (SyncMotionInit data).shared.mode = MODE_SYNCHRO ∧
    (SyncMotionInit data).shared.finalPosition = data.shared.finalPosition ∧
    (SyncMotionInit data).shared.currentPosition = data.shared.finalPosition := by
  have hden : data.shared.synRatioDen ≠ 0 := fun h0 => hacc (Or.inr (Or.inl h0))
  by_cases hneg : data.shared.synRatioDen < 0
  · simp [SyncMotionInit, hacc, hneg, Int.sign_eq_neg_one_of_neg hneg]
  · have hpos : 0 < data.shared.synRatioDen := by omega
    simp [SyncMotionInit, hacc, hneg, Int.sign_eq_one_of_pos hpos]

/-- Witness for C2: the ratio 2:1 of scenario S1, with five steps outstanding
before the initialisation. -/
theorem SyncMotionInit_accepts_witness :
    ¬ (pendingSync.shared.synRatioNum = 0 ∨ pendingSync.shared.synRatioDen = 0 ∨
        pendingSync.shared.synRatioDen > pendingSync.shared.synRatioNum) ∧
    (SyncMotionInit pendingSync).syncData.D = -2 ∧
    (SyncMotionInit pendingSync).shared.currentPosition = 12 :=
  ⟨by decide,
   (SyncMotionInit_accepts pendingSync (by decide)).2.2.1,
   (SyncMotionInit_accepts pendingSync (by decide)).2.2.2.2.2⟩

/-! ## Pulse-complete callback and the writers of `currentPosition` -/

/-- C6 as stated fails: in `MODE_HALT` with the direction line high the pulse
interrupt leaves `currentPosition` at 0 instead of adding one. -/
theorem RampsMotionIsr_halt_counterexample :
    haltHigh.dirPin = true ∧ haltHigh.shared.currentPosition = 0 ∧
    (RampsMotionIsr haltHigh).shared.currentPosition = 0 ∧
    (RampsMotionIsr haltHigh).shared.currentPosition ≠ haltHigh.shared.currentPosition + 1 := by
  decide

/-- C6, amended: in `MODE_SYNCHRO`, `RampsMotionIsr` adds one to
`currentPosition` when the direction line is high and subtracts one when it is
low, leaving every other register-window field, the synchronizer state and the
indexer state as they were; in any other mode it changes nothing at all. -/
theorem RampsMotionIsr_counts_pulse (data : rampsHandler_t F) :
    (data.shared.mode = MODE_SYNCHRO → data.dirPin = true →
      (RampsMotionIsr data).shared =
        { data.shared with currentPosition := data.shared.currentPosition + 1 }) ∧
    (data.shared.mode = MODE_SYNCHRO → data.dirPin = false →
      (RampsMotionIsr data).shared =
        { data.shared with currentPosition := data.shared.currentPosition - 1 }) ∧
    (data.shared.mode = MODE_SYNCHRO →
      (RampsMotionIsr data).syncData = data.syncData ∧
      (RampsMotionIsr data).indexData = data.indexData) ∧
    (data.shared.mode ≠ MODE_SYNCHRO → RampsMotionIsr data = data) := by
  refine ⟨?_, ?_, ?_, ?_⟩
  · intro hm hd
    simp [RampsMotionIsr, motorSynchroModeIsr, hm, hd]
  · intro hm hd
    simp [RampsMotionIsr, motorSynchroModeIsr, hm, hd]
  · intro hm
    cases hd : data.dirPin <;> simp [RampsMotionIsr, motorSynchroModeIsr, hm, hd]
  · intro hm
    simp [RampsMotionIsr, hm]

/-- Witness for the amended C6: in `MODE_SYNCHRO` with the line high the
position goes from 3 to 4. -/
theorem RampsMotionIsr_counts_pulse_witness :
    synchroHigh.shared.mode = MODE_SYNCHRO ∧ synchroHigh.dirPin = true ∧
    (RampsMotionIsr synchroHigh).shared =
      { synchroHigh.shared with currentPosition := synchroHigh.shared.currentPosition + 1 } ∧
    haltHigh.shared.mode ≠ MODE_SYNCHRO ∧ RampsMotionIsr haltHigh = haltHigh :=
  ⟨by decide, by decide,
   (RampsMotionIsr_counts_pulse synchroHigh).1 (by decide) (by decide),
   by decide,
   (RampsMotionIsr_counts_pulse haltHigh).2.2.2 (by decide)⟩

/-- C7 as stated fails: `SyncMotionInit` on an accepted ratio overwrites
`currentPosition` (7 becomes 12), and so does the task iteration that calls
it. -/
theorem SyncMotionInit_writes_currentPosition_counterexample :
    pendingSync.shared.currentPosition = 7 ∧
    (SyncMotionInit pendingSync).shared.currentPosition = 12 ∧
    (RampsTask 4 pendingSync).map (fun d => d.shared.currentPosition) = some 12 := by
  decide

/-- The synchro tick never writes `currentPosition`. -/
theorem SyncMotionIsr_currentPosition (updateScales : scales_t → scales_t)
    (data : rampsHandler_t F) :
    (SyncMotionIsr updateScales data).shared.currentPosition = data.shared.currentPosition := by
  unfold SyncMotionIsr
  simp only
  split_ifs <;> rfl

/-! ## Effect of the indexer blocks, field by field -/

@[simp] theorem indexAccelerate_mode (ops : FloatOps F) (data : rampsHandler_t F) :
    (indexAccelerate ops data).shared.mode = data.shared.mode := by
  unfold indexAccelerate
  split_ifs <;> rfl

@[simp] theorem indexAccelerate_currentPosition (ops : FloatOps F) (data : rampsHandler_t F) :
    (indexAccelerate ops data).shared.currentPosition = data.shared.currentPosition := by
  unfold indexAccelerate
  split_ifs <;> rfl

@[simp] theorem indexAccelerate_finalPosition (ops : FloatOps F) (data : rampsHandler_t F) :
    (indexAccelerate ops data).shared.finalPosition = data.shared.finalPosition := by
  unfold indexAccelerate
  split_ifs <;> rfl

@[simp] theorem indexAccelerate_indexDeltaSteps (ops : FloatOps F) (data : rampsHandler_t F) :
    (indexAccelerate ops data).shared.indexDeltaSteps = data.shared.indexDeltaSteps := by
  unfold indexAccelerate
  split_ifs <;> rfl

@[simp] theorem indexAccelerate_currentStep (ops : FloatOps F) (data : rampsHandler_t F) :
    (indexAccelerate ops data).indexData.currentStep = data.indexData.currentStep := by
  unfold indexAccelerate
  split_ifs <;> rfl

@[simp] theorem indexAccelerate_totalSteps (ops : FloatOps F) (data : rampsHandler_t F) :
    (indexAccelerate ops data).indexData.totalSteps = data.indexData.totalSteps := by
  unfold indexAccelerate
  split_ifs <;> rfl

@[simp] theorem indexAccelerate_indexDirection (ops : FloatOps F) (data : rampsHandler_t F) :
    (indexAccelerate ops data).indexData.direction = data.indexData.direction := by
  unfold indexAccelerate
  split_ifs <;> rfl

@[simp] theorem indexDecelerate_mode (ops : FloatOps F) (data : rampsHandler_t F) :
    (indexDecelerate ops data).shared.mode = data.shared.mode := by
  unfold indexDecelerate
  split_ifs <;> rfl

@[simp] theorem indexDecelerate_currentPosition (ops : FloatOps F) (data : rampsHandler_t F) :
    (indexDecelerate ops data).shared.currentPosition = data.shared.currentPosition := by
  unfold indexDecelerate
  split_ifs <;> rfl

@[simp] theorem indexDecelerate_finalPosition (ops : FloatOps F) (data : rampsHandler_t F) :
    (indexDecelerate ops data).shared.finalPosition = data.shared.finalPosition := by
  unfold indexDecelerate
  split_ifs <;> rfl

@[simp] theorem indexDecelerate_indexDeltaSteps (ops : FloatOps F) (data : rampsHandler_t F) :
    (indexDecelerate ops data).shared.indexDeltaSteps = data.shared.indexDeltaSteps := by
  unfold indexDecelerate
  split_ifs <;> rfl

@[simp] theorem indexDecelerate_currentStep (ops : FloatOps F) (data : rampsHandler_t F) :
    (indexDecelerate ops data).indexData.currentStep = data.indexData.currentStep := by
  unfold indexDecelerate
  split_ifs <;> rfl

@[simp] theorem indexDecelerate_totalSteps (ops : FloatOps F) (data : rampsHandler_t F) :
    (indexDecelerate ops data).indexData.totalSteps = data.indexData.totalSteps := by
  unfold indexDecelerate
  split_ifs <;> rfl

@[simp] theorem indexDecelerate_indexDirection (ops : FloatOps F) (data : rampsHandler_t F) :
    (indexDecelerate ops data).indexData.direction = data.indexData.direction := by
  unfold indexDecelerate
  split_ifs <;> rfl

@[simp] theorem indexDecelerate_decelSteps (ops : FloatOps F) (data : rampsHandler_t F) :
    (indexDecelerate ops data).indexData.decelSteps = data.indexData.decelSteps := by
  unfold indexDecelerate
  split_ifs <;> rfl

theorem indexAccelerate_decelSteps_zero (ops : FloatOps F) (data : rampsHandler_t F)
    (hd : data.indexData.decelSteps = 0) (hc : data.indexData.currentStep = 0) :
    (indexAccelerate ops data).indexData.decelSteps = 0 := by
  unfold indexAccelerate
  split_ifs <;> simp [hd, hc]

@[simp] theorem indexProgramTimer_shared (ops : FloatOps F) (data : rampsHandler_t F) :
    (indexProgramTimer ops data).shared = data.shared := by
  unfold indexProgramTimer
  split_ifs <;> rfl

@[simp] theorem indexProgramTimer_indexData (ops : FloatOps F) (data : rampsHandler_t F) :
    (indexProgramTimer ops data).indexData = data.indexData := by
  unfold indexProgramTimer
  split_ifs <;> rfl

@[simp] theorem indexStart_mode (ops : FloatOps F) (data : rampsHandler_t F) :
    (indexStart ops data).shared.mode = data.shared.mode := by
  unfold indexStart
  split_ifs <;> rfl

@[simp] theorem indexStart_currentPosition (ops : FloatOps F) (data : rampsHandler_t F) :
    (indexStart ops data).shared.currentPosition = data.shared.currentPosition := by
  unfold indexStart
  split_ifs <;> rfl

@[simp] theorem indexStart_finalPosition (ops : FloatOps F) (data : rampsHandler_t F) :
    (indexStart ops data).shared.finalPosition = data.shared.finalPosition := by
  unfold indexStart
  split_ifs <;> rfl

/-- The index tick never writes `currentPosition`. -/
theorem IndexMotionIsr_currentPosition (ops : FloatOps F) (data : rampsHandler_t F) :
    (IndexMotionIsr ops data).shared.currentPosition = data.shared.currentPosition := by
  unfold IndexMotionIsr
  simp only
  split_ifs <;> simp [indexEmit]

/-- The mode left by `SyncMotionInit` is never `MODE_SET_ENCODER`. -/
theorem SyncMotionInit_mode_ne_set_encoder (data : rampsHandler_t F) :
    (SyncMotionInit data).shared.mode ≠ MODE_SET_ENCODER := by
  unfold SyncMotionInit
  simp only
  split_ifs
  · exact (by decide : MODE_SYNCHRO_BAD_RATIO ≠ MODE_SET_ENCODER)
  · exact (by decide : MODE_SYNCHRO ≠ MODE_SET_ENCODER)
  · exact (by decide : MODE_SYNCHRO ≠ MODE_SET_ENCODER)

/-- `SyncMotionInit` overwrites `currentPosition` with `finalPosition` exactly
when it accepts the ratio. -/
theorem SyncMotionInit_currentPosition (data : rampsHandler_t F) :
    (SyncMotionInit data).shared.currentPosition =
      if data.shared.synRatioNum = 0 ∨ data.shared.synRatioDen = 0 ∨
          data.shared.synRatioDen > data.shared.synRatioNum
      then data.shared.currentPosition else data.shared.finalPosition := by
  unfold SyncMotionInit
  simp only
  split_ifs <;> rfl

/-- A task iteration is defined unless it is asked to preset a scale outside
the arrays. -/
theorem RampsTask_isSome (SCALES_COUNT : Nat) (data : rampsHandler_t F) :
    (RampsTask SCALES_COUNT data).isSome = true ↔
      ¬ (data.shared.mode = MODE_SET_ENCODER ∧ SCALES_COUNT ≤ data.shared.encoderPresetIndex) := by
  unfold RampsTask
  simp only
  by_cases hinit : (taskRefreshScales SCALES_COUNT data).shared.mode = MODE_SYNCHRO_INIT
  · have hne := SyncMotionInit_mode_ne_set_encoder (taskRefreshScales SCALES_COUNT data)
    have hm : data.shared.mode = MODE_SYNCHRO_INIT := hinit
    have hm2 : data.shared.mode ≠ MODE_SET_ENCODER := by rw [hm]; decide
    simp [hinit, hne, hm2]
  · rw [if_neg hinit]
    have hmode : (taskRefreshScales SCALES_COUNT data).shared.mode = data.shared.mode := rfl
    have hidx : (taskRefreshScales SCALES_COUNT data).shared.encoderPresetIndex
        = data.shared.encoderPresetIndex := rfl
    rw [hmode, hidx]
    by_cases hset : data.shared.mode = MODE_SET_ENCODER
    · by_cases hlt : data.shared.encoderPresetIndex < SCALES_COUNT
      · simp [hset, hlt]
      · simp [hset, hlt]
    · simp [hset]

/-- A task iteration changes `currentPosition` only through `SyncMotionInit`. -/
theorem RampsTask_currentPosition (SCALES_COUNT : Nat) (data data' : rampsHandler_t F)
    (hrun : RampsTask SCALES_COUNT data = some data') :
    data'.shared.currentPosition =
      if data.shared.mode = MODE_SYNCHRO_INIT ∧
          ¬ (data.shared.synRatioNum = 0 ∨ data.shared.synRatioDen = 0 ∨
            data.shared.synRatioDen > data.shared.synRatioNum)
      then data.shared.finalPosition else data.shared.currentPosition := by
  unfold RampsTask at hrun
  simp only at hrun
  have hmode : (taskRefreshScales SCALES_COUNT data).shared.mode = data.shared.mode := rfl
  by_cases hinit : data.shared.mode = MODE_SYNCHRO_INIT
  · have hne := SyncMotionInit_mode_ne_set_encoder (taskRefreshScales SCALES_COUNT data)
    rw [hmode, if_pos hinit, if_neg hne] at hrun
    have hd : data' = SyncMotionInit (taskRefreshScales SCALES_COUNT data) :=
      (Option.some.inj hrun).symm
    rw [hd, SyncMotionInit_currentPosition]
    by_cases hrej : data.shared.synRatioNum = 0 ∨ data.shared.synRatioDen = 0 ∨
        data.shared.synRatioDen > data.shared.synRatioNum
    · have hrej' : (taskRefreshScales SCALES_COUNT data).shared.synRatioNum = 0 ∨
          (taskRefreshScales SCALES_COUNT data).shared.synRatioDen = 0 ∨
          (taskRefreshScales SCALES_COUNT data).shared.synRatioDen >
            (taskRefreshScales SCALES_COUNT data).shared.synRatioNum := hrej
      rw [if_pos hrej', if_neg (fun h => h.2 hrej)]
      rfl
    · have hrej' : ¬ ((taskRefreshScales SCALES_COUNT data).shared.synRatioNum = 0 ∨
          (taskRefreshScales SCALES_COUNT data).shared.synRatioDen = 0 ∨
          (taskRefreshScales SCALES_COUNT data).shared.synRatioDen >
            (taskRefreshScales SCALES_COUNT data).shared.synRatioNum) := hrej
      rw [if_neg hrej', if_pos ⟨hinit, hrej⟩]
      rfl
  · rw [hmode, if_neg hinit, hmode] at hrun
    rw [if_neg (fun h => hinit h.1)]
    by_cases hset : data.shared.mode = MODE_SET_ENCODER
    · rw [if_pos hset] at hrun
      by_cases hlt : (taskRefreshScales SCALES_COUNT data).shared.encoderPresetIndex < SCALES_COUNT
      · rw [if_pos hlt] at hrun
        have hd : data' = taskSetEncoder (taskRefreshScales SCALES_COUNT data) :=
          (Option.some.inj hrun).symm
        rw [hd]
        rfl
      · rw [if_neg hlt] at hrun
        exact absurd hrun (by simp)
    · rw [if_neg hset] at hrun
      have hd : data' = taskRefreshScales SCALES_COUNT data := (Option.some.inj hrun).symm
      rw [hd]
      rfl

/-- C7, amended: the synchro tick and the index tick leave `currentPosition`
unchanged in every state; `SyncMotionInit` leaves it unchanged when it rejects
the ratio and sets it to `finalPosition` when it accepts; a task iteration
(which is defined unless a preset addresses a scale outside the arrays)
changes `currentPosition` only through `SyncMotionInit`, that is in
`MODE_SYNCHRO_INIT` with an accepted ratio. -/
theorem currentPosition_writers (SCALES_COUNT : Nat) (ops : FloatOps F)
    (updateScales : scales_t → scales_t) (data : rampsHandler_t F) :
    (SyncMotionIsr updateScales data).shared.currentPosition = data.shared.currentPosition ∧
    (IndexMotionIsr ops data).shared.currentPosition = data.shared.currentPosition ∧
    (SyncMotionInit data).shared.currentPosition =
      (if data.shared.synRatioNum = 0 ∨ data.shared.synRatioDen = 0 ∨
          data.shared.synRatioDen > data.shared.synRatioNum
        then data.shared.currentPosition else data.shared.finalPosition) ∧
    ((RampsTask SCALES_COUNT data).isSome = true ↔
      ¬ (data.shared.mode = MODE_SET_ENCODER ∧ SCALES_COUNT ≤ data.shared.encoderPresetIndex)) ∧
    (∀ data', RampsTask SCALES_COUNT data = some data' →
      data'.shared.currentPosition =
        if data.shared.mode = MODE_SYNCHRO_INIT ∧
            ¬ (data.shared.synRatioNum = 0 ∨ data.shared.synRatioDen = 0 ∨
              data.shared.synRatioDen > data.shared.synRatioNum)
        then data.shared.finalPosition else data.shared.currentPosition) :=
  ⟨SyncMotionIsr_currentPosition updateScales data,
    IndexMotionIsr_currentPosition ops data, SyncMotionInit_currentPosition data,
    RampsTask_isSome SCALES_COUNT data,
    fun data' hrun => RampsTask_currentPosition SCALES_COUNT data data' hrun⟩

/-- Witness for the amended C7: with four scales, the task iteration on the
pending 2:1 request is defined, returns the state left by `SyncMotionInit`,
and has moved `currentPosition` from 7 to `finalPosition = 12`. -/
theorem currentPosition_writers_witness :
    ¬ (pendingSync.shared.mode = MODE_SET_ENCODER ∧ 4 ≤ pendingSync.shared.encoderPresetIndex) ∧
    (RampsTask 4 pendingSync).isSome = true ∧
    RampsTask 4 pendingSync = some (SyncMotionInit (taskRefreshScales 4 pendingSync)) ∧
    (SyncMotionInit (taskRefreshScales 4 pendingSync)).shared.currentPosition =
      (if pendingSync.shared.mode = MODE_SYNCHRO_INIT ∧
          ¬ (pendingSync.shared.synRatioNum = 0 ∨ pendingSync.shared.synRatioDen = 0 ∨
            pendingSync.shared.synRatioDen > pendingSync.shared.synRatioNum)
        then pendingSync.shared.finalPosition else pendingSync.shared.currentPosition) ∧
    (SyncMotionInit (taskRefreshScales 4 pendingSync)).shared.currentPosition = 12 :=
  ⟨by decide,
   (currentPosition_writers 4 ratOps id pendingSync).2.2.2.1.mpr (by decide),
   rfl,
   (currentPosition_writers 4 ratOps id pendingSync).2.2.2.2
     (SyncMotionInit (taskRefreshScales 4 pendingSync)) rfl,
   by decide⟩

/-! ## Indexer: acceptance, completion and the step-counter invariant -/

/-- The start block on an idle indexer with a pending request. -/
theorem indexStart_of_request (ops : FloatOps F) (data : rampsHandler_t F)
    (hidle : data.indexData.currentStep = data.indexData.totalSteps)
    (hk : data.shared.indexDeltaSteps ≠ 0) :
    (indexStart ops data).shared.indexDeltaSteps = 0 ∧
    (indexStart ops data).indexData.currentStep = 0 ∧
    (indexStart ops data).indexData.totalSteps = |data.shared.indexDeltaSteps| ∧
    (indexStart ops data).indexData.direction
      = (if data.shared.indexDeltaSteps > 0 then 1 else -1) ∧
    (indexStart ops data).indexData.decelSteps = 0 := by
  unfold indexStart
  rw [if_pos ⟨hk, hidle⟩]
  exact ⟨rfl, rfl, rfl, rfl, rfl⟩

/-- The start block does nothing unless a request is pending on an idle
indexer. -/
theorem indexStart_of_not (ops : FloatOps F) (data : rampsHandler_t F)
    (h : ¬ (data.shared.indexDeltaSteps ≠ 0 ∧
      data.indexData.currentStep = data.indexData.totalSteps)) :
    indexStart ops data = data := by
  unfold indexStart
  rw [if_neg h]

/-- A tick that passes the idle test emits one step: the fields after the tick
in terms of the state left by the start block. -/
theorem IndexMotionIsr_of_busy (ops : FloatOps F) (data : rampsHandler_t F)
    (h : ¬ ((indexStart ops data).shared.indexDeltaSteps = 0 ∧
      (indexStart ops data).indexData.currentStep = (indexStart ops data).indexData.totalSteps)) :
    (IndexMotionIsr ops data).shared.indexDeltaSteps
      = (indexStart ops data).shared.indexDeltaSteps ∧
    (IndexMotionIsr ops data).indexData.currentStep
      = (indexStart ops data).indexData.currentStep + 1 ∧
    (IndexMotionIsr ops data).indexData.totalSteps = (indexStart ops data).indexData.totalSteps ∧
    (IndexMotionIsr ops data).indexData.direction = (indexStart ops data).indexData.direction ∧
    (IndexMotionIsr ops data).shared.finalPosition
      = data.shared.finalPosition + (indexStart ops data).indexData.direction := by
  unfold IndexMotionIsr
  simp only
  rw [if_neg h]
  simp [indexEmit]

/-- A tick on an idle indexer with nothing pending only rearms the index
timer. -/
theorem IndexMotionIsr_of_idle (ops : FloatOps F) (data : rampsHandler_t F)
    (hidle : data.indexData.currentStep = data.indexData.totalSteps)
    (hk : data.shared.indexDeltaSteps = 0) :
    IndexMotionIsr ops data =
      { data with indexRefreshTimer := { data.indexRefreshTimer with ARR := 10000, CCR1 := 10 } } := by
  have hs : indexStart ops data = data := indexStart_of_not ops data (fun h => h.1 hk)
  unfold IndexMotionIsr
  simp only
  rw [hs, if_pos ⟨hk, hidle⟩]

/-- The accepting tick: the request is acknowledged, the move is latched and
the first step is emitted. -/
theorem IndexMotionIsr_first_step (ops : FloatOps F) (data : rampsHandler_t F)
    (hidle : data.indexData.currentStep = data.indexData.totalSteps)
    (hk : data.shared.indexDeltaSteps ≠ 0) :
    (IndexMotionIsr ops data).shared.indexDeltaSteps = 0 ∧
    (IndexMotionIsr ops data).indexData.totalSteps = |data.shared.indexDeltaSteps| ∧
    (IndexMotionIsr ops data).indexData.direction = Int.sign data.shared.indexDeltaSteps ∧
    (IndexMotionIsr ops data).indexData.decelSteps = 0 ∧
    (IndexMotionIsr ops data).indexData.currentStep = 1 ∧
    (IndexMotionIsr ops data).shared.finalPosition
      = data.shared.finalPosition + Int.sign data.shared.indexDeltaSteps := by
  obtain ⟨h1, h2, h3, h4, h5⟩ := indexStart_of_request ops data hidle hk
  have habs : |data.shared.indexDeltaSteps| ≠ 0 := abs_ne_zero.mpr hk
  have hbusy : ¬ ((indexStart ops data).shared.indexDeltaSteps = 0 ∧
      (indexStart ops data).indexData.currentStep
        = (indexStart ops data).indexData.totalSteps) := by
    rw [h2, h3]
    exact fun h => habs h.2.symm
  obtain ⟨b1, b2, b3, b4, b5⟩ := IndexMotionIsr_of_busy ops data hbusy
  have hsign : (if data.shared.indexDeltaSteps > 0 then (1 : Int) else -1)
      = Int.sign data.shared.indexDeltaSteps := by
    by_cases hpos : data.shared.indexDeltaSteps > 0
    · rw [if_pos hpos, Int.sign_eq_one_of_pos hpos]
    · have hneg : data.shared.indexDeltaSteps < 0 := by omega
      rw [if_neg hpos, Int.sign_eq_neg_one_of_neg hneg]
  refine ⟨by rw [b1, h1], by rw [b3, h3], by rw [b4, h4, hsign], ?_, by rw [b2, h2]; rfl,
    by rw [b5, h4, hsign]⟩
  unfold IndexMotionIsr
  simp only
  rw [if_neg hbusy]
  simp [indexEmit, indexAccelerate_decelSteps_zero ops (indexStart ops data) h5 h2]

/-- C8: on an idle indexer (`currentStep = totalSteps`) with a request
`indexDeltaSteps = k ≠ 0`, one index tick leaves `indexDeltaSteps = 0`,
`totalSteps = |k|`, `direction = sign k`, `decelSteps = 0`, and, as the same
tick emits a step, `currentStep = 1` and `finalPosition` moved by `sign k`.
For `k` a 16-bit value, `-32768` included, the latched length lies in
`1 .. 32768`, inside the 32-bit range of `totalSteps`. -/
theorem IndexMotionIsr_accepts (ops : FloatOps F) (data : rampsHandler_t F)
    (hidle : data.indexData.currentStep = data.indexData.totalSteps)
    (hk : data.shared.indexDeltaSteps ≠ 0) :
    (IndexMotionIsr ops data).shared.indexDeltaSteps = 0 ∧
    (IndexMotionIsr ops data).indexData.totalSteps = |data.shared.indexDeltaSteps| ∧
    (IndexMotionIsr ops data).indexData.direction = Int.sign data.shared.indexDeltaSteps ∧
    (IndexMotionIsr ops data).indexData.decelSteps = 0 ∧
    (IndexMotionIsr ops data).indexData.currentStep = 1 ∧
    (IndexMotionIsr ops data).shared.finalPosition
      = data.shared.finalPosition + Int.sign data.shared.indexDeltaSteps ∧
    (-32768 ≤ data.shared.indexDeltaSteps → data.shared.indexDeltaSteps ≤ 32767 →
      1 ≤ (IndexMotionIsr ops data).indexData.totalSteps ∧
      (IndexMotionIsr ops data).indexData.totalSteps ≤ 32768) := by
  obtain ⟨h1, h2, h3, h4, h5, h6⟩ := IndexMotionIsr_first_step ops data hidle hk
  refine ⟨h1, h2, h3, h4, h5, h6, fun hlo hhi => ?_⟩
  rw [h2]
  have hpos : 0 < |data.shared.indexDeltaSteps| := abs_pos.mpr hk
  have hle : |data.shared.indexDeltaSteps| ≤ 32768 := abs_le.mpr ⟨by omega, by omega⟩
  exact ⟨by omega, hle⟩

/-- Witness for C8: the request `k = -32768`, the least 16-bit value, on the
zero-initialised indexer; the latched length is 32768. -/
theorem IndexMotionIsr_accepts_witness :
    (indexRequest (-32768)).indexData.currentStep = (indexRequest (-32768)).indexData.totalSteps ∧
    (indexRequest (-32768)).shared.indexDeltaSteps ≠ 0 ∧
    (IndexMotionIsr ratOps (indexRequest (-32768))).shared.indexDeltaSteps = 0 ∧
    (IndexMotionIsr ratOps (indexRequest (-32768))).indexData.totalSteps
      = |(indexRequest (-32768)).shared.indexDeltaSteps| ∧
    (IndexMotionIsr ratOps (indexRequest (-32768))).indexData.direction
      = Int.sign (indexRequest (-32768)).shared.indexDeltaSteps ∧
    1 ≤ (IndexMotionIsr ratOps (indexRequest (-32768))).indexData.totalSteps ∧
    (IndexMotionIsr ratOps (indexRequest (-32768))).indexData.totalSteps ≤ 32768 :=
  ⟨by decide, by decide,
   (IndexMotionIsr_accepts ratOps (indexRequest (-32768)) (by decide) (by decide)).1,
   (IndexMotionIsr_accepts ratOps (indexRequest (-32768)) (by decide) (by decide)).2.1,
   (IndexMotionIsr_accepts ratOps (indexRequest (-32768)) (by decide) (by decide)).2.2.1,
   (IndexMotionIsr_accepts ratOps (indexRequest (-32768)) (by decide) (by decide)).2.2.2.2.2.2
     (by decide) (by decide)⟩

/-- A tick in the middle of a move (`currentStep` different from
`totalSteps`) accepts nothing and emits one step in the latched direction. -/
theorem IndexMotionIsr_moving (ops : FloatOps F) (data : rampsHandler_t F)
    (hbusy : data.indexData.currentStep ≠ data.indexData.totalSteps) :
    (IndexMotionIsr ops data).shared.indexDeltaSteps = data.shared.indexDeltaSteps ∧
    (IndexMotionIsr ops data).indexData.currentStep = data.indexData.currentStep + 1 ∧
    (IndexMotionIsr ops data).indexData.totalSteps = data.indexData.totalSteps ∧
    (IndexMotionIsr ops data).indexData.direction = data.indexData.direction ∧
    (IndexMotionIsr ops data).shared.finalPosition
      = data.shared.finalPosition + data.indexData.direction := by
  have hs : indexStart ops data = data := indexStart_of_not ops data (fun h => hbusy h.2)
  have hb : ¬ ((indexStart ops data).shared.indexDeltaSteps = 0 ∧
      (indexStart ops data).indexData.currentStep
        = (indexStart ops data).indexData.totalSteps) := by
    rw [hs]
    exact fun h => hbusy h.2
  have h := IndexMotionIsr_of_busy ops data hb
  rw [hs] at h
  exact h

/-- Progress of an accepted move: after `j` ticks, `1 ≤ j ≤ |k|`, exactly `j`
steps have been emitted in the direction of `k`. -/
theorem IndexMotionIsr_progress (ops : FloatOps F) (data : rampsHandler_t F)
    (hidle : data.indexData.currentStep = data.indexData.totalSteps)
    (hk : data.shared.indexDeltaSteps ≠ 0) (j : Nat) :
    j + 1 ≤ data.shared.indexDeltaSteps.natAbs →
    ((IndexMotionIsr ops)^[j + 1] data).shared.indexDeltaSteps = 0 ∧
    ((IndexMotionIsr ops)^[j + 1] data).indexData.currentStep = (j : Int) + 1 ∧
    ((IndexMotionIsr ops)^[j + 1] data).indexData.totalSteps = |data.shared.indexDeltaSteps| ∧
    ((IndexMotionIsr ops)^[j + 1] data).indexData.direction
      = Int.sign data.shared.indexDeltaSteps ∧
    ((IndexMotionIsr ops)^[j + 1] data).shared.finalPosition
      = data.shared.finalPosition + ((j : Int) + 1) * Int.sign data.shared.indexDeltaSteps := by
  induction j with
  | zero =>
    intro _
    obtain ⟨h1, h2, h3, _, h5, h6⟩ := IndexMotionIsr_first_step ops data hidle hk
    simp only [Function.iterate_succ, Function.iterate_zero, Function.comp_apply, id_eq]
    refine ⟨h1, by rw [h5]; simp, h2, h3, by rw [h6]; simp⟩
  | succ i ih =>
    intro hle
    obtain ⟨a1, a2, a3, a4, a5⟩ := ih (by omega)
    rw [Function.iterate_succ_apply']
    have hbusy : ((IndexMotionIsr ops)^[i + 1] data).indexData.currentStep
        ≠ ((IndexMotionIsr ops)^[i + 1] data).indexData.totalSteps := by
      rw [a2, a3]
      have : |data.shared.indexDeltaSteps| = (data.shared.indexDeltaSteps.natAbs : Int) :=
        Int.abs_eq_natAbs _
      omega
    obtain ⟨b1, b2, b3, b4, b5⟩ :=
      IndexMotionIsr_moving ops ((IndexMotionIsr ops)^[i + 1] data) hbusy
    refine ⟨by rw [b1, a1], by rw [b2, a2]; push_cast; ring, by rw [b3, a3], by rw [b4, a4], ?_⟩
    rw [b5, a5, a4]
    push_cast
    ring

/-- Ticks on an idle indexer with nothing pending change neither the register
window nor the indexer state. -/
theorem IndexMotionIsr_idle_iterate (ops : FloatOps F) (data : rampsHandler_t F)
    (hidle : data.indexData.currentStep = data.indexData.totalSteps)
    (hk : data.shared.indexDeltaSteps = 0) (m : Nat) :
    ((IndexMotionIsr ops)^[m] data).shared = data.shared ∧
    ((IndexMotionIsr ops)^[m] data).indexData = data.indexData := by
  induction m with
  | zero => exact ⟨rfl, rfl⟩
  | succ i ih =>
    rw [Function.iterate_succ_apply']
    have hi : ((IndexMotionIsr ops)^[i] data).indexData.currentStep
        = ((IndexMotionIsr ops)^[i] data).indexData.totalSteps := by rw [ih.2]; exact hidle
    have hz : ((IndexMotionIsr ops)^[i] data).shared.indexDeltaSteps = 0 := by rw [ih.1]; exact hk
    rw [IndexMotionIsr_of_idle ops _ hi hz]
    exact ih

/-- C9: from an idle indexer with `indexDeltaSteps = k ≠ 0`, ticking the index
timer with no other writer, for every float semantics and every value of the
profile registers: after `j` ticks, `1 ≤ j ≤ |k|`, `finalPosition` has moved by
`j * sign k`; after exactly `|k|` ticks `finalPosition` is the initial value
plus `k`, `currentStep = totalSteps = |k|` and `indexDeltaSteps = 0`; and any
number of further ticks leaves the register window and the indexer state, so
`finalPosition` and the step counters, unchanged. -/
theorem IndexMotionIsr_move_completes (ops : FloatOps F) (data : rampsHandler_t F)
    (hidle : data.indexData.currentStep = data.indexData.totalSteps)
    (hk : data.shared.indexDeltaSteps ≠ 0) :
    (∀ j : Nat, 1 ≤ j → j ≤ data.shared.indexDeltaSteps.natAbs →
      ((IndexMotionIsr ops)^[j] data).shared.finalPosition
        = data.shared.finalPosition + (j : Int) * Int.sign data.shared.indexDeltaSteps ∧
      ((IndexMotionIsr ops)^[j] data).indexData.currentStep = (j : Int)) ∧
    ((IndexMotionIsr ops)^[data.shared.indexDeltaSteps.natAbs] data).shared.finalPosition
      = data.shared.finalPosition + data.shared.indexDeltaSteps ∧
    ((IndexMotionIsr ops)^[data.shared.indexDeltaSteps.natAbs] data).indexData.currentStep
      = |data.shared.indexDeltaSteps| ∧
    ((IndexMotionIsr ops)^[data.shared.indexDeltaSteps.natAbs] data).indexData.totalSteps
      = |data.shared.indexDeltaSteps| ∧
    ((IndexMotionIsr ops)^[data.shared.indexDeltaSteps.natAbs] data).shared.indexDeltaSteps = 0 ∧
    (∀ m : Nat,
      ((IndexMotionIsr ops)^[data.shared.indexDeltaSteps.natAbs + m] data).shared
        = ((IndexMotionIsr ops)^[data.shared.indexDeltaSteps.natAbs] data).shared ∧
      ((IndexMotionIsr ops)^[data.shared.indexDeltaSteps.natAbs + m] data).indexData
        = ((IndexMotionIsr ops)^[data.shared.indexDeltaSteps.natAbs] data).indexData) := by
  have hpos : 0 < data.shared.indexDeltaSteps.natAbs := Int.natAbs_pos.mpr hk
  have habs : |data.shared.indexDeltaSteps| = (data.shared.indexDeltaSteps.natAbs : Int) :=
    Int.abs_eq_natAbs _
  obtain ⟨n, hn⟩ : ∃ n, data.shared.indexDeltaSteps.natAbs = n + 1 :=
    ⟨data.shared.indexDeltaSteps.natAbs - 1, by omega⟩
  obtain ⟨e1, e2, e3, e4, e5⟩ := IndexMotionIsr_progress ops data hidle hk n (by omega)
  have hfin : ((n : Int) + 1) * Int.sign data.shared.indexDeltaSteps
      = data.shared.indexDeltaSteps := by
    have h1 : ((n : Int) + 1) = (data.shared.indexDeltaSteps.natAbs : Int) := by
      rw [hn]; push_cast; ring
    rw [h1, mul_comm, Int.sign_mul_natAbs]
  refine ⟨?_, ?_, ?_, ?_, ?_, ?_⟩
  · intro j hj1 hj2
    obtain ⟨i, rfl⟩ : ∃ i, j = i + 1 := ⟨j - 1, by omega⟩
    obtain ⟨_, p2, _, _, p5⟩ := IndexMotionIsr_progress ops data hidle hk i hj2
    exact ⟨by rw [p5]; push_cast; ring, by rw [p2]; push_cast; ring⟩
  · rw [hn, e5, hfin]
  · rw [hn, e2, habs, hn]; push_cast; ring
  · rw [hn, e3]
  · rw [hn, e1]
  · intro m
    rw [Nat.add_comm, Function.iterate_add_apply]
    refine IndexMotionIsr_idle_iterate ops _ ?_ ?_ m
    · rw [hn, e2, e3, habs, hn]; push_cast; ring
    · rw [hn, e1]

/-- Witness for C9: scenario S4, a request of 200 steps with the profile
maxSpeed 1000, minSpeed 100, acceleration 10, over exact arithmetic. -/
theorem IndexMotionIsr_move_completes_witness :
    (indexRequest 200).indexData.currentStep = (indexRequest 200).indexData.totalSteps ∧
    (indexRequest 200).shared.indexDeltaSteps ≠ 0 ∧
    ((IndexMotionIsr ratOps)^[(indexRequest 200).shared.indexDeltaSteps.natAbs]
        (indexRequest 200)).shared.finalPosition
      = (indexRequest 200).shared.finalPosition + (indexRequest 200).shared.indexDeltaSteps ∧
    ((IndexMotionIsr ratOps)^[(indexRequest 200).shared.indexDeltaSteps.natAbs]
        (indexRequest 200)).shared.indexDeltaSteps = 0 :=
  ⟨by decide, by decide,
   (IndexMotionIsr_move_completes ratOps (indexRequest 200) (by decide) (by decide)).2.1,
   (IndexMotionIsr_move_completes ratOps (indexRequest 200) (by decide) (by decide)).2.2.2.2.1⟩

/-- Invariant of the indexer state: the step counter lies between 0 and the
move length, and once a move has been latched the direction is a unit. -/
theorem IndexMotionIsr_preserves_counters (ops : FloatOps F) (data : rampsHandler_t F)
    (h0 : 0 ≤ data.indexData.currentStep)
    (h1 : data.indexData.currentStep ≤ data.indexData.totalSteps)
    (hd : data.indexData.totalSteps ≠ 0 →
      data.indexData.direction = 1 ∨ data.indexData.direction = -1) :
    0 ≤ (IndexMotionIsr ops data).indexData.currentStep ∧
    (IndexMotionIsr ops data).indexData.currentStep
      ≤ (IndexMotionIsr ops data).indexData.totalSteps ∧
    ((IndexMotionIsr ops data).indexData.totalSteps ≠ 0 →
      (IndexMotionIsr ops data).indexData.direction = 1 ∨
      (IndexMotionIsr ops data).indexData.direction = -1) := by
  by_cases hidle : data.indexData.currentStep = data.indexData.totalSteps
  · by_cases hk : data.shared.indexDeltaSteps = 0
    · rw [IndexMotionIsr_of_idle ops data hidle hk]
      exact ⟨h0, h1, hd⟩
    · obtain ⟨_, a2, a3, _, a5, _⟩ := IndexMotionIsr_first_step ops data hidle hk
      have hpos : 0 < |data.shared.indexDeltaSteps| := abs_pos.mpr hk
      refine ⟨by rw [a5]; decide, by rw [a5, a2]; omega, fun _ => ?_⟩
      rw [a3]
      rcases lt_or_gt_of_ne hk with hneg | hgt
      · exact Or.inr (Int.sign_eq_neg_one_of_neg hneg)
      · exact Or.inl (Int.sign_eq_one_of_pos hgt)
  · obtain ⟨_, b2, b3, b4, _⟩ := IndexMotionIsr_moving ops data hidle
    refine ⟨by rw [b2]; omega, by rw [b2, b3]; omega, fun hne => ?_⟩
    rw [b4]
    rw [b3] at hne
    exact hd hne

/-- The invariant holds along every sequence of ticks and fieldbus writes. -/
theorem runIndexEvents_preserves_counters (ops : FloatOps F) (es : List (IndexEvent F)) :
    ∀ data : rampsHandler_t F,
    0 ≤ data.indexData.currentStep →
    data.indexData.currentStep ≤ data.indexData.totalSteps →
    (data.indexData.totalSteps ≠ 0 →
      data.indexData.direction = 1 ∨ data.indexData.direction = -1) →
    0 ≤ (runIndexEvents ops es data).indexData.currentStep ∧
    (runIndexEvents ops es data).indexData.currentStep
      ≤ (runIndexEvents ops es data).indexData.totalSteps ∧
    ((runIndexEvents ops es data).indexData.totalSteps ≠ 0 →
      (runIndexEvents ops es data).indexData.direction = 1 ∨
      (runIndexEvents ops es data).indexData.direction = -1) := by
  induction es with
  | nil => intro data h0 h1 hd; exact ⟨h0, h1, hd⟩
  | cons e es ih =>
    intro data h0 h1 hd
    cases e with
    | tick =>
      obtain ⟨t0, t1, td⟩ := IndexMotionIsr_preserves_counters ops data h0 h1 hd
      exact ih (IndexMotionIsr ops data) t0 t1 td
    | write w =>
      exact ih ({ data with shared := w data.shared }) h0 h1 hd

/-- A tick that does not find the indexer idle with nothing pending emits a
step: `finalPosition` moves by one unit. -/
theorem IndexMotionIsr_emits (ops : FloatOps F) (data : rampsHandler_t F)
    (h0 : 0 ≤ data.indexData.currentStep)
    (h1 : data.indexData.currentStep ≤ data.indexData.totalSteps)
    (hd : data.indexData.totalSteps ≠ 0 →
      data.indexData.direction = 1 ∨ data.indexData.direction = -1)
    (hbusy : ¬ (data.indexData.currentStep = data.indexData.totalSteps ∧
      data.shared.indexDeltaSteps = 0)) :
    (IndexMotionIsr ops data).shared.finalPosition = data.shared.finalPosition + 1 ∨
    (IndexMotionIsr ops data).shared.finalPosition = data.shared.finalPosition - 1 := by
  by_cases hidle : data.indexData.currentStep = data.indexData.totalSteps
  · have hk : data.shared.indexDeltaSteps ≠ 0 := fun h => hbusy ⟨hidle, h⟩
    obtain ⟨_, _, _, _, _, a6⟩ := IndexMotionIsr_first_step ops data hidle hk
    rw [a6]
    rcases lt_or_gt_of_ne hk with hneg | hgt
    · right; rw [Int.sign_eq_neg_one_of_neg hneg]; ring
    · left; rw [Int.sign_eq_one_of_pos hgt]
  · obtain ⟨_, _, _, _, b5⟩ := IndexMotionIsr_moving ops data hidle
    rw [b5]
    have hne : data.indexData.totalSteps ≠ 0 := by omega
    rcases hd hne with hp | hm
    · left; rw [hp]
    · right; rw [hm]; ring

/-- C10: from the zero-initialised indexer (`currentStep = totalSteps = 0`),
after any sequence of index ticks and fieldbus writes to the register window
(so to `indexDeltaSteps` and the profile registers in particular),
`0 ≤ currentStep ≤ totalSteps`; and the next tick takes the idle path exactly
when `currentStep = totalSteps` and `indexDeltaSteps = 0` on entry: in that
case it only rearms the index timer (reload 10000, compare 10), leaving the
register window, the indexer and every other part of the state as they were,
and in every other case it emits a step, moving `finalPosition` by one
unit. -/
theorem indexer_step_counter_invariant (ops : FloatOps F) (data0 : rampsHandler_t F)
    (hc : data0.indexData.currentStep = 0) (ht : data0.indexData.totalSteps = 0)
    (es : List (IndexEvent F)) :
    0 ≤ (runIndexEvents ops es data0).indexData.currentStep ∧
    (runIndexEvents ops es data0).indexData.currentStep
      ≤ (runIndexEvents ops es data0).indexData.totalSteps ∧
    (((runIndexEvents ops es data0).indexData.currentStep
          = (runIndexEvents ops es data0).indexData.totalSteps ∧
        (runIndexEvents ops es data0).shared.indexDeltaSteps = 0) →
      IndexMotionIsr ops (runIndexEvents ops es data0) =
        { runIndexEvents ops es data0 with
          indexRefreshTimer :=
            { (runIndexEvents ops es data0).indexRefreshTimer with ARR := 10000, CCR1 := 10 } }) ∧
    (¬ ((runIndexEvents ops es data0).indexData.currentStep
          = (runIndexEvents ops es data0).indexData.totalSteps ∧
        (runIndexEvents ops es data0).shared.indexDeltaSteps = 0) →
      ((IndexMotionIsr ops (runIndexEvents ops es data0)).shared.finalPosition
          = (runIndexEvents ops es data0).shared.finalPosition + 1 ∨
        (IndexMotionIsr ops (runIndexEvents ops es data0)).shared.finalPosition
          = (runIndexEvents ops es data0).shared.finalPosition - 1)) := by
  obtain ⟨r0, r1, rd⟩ := runIndexEvents_preserves_counters ops es data0
    (by rw [hc]) (by rw [hc, ht]) (fun hne => absurd ht hne)
  exact ⟨r0, r1, fun h => IndexMotionIsr_of_idle ops _ h.1 h.2,
    fun h => IndexMotionIsr_emits ops _ r0 r1 rd h⟩

/-- Witness for C10: on the zero handler, a write of `indexDeltaSteps = 3`
followed by two ticks, then a write of `-5` in the middle of the move and one
more tick. -/
theorem indexer_step_counter_invariant_witness :
    zeroHandler.indexData.currentStep = 0 ∧ zeroHandler.indexData.totalSteps = 0 ∧
    0 ≤ (runIndexEvents ratOps
          [IndexEvent.write (fun w => { w with indexDeltaSteps := 3 }), IndexEvent.tick,
            IndexEvent.tick, IndexEvent.write (fun w => { w with indexDeltaSteps := -5 }),
            IndexEvent.tick] zeroHandler).indexData.currentStep ∧
    (runIndexEvents ratOps
          [IndexEvent.write (fun w => { w with indexDeltaSteps := 3 }), IndexEvent.tick,
            IndexEvent.tick, IndexEvent.write (fun w => { w with indexDeltaSteps := -5 }),
            IndexEvent.tick] zeroHandler).indexData.currentStep
      ≤ (runIndexEvents ratOps
          [IndexEvent.write (fun w => { w with indexDeltaSteps := 3 }), IndexEvent.tick,
            IndexEvent.tick, IndexEvent.write (fun w => { w with indexDeltaSteps := -5 }),
            IndexEvent.tick] zeroHandler).indexData.totalSteps :=
  ⟨by decide, by decide,
   (indexer_step_counter_invariant ratOps zeroHandler (by decide) (by decide) _).1,
   (indexer_step_counter_invariant ratOps zeroHandler (by decide) (by decide) _).2.1⟩

/-! ## Synchronizer: the Bresenham loops -/

/-- One forward count adds `2 * den` to `D + 2 * num * yi * finalPosition`. -/
theorem syncForwardStep_conserved (num den yi : Int) (hyi : yi * yi = 1) (acc : Int × Int) :
    (syncForwardStep num den yi acc).1 + 2 * num * (yi * (syncForwardStep num den yi acc).2)
      = acc.1 + 2 * num * (yi * acc.2) + 2 * den := by
  unfold syncForwardStep
  split_ifs
  · have h : 2 * num * (yi * (acc.2 + yi)) = 2 * num * (yi * acc.2) + 2 * num * (yi * yi) := by
      ring
    simp only
    rw [h, hyi]
    ring
  · simp only
    ring

/-- The forward loop over `n` counts adds `2 * den * n` to
`D + 2 * num * yi * finalPosition`. -/
theorem syncForwardLoop_conserved (num den yi : Int) (hyi : yi * yi = 1) (n : Nat) :
    ∀ acc : Int × Int,
    (syncForwardLoop num den yi n acc).1 + 2 * num * (yi * (syncForwardLoop num den yi n acc).2)
      = acc.1 + 2 * num * (yi * acc.2) + 2 * den * n := by
  induction n with
  | zero => intro acc; simp [syncForwardLoop]
  | succ k ih =>
    intro acc
    rw [syncForwardLoop, ih, syncForwardStep_conserved num den yi hyi]
    push_cast
    ring

/-- One backward count subtracts `2 * den` from
`D + 2 * num * yi * finalPosition`. -/
theorem syncBackwardStep_conserved (num den yi : Int) (hyi : yi * yi = 1) (acc : Int × Int) :
    (syncBackwardStep num den yi acc).1 + 2 * num * (yi * (syncBackwardStep num den yi acc).2)
      = acc.1 + 2 * num * (yi * acc.2) - 2 * den := by
  unfold syncBackwardStep
  split_ifs
  · have h : 2 * num * (yi * (acc.2 - yi)) = 2 * num * (yi * acc.2) - 2 * num * (yi * yi) := by
      ring
    simp only
    rw [h, hyi]
    ring
  · simp only
    ring

/-- The backward loop over `n` counts subtracts `2 * den * n` from
`D + 2 * num * yi * finalPosition`. -/
theorem syncBackwardLoop_conserved (num den yi : Int) (hyi : yi * yi = 1) (n : Nat) :
    ∀ acc : Int × Int,
    (syncBackwardLoop num den yi n acc).1
        + 2 * num * (yi * (syncBackwardLoop num den yi n acc).2)
      = acc.1 + 2 * num * (yi * acc.2) - 2 * den * n := by
  induction n with
  | zero => intro acc; simp [syncBackwardLoop]
  | succ k ih =>
    intro acc
    rw [syncBackwardLoop, ih, syncBackwardStep_conserved num den yi hyi]
    push_cast
    ring

/-- With `0 ≤ den ≤ num`, the forward loop keeps `D` inside any symmetric
window `[-M, M]` that contains `2 * den` and `2 * (num - den)`. -/
theorem syncForwardLoop_window (num den yi M : Int) (hden : 0 ≤ den) (hle : den ≤ num)
    (ha : 2 * den ≤ M) (hb : 2 * (num - den) ≤ M) (n : Nat) :
    ∀ acc : Int × Int, -M ≤ acc.1 → acc.1 ≤ M →
      -M ≤ (syncForwardLoop num den yi n acc).1 ∧ (syncForwardLoop num den yi n acc).1 ≤ M := by
  induction n with
  | zero => intro acc h1 h2; exact ⟨h1, h2⟩
  | succ k ih =>
    intro acc h1 h2
    rw [syncForwardLoop]
    apply ih
    · unfold syncForwardStep
      split_ifs <;> simp only <;> omega
    · unfold syncForwardStep
      split_ifs <;> simp only <;> omega

/-- With `0 ≤ den ≤ num`, the backward loop keeps `D` inside any symmetric
window `[-M, M]` that contains `2 * den` and `2 * (num - den)`. -/
theorem syncBackwardLoop_window (num den yi M : Int) (hden : 0 ≤ den) (hle : den ≤ num)
    (ha : 2 * den ≤ M) (hb : 2 * (num - den) ≤ M) (n : Nat) :
    ∀ acc : Int × Int, -M ≤ acc.1 → acc.1 ≤ M →
      -M ≤ (syncBackwardLoop num den yi n acc).1 ∧ (syncBackwardLoop num den yi n acc).1 ≤ M := by
  induction n with
  | zero => intro acc h1 h2; exact ⟨h1, h2⟩
  | succ k ih =>
    intro acc h1 h2
    rw [syncBackwardLoop]
    apply ih
    · unfold syncBackwardStep
      split_ifs <;> simp only <;> omega
    · unfold syncBackwardStep
      split_ifs <;> simp only <;> omega

/-- With `0 < den ≤ num`, forward counts keep `D` in
`[2 * (den - num), 2 * den]`, and strictly above the lower end once a count
has been processed. -/
theorem syncForwardLoop_forward_window (num den yi : Int) (hden : 0 < den) (hle : den ≤ num)
    (n : Nat) :
    ∀ acc : Int × Int, 2 * (den - num) ≤ acc.1 → acc.1 ≤ 2 * den →
      2 * (den - num) ≤ (syncForwardLoop num den yi n acc).1 ∧
      (syncForwardLoop num den yi n acc).1 ≤ 2 * den ∧
      (0 < n → 2 * (den - num) < (syncForwardLoop num den yi n acc).1) := by
  induction n with
  | zero => intro acc h1 h2; exact ⟨h1, h2, fun h => absurd h (by decide)⟩
  | succ k ih =>
    intro acc h1 h2
    rw [syncForwardLoop]
    have hs1 : 2 * (den - num) < (syncForwardStep num den yi acc).1 := by
      unfold syncForwardStep
      split_ifs <;> simp only <;> omega
    have hs2 : (syncForwardStep num den yi acc).1 ≤ 2 * den := by
      unfold syncForwardStep
      split_ifs <;> simp only <;> omega
    obtain ⟨i1, i2, i3⟩ := ih (syncForwardStep num den yi acc) (le_of_lt hs1) hs2
    refine ⟨i1, i2, fun _ => ?_⟩
    rcases Nat.eq_zero_or_pos k with hk | hk
    · subst hk
      exact hs1
    · exact i3 hk

/-! ## Synchronizer: one Phase B tick and runs of them -/

/-- The sampler `scalesAt i p` makes channel `i` read `p`. -/
@[simp] theorem scalesAt_positionCurrent (i : Nat) (p : Int) (sc : scales_t) :
    ((scalesAt i p sc).scalePosition i).positionCurrent = p := by
  simp [scalesAt]

/-- A Phase B tick (update flag raised, `MODE_SYNCHRO`, nothing outstanding):
the master snapshot advances to the sampled position, `D` and `finalPosition`
come out of the Bresenham loop over the counts moved, and the ratio registers,
`yi`, the mode and the synchro timer are untouched. -/
theorem SyncMotionIsr_phaseB (updateScales : scales_t → scales_t) (data : rampsHandler_t F)
    (hSR : data.synchroRefreshTimer.SR &&& 1 ≠ 0) (hmode : data.shared.mode = MODE_SYNCHRO)
    (hdr : data.shared.finalPosition = data.shared.currentPosition) :
    ((SyncMotionIsr updateScales data).syncData.D,
        (SyncMotionIsr updateScales data).shared.finalPosition)
      = (if data.syncData.positionCurrent
            < ((updateScales data.scales).scalePosition data.shared.synScaleIndex).positionCurrent
          then
            syncForwardLoop data.shared.synRatioNum data.shared.synRatioDen data.syncData.yi
              (((updateScales data.scales).scalePosition data.shared.synScaleIndex).positionCurrent
                - data.syncData.positionCurrent).toNat
              (data.syncData.D, data.shared.finalPosition)
          else if data.syncData.positionCurrent
            > ((updateScales data.scales).scalePosition data.shared.synScaleIndex).positionCurrent
          then
            syncBackwardLoop data.shared.synRatioNum data.shared.synRatioDen data.syncData.yi
              (data.syncData.positionCurrent
                - ((updateScales data.scales).scalePosition
                    data.shared.synScaleIndex).positionCurrent).toNat
              (data.syncData.D, data.shared.finalPosition)
          else (data.syncData.D, data.shared.finalPosition)) ∧
    (SyncMotionIsr updateScales data).syncData.positionCurrent
      = ((updateScales data.scales).scalePosition data.shared.synScaleIndex).positionCurrent ∧
    (SyncMotionIsr updateScales data).syncData.positionPrevious
      = data.syncData.positionCurrent ∧
    (SyncMotionIsr updateScales data).syncData.yi = data.syncData.yi ∧
    (SyncMotionIsr updateScales data).shared.mode = data.shared.mode ∧
    (SyncMotionIsr updateScales data).shared.synRatioNum = data.shared.synRatioNum ∧
    (SyncMotionIsr updateScales data).shared.synRatioDen = data.shared.synRatioDen ∧
    (SyncMotionIsr updateScales data).shared.synScaleIndex = data.shared.synScaleIndex ∧
    (SyncMotionIsr updateScales data).synchroRefreshTimer = data.synchroRefreshTimer := by
  unfold SyncMotionIsr
  simp only [hSR, if_false, hmode, hdr, ne_eq, not_true_eq_false, and_false, true_and]
  split_ifs <;> simp [hdr, hmode]

/-- A drained tick that finds the master at `p`: what it keeps. -/
theorem syncTick_frame (p : Int) (data : rampsHandler_t F)
    (hSR : data.synchroRefreshTimer.SR &&& 1 ≠ 0) (hmode : data.shared.mode = MODE_SYNCHRO) :
    (SyncMotionIsr (scalesAt data.shared.synScaleIndex p) (drained data)).syncData.positionCurrent
      = p ∧
    (SyncMotionIsr (scalesAt data.shared.synScaleIndex p) (drained data)).syncData.yi
      = data.syncData.yi ∧
    (SyncMotionIsr (scalesAt data.shared.synScaleIndex p) (drained data)).shared.mode
      = MODE_SYNCHRO ∧
    (SyncMotionIsr (scalesAt data.shared.synScaleIndex p) (drained data)).shared.synRatioNum
      = data.shared.synRatioNum ∧
    (SyncMotionIsr (scalesAt data.shared.synScaleIndex p) (drained data)).shared.synRatioDen
      = data.shared.synRatioDen ∧
    (SyncMotionIsr (scalesAt data.shared.synScaleIndex p)
        (drained data)).synchroRefreshTimer.SR &&& 1 ≠ 0 := by
  obtain ⟨_, h2, _, h4, h5, h6, h7, _, h9⟩ :=
    SyncMotionIsr_phaseB (scalesAt data.shared.synScaleIndex p) (drained data) hSR hmode rfl
  refine ⟨?_, h4, by rw [h5]; exact hmode, h6, h7, by rw [h9]; exact hSR⟩
  rw [h2]
  exact scalesAt_positionCurrent _ _ _

/-- A drained tick that finds the master at `p`: `D` and `finalPosition`. -/
theorem syncTick_result (p : Int) (data : rampsHandler_t F)
    (hSR : data.synchroRefreshTimer.SR &&& 1 ≠ 0) (hmode : data.shared.mode = MODE_SYNCHRO) :
    ((SyncMotionIsr (scalesAt data.shared.synScaleIndex p) (drained data)).syncData.D,
        (SyncMotionIsr (scalesAt data.shared.synScaleIndex p) (drained data)).shared.finalPosition)
      = (if data.syncData.positionCurrent < p then
            syncForwardLoop data.shared.synRatioNum data.shared.synRatioDen data.syncData.yi
              (p - data.syncData.positionCurrent).toNat (data.syncData.D, data.shared.finalPosition)
          else if data.syncData.positionCurrent > p then
            syncBackwardLoop data.shared.synRatioNum data.shared.synRatioDen data.syncData.yi
              (data.syncData.positionCurrent - p).toNat (data.syncData.D, data.shared.finalPosition)
          else (data.syncData.D, data.shared.finalPosition)) := by
  have h := (SyncMotionIsr_phaseB (scalesAt data.shared.synScaleIndex p) (drained data)
    hSR hmode rfl).1
  have hp : (((scalesAt data.shared.synScaleIndex p) (drained data).scales).scalePosition
      (drained data).shared.synScaleIndex).positionCurrent = p :=
    scalesAt_positionCurrent _ _ _
  rw [hp] at h
  exact h

/-- A drained tick conserves `D + 2 * num * yi * finalPosition - 2 * den *
positionCurrent` when `yi` is a unit. -/
theorem syncTick_conserved (p : Int) (data : rampsHandler_t F)
    (hSR : data.synchroRefreshTimer.SR &&& 1 ≠ 0) (hmode : data.shared.mode = MODE_SYNCHRO)
    (hyi : data.syncData.yi * data.syncData.yi = 1) :
    (SyncMotionIsr (scalesAt data.shared.synScaleIndex p) (drained data)).syncData.D
        + 2 * data.shared.synRatioNum * (data.syncData.yi *
          (SyncMotionIsr (scalesAt data.shared.synScaleIndex p)
            (drained data)).shared.finalPosition)
        - 2 * data.shared.synRatioDen * p
      = data.syncData.D + 2 * data.shared.synRatioNum * (data.syncData.yi * data.shared.finalPosition)
        - 2 * data.shared.synRatioDen * data.syncData.positionCurrent := by
  have h := syncTick_result p data hSR hmode
  have h1 := congrArg Prod.fst h
  have h2 := congrArg Prod.snd h
  simp only at h1 h2
  rw [h1, h2]
  split_ifs with hlt hgt
  · have hc := syncForwardLoop_conserved data.shared.synRatioNum data.shared.synRatioDen
      data.syncData.yi hyi (p - data.syncData.positionCurrent).toNat
      (data.syncData.D, data.shared.finalPosition)
    have hn : ((p - data.syncData.positionCurrent).toNat : Int) = p - data.syncData.positionCurrent :=
      Int.toNat_of_nonneg (by omega)
    rw [hn] at hc
    simp only at hc
    linarith
  · have hc := syncBackwardLoop_conserved data.shared.synRatioNum data.shared.synRatioDen
      data.syncData.yi hyi (data.syncData.positionCurrent - p).toNat
      (data.syncData.D, data.shared.finalPosition)
    have hn : ((data.syncData.positionCurrent - p).toNat : Int) = data.syncData.positionCurrent - p :=
      Int.toNat_of_nonneg (by omega)
    rw [hn] at hc
    simp only at hc
    linarith
  · have he : p = data.syncData.positionCurrent := by omega
    rw [he]

/-- A drained tick keeps `D` inside a symmetric window containing `2 * den`
and `2 * (num - den)`, when `0 ≤ den ≤ num`. -/
theorem syncTick_window (p M : Int) (data : rampsHandler_t F)
    (hSR : data.synchroRefreshTimer.SR &&& 1 ≠ 0) (hmode : data.shared.mode = MODE_SYNCHRO)
    (hden : 0 ≤ data.shared.synRatioDen) (hle : data.shared.synRatioDen ≤ data.shared.synRatioNum)
    (ha : 2 * data.shared.synRatioDen ≤ M)
    (hb : 2 * (data.shared.synRatioNum - data.shared.synRatioDen) ≤ M)
    (h1 : -M ≤ data.syncData.D) (h2 : data.syncData.D ≤ M) :
    -M ≤ (SyncMotionIsr (scalesAt data.shared.synScaleIndex p) (drained data)).syncData.D ∧
    (SyncMotionIsr (scalesAt data.shared.synScaleIndex p) (drained data)).syncData.D ≤ M := by
  have h := congrArg Prod.fst (syncTick_result p data hSR hmode)
  simp only at h
  rw [h]
  split_ifs
  · exact syncForwardLoop_window _ _ _ M hden hle ha hb _ _ h1 h2
  · exact syncBackwardLoop_window _ _ _ M hden hle ha hb _ _ h1 h2
  · exact ⟨h1, h2⟩

/-- A drained tick that finds the master at or ahead of the snapshot keeps `D`
in `[2 * (den - num), 2 * den]`, strictly above the lower end if the master
moved. -/
theorem syncTick_forward_window (p : Int) (data : rampsHandler_t F)
    (hSR : data.synchroRefreshTimer.SR &&& 1 ≠ 0) (hmode : data.shared.mode = MODE_SYNCHRO)
    (hden : 0 < data.shared.synRatioDen) (hle : data.shared.synRatioDen ≤ data.shared.synRatioNum)
    (hp : data.syncData.positionCurrent ≤ p)
    (h1 : 2 * (data.shared.synRatioDen - data.shared.synRatioNum) ≤ data.syncData.D)
    (h2 : data.syncData.D ≤ 2 * data.shared.synRatioDen) :
    2 * (data.shared.synRatioDen - data.shared.synRatioNum)
      ≤ (SyncMotionIsr (scalesAt data.shared.synScaleIndex p) (drained data)).syncData.D ∧
    (SyncMotionIsr (scalesAt data.shared.synScaleIndex p) (drained data)).syncData.D
      ≤ 2 * data.shared.synRatioDen ∧
    (data.syncData.positionCurrent < p →
      2 * (data.shared.synRatioDen - data.shared.synRatioNum)
        < (SyncMotionIsr (scalesAt data.shared.synScaleIndex p) (drained data)).syncData.D) ∧
    (2 * (data.shared.synRatioDen - data.shared.synRatioNum) < data.syncData.D →
      2 * (data.shared.synRatioDen - data.shared.synRatioNum)
        < (SyncMotionIsr (scalesAt data.shared.synScaleIndex p) (drained data)).syncData.D) := by
  have h := congrArg Prod.fst (syncTick_result p data hSR hmode)
  simp only at h
  rw [h]
  split_ifs with hlt hgt
  · obtain ⟨f1, f2, f3⟩ := syncForwardLoop_forward_window data.shared.synRatioNum
      data.shared.synRatioDen data.syncData.yi hden hle (p - data.syncData.positionCurrent).toNat
      (data.syncData.D, data.shared.finalPosition) h1 h2
    have hn : 0 < (p - data.syncData.positionCurrent).toNat := by omega
    exact ⟨f1, f2, fun _ => f3 hn, fun _ => f3 hn⟩
  · omega
  · exact ⟨h1, h2, fun hlt' => absurd hlt' hlt, fun hd => hd⟩

/-- Along any run of drained ticks with constant ratio `0 < den ≤ num` and a
unit `yi`: the quantity `D + 2 * num * yi * finalPosition - 2 * den * master`
is conserved, `D` stays in the window `[-M, M]`, and the snapshot ends at the
last position presented. -/
theorem syncTicks_run (num den yi M : Int) (hden : 0 < den) (hle : den ≤ num)
    (ha : 2 * den ≤ M) (hb : 2 * (num - den) ≤ M) (hyi : yi * yi = 1) (ps : List Int) :
    ∀ data : rampsHandler_t F,
    data.synchroRefreshTimer.SR &&& 1 ≠ 0 → data.shared.mode = MODE_SYNCHRO →
    data.shared.synRatioNum = num → data.shared.synRatioDen = den → data.syncData.yi = yi →
    -M ≤ data.syncData.D → data.syncData.D ≤ M →
    (syncTicks ps data).syncData.D + 2 * num * (yi * (syncTicks ps data).shared.finalPosition)
        - 2 * den * ps.getLastD data.syncData.positionCurrent
      = data.syncData.D + 2 * num * (yi * data.shared.finalPosition)
        - 2 * den * data.syncData.positionCurrent ∧
    -M ≤ (syncTicks ps data).syncData.D ∧ (syncTicks ps data).syncData.D ≤ M ∧
    (syncTicks ps data).syncData.positionCurrent = ps.getLastD data.syncData.positionCurrent := by
  induction ps with
  | nil =>
    intro data _ _ _ _ _ h1 h2
    exact ⟨rfl, h1, h2, rfl⟩
  | cons p rest ih =>
    intro data hSR hmode hnum hdn hy h1 h2
    obtain ⟨f1, f2, f3, f4, f5, f6⟩ := syncTick_frame p data hSR hmode
    have hc := syncTick_conserved p data hSR hmode (by rw [hy]; exact hyi)
    have hw := syncTick_window p M data hSR hmode (by rw [hdn]; omega) (by rw [hdn, hnum]; exact hle)
      (by rw [hdn]; exact ha) (by rw [hdn, hnum]; exact hb) h1 h2
    obtain ⟨i1, i2, i3, i4⟩ := ih (SyncMotionIsr (scalesAt data.shared.synScaleIndex p) (drained data))
      f6 f3 (by rw [f4, hnum]) (by rw [f5, hdn]) (by rw [f2, hy]) hw.1 hw.2
    rw [f1] at i1 i4
    rw [hnum, hdn, hy] at hc
    rw [syncTicks, List.getLastD_cons]
    exact ⟨by rw [i1, hc], i2, i3, i4⟩

/-- Along a run of drained ticks in which the master never moves back, with
`0 < den ≤ num`: `D` stays in `[2 * (den - num), 2 * den]`, and it is strictly
above the lower end at the end if it was at the start or if the master has
advanced. -/
theorem syncTicks_forward_run (num den : Int) (hden : 0 < den) (hle : den ≤ num)
    (ps : List Int) :
    ∀ data : rampsHandler_t F,
    data.synchroRefreshTimer.SR &&& 1 ≠ 0 → data.shared.mode = MODE_SYNCHRO →
    data.shared.synRatioNum = num → data.shared.synRatioDen = den →
    List.Chain (fun a b => a ≤ b) data.syncData.positionCurrent ps →
    2 * (den - num) ≤ data.syncData.D → data.syncData.D ≤ 2 * den →
    2 * (den - num) ≤ (syncTicks ps data).syncData.D ∧
    (syncTicks ps data).syncData.D ≤ 2 * den ∧
    ((data.syncData.positionCurrent < ps.getLastD data.syncData.positionCurrent ∨
        2 * (den - num) < data.syncData.D) →
      2 * (den - num) < (syncTicks ps data).syncData.D) := by
  induction ps with
  | nil =>
    intro data _ _ _ _ _ h1 h2
    refine ⟨h1, h2, fun h => ?_⟩
    rcases h with h | h
    · exact absurd h (lt_irrefl _)
    · exact h
  | cons p rest ih =>
    intro data hSR hmode hnum hdn hchain h1 h2
    obtain ⟨hp, hrest⟩ := List.chain_cons.mp hchain
    obtain ⟨f1, f2, f3, f4, f5, f6⟩ := syncTick_frame p data hSR hmode
    obtain ⟨w1, w2, w3, w4⟩ := syncTick_forward_window p data hSR hmode (by rw [hdn]; exact hden)
      (by rw [hdn, hnum]; exact hle) hp (by rw [hdn, hnum]; exact h1) (by rw [hdn]; exact h2)
    rw [hdn, hnum] at w1 w3 w4
    rw [hdn] at w2
    obtain ⟨i1, i2, i3⟩ := ih (SyncMotionIsr (scalesAt data.shared.synScaleIndex p) (drained data))
      f6 f3 (by rw [f4, hnum]) (by rw [f5, hdn]) (by rw [f1]; exact hrest) w1 w2
    rw [f1] at i3
    rw [syncTicks, List.getLastD_cons]
    refine ⟨i1, i2, fun h => ?_⟩
    rcases h with h | h
    · rcases lt_or_eq_of_le hp with hlt | heq
      · exact i3 (Or.inr (w3 hlt))
      · rw [heq] at h
        exact i3 (Or.inl h)
    · exact i3 (Or.inr (w4 h))

/-- The state left by `SyncMotionInit` on a ratio with `0 < den ≤ num`. -/
theorem SyncMotionInit_positive (data : rampsHandler_t F)
    (hden : 0 < data.shared.synRatioDen) (hle : data.shared.synRatioDen ≤ data.shared.synRatioNum) :
    (SyncMotionInit data).syncData.yi = 1 ∧
    (SyncMotionInit data).syncData.D = 2 * (data.shared.synRatioDen - data.shared.synRatioNum) ∧
    (SyncMotionInit data).shared.mode = MODE_SYNCHRO ∧
    (SyncMotionInit data).shared.finalPosition = data.shared.finalPosition ∧
    (SyncMotionInit data).shared.synRatioNum = data.shared.synRatioNum ∧
    (SyncMotionInit data).shared.synRatioDen = data.shared.synRatioDen ∧
    (SyncMotionInit data).syncData.positionCurrent = data.syncData.positionCurrent ∧
    (SyncMotionInit data).synchroRefreshTimer = data.synchroRefreshTimer := by
  have hacc : ¬ (data.shared.synRatioNum = 0 ∨ data.shared.synRatioDen = 0 ∨
      data.shared.synRatioDen > data.shared.synRatioNum) := by omega
  have hneg : ¬ data.shared.synRatioDen < 0 := by omega
  simp [SyncMotionInit, hacc, hneg]

/-! ## Synchronizer: accounting, whole periods and reversal -/

/-- C3 as stated fails: after `SyncMotionInit` accepts the ratio 10:1, one
Phase B tick that finds the master 3 counts back moves `finalPosition` by -2.
The distance to `Δ * num / den = -30` is 28, and the distance to
`Δ * den / num = -3/10` is 17/10, so neither is below 1. -/
theorem sync_accounting_counterexample :
    (SyncMotionInit (syncRequest 10 1)).shared.mode = MODE_SYNCHRO ∧
    (syncTicks [-3] (SyncMotionInit (syncRequest 10 1))).syncData.positionCurrent
      - (SyncMotionInit (syncRequest 10 1)).syncData.positionCurrent = -3 ∧
    (syncTicks [-3] (SyncMotionInit (syncRequest 10 1))).shared.finalPosition
      - (SyncMotionInit (syncRequest 10 1)).shared.finalPosition = -2 ∧
    ¬ (|((-2 : Int) : Rat) - ((-3 : Int) : Rat) * 10 / 1| < 1) ∧
    ¬ (|((-2 : Int) : Rat) - ((-3 : Int) : Rat) * 1 / 10| < 1) := by
  refine ⟨by decide, by decide, by decide, ?_, ?_⟩
  · norm_num [abs_lt]
  · norm_num [abs_lt]

/-- Integer form of the accounting bound: with `E = den * Δ - num * Δfinal`,
`-num ≤ E < 2 * num` after any run of drained ticks following an accepted
initialisation with `0 < den ≤ num`. -/
theorem syncTicks_accounting_int (data : rampsHandler_t F) (ps : List Int)
    (hSR : data.synchroRefreshTimer.SR &&& 1 ≠ 0)
    (hden : 0 < data.shared.synRatioDen) (hle : data.shared.synRatioDen ≤ data.shared.synRatioNum) :
    -data.shared.synRatioNum
      ≤ data.shared.synRatioDen
          * (ps.getLastD data.syncData.positionCurrent - data.syncData.positionCurrent)
        - data.shared.synRatioNum
          * ((syncTicks ps (SyncMotionInit data)).shared.finalPosition - data.shared.finalPosition) ∧
    data.shared.synRatioDen
          * (ps.getLastD data.syncData.positionCurrent - data.syncData.positionCurrent)
        - data.shared.synRatioNum
          * ((syncTicks ps (SyncMotionInit data)).shared.finalPosition - data.shared.finalPosition)
      < 2 * data.shared.synRatioNum := by
  obtain ⟨j1, j2, j3, j4, j5, j6, j7, j8⟩ := SyncMotionInit_positive data hden hle
  have hrun := syncTicks_run data.shared.synRatioNum data.shared.synRatioDen 1
    (max (2 * data.shared.synRatioDen) (2 * (data.shared.synRatioNum - data.shared.synRatioDen)))
    hden hle (le_max_left _ _) (le_max_right _ _) (by norm_num) ps (SyncMotionInit data)
    (by rw [j8]; exact hSR) j3 j5 j6 j1
    (by rw [j2]; have := le_max_right (2 * data.shared.synRatioDen)
          (2 * (data.shared.synRatioNum - data.shared.synRatioDen)); omega)
    (by rw [j2]; have := le_max_left (2 * data.shared.synRatioDen)
          (2 * (data.shared.synRatioNum - data.shared.synRatioDen)); omega)
  obtain ⟨r1, r2, r3, _⟩ := hrun
  rw [j2, j4, j7] at r1
  have hM : max (2 * data.shared.synRatioDen) (2 * (data.shared.synRatioNum - data.shared.synRatioDen))
      ≤ 2 * data.shared.synRatioNum := max_le (by omega) (by omega)
  have hMa := le_max_left (2 * data.shared.synRatioDen)
    (2 * (data.shared.synRatioNum - data.shared.synRatioDen))
  have hMb := le_max_right (2 * data.shared.synRatioDen)
    (2 * (data.shared.synRatioNum - data.shared.synRatioDen))
  have hcase : max (2 * data.shared.synRatioDen)
        (2 * (data.shared.synRatioNum - data.shared.synRatioDen)) = 2 * data.shared.synRatioDen ∨
      max (2 * data.shared.synRatioDen)
        (2 * (data.shared.synRatioNum - data.shared.synRatioDen))
        = 2 * (data.shared.synRatioNum - data.shared.synRatioDen) := max_choice _ _
  constructor
  · rcases hcase with hc | hc <;> rw [hc] at r2 r3 hMa hMb <;> nlinarith
  · rcases hcase with hc | hc <;> rw [hc] at r2 r3 hMa hMb <;> nlinarith

/-- C3, amended: after `SyncMotionInit` accepts a ratio with `0 < den ≤ num`,
for every sequence of Phase B ticks (update flag raised, pulses drained between
ticks) whose master deltas sum to `Δ`, the change of `finalPosition` stays
within 2 of `Δ * den / num`, for runs of any length; more precisely
`-num ≤ den * Δ - num * change < 2 * num`. -/
theorem sync_accounting (data : rampsHandler_t F) (ps : List Int)
    (hSR : data.synchroRefreshTimer.SR &&& 1 ≠ 0)
    (hden : 0 < data.shared.synRatioDen) (hle : data.shared.synRatioDen ≤ data.shared.synRatioNum) :
    |(((syncTicks ps (SyncMotionInit data)).shared.finalPosition
          - data.shared.finalPosition : Int) : Rat)
        - ((ps.getLastD data.syncData.positionCurrent - data.syncData.positionCurrent : Int) : Rat)
          * (data.shared.synRatioDen : Rat) / (data.shared.synRatioNum : Rat)| < 2 ∧
    -data.shared.synRatioNum
      ≤ data.shared.synRatioDen
          * (ps.getLastD data.syncData.positionCurrent - data.syncData.positionCurrent)
        - data.shared.synRatioNum
          * ((syncTicks ps (SyncMotionInit data)).shared.finalPosition - data.shared.finalPosition) ∧
    data.shared.synRatioDen
          * (ps.getLastD data.syncData.positionCurrent - data.syncData.positionCurrent)
        - data.shared.synRatioNum
          * ((syncTicks ps (SyncMotionInit data)).shared.finalPosition - data.shared.finalPosition)
      < 2 * data.shared.synRatioNum := by
  obtain ⟨e1, e2⟩ := syncTicks_accounting_int data ps hSR hden hle
  refine ⟨?_, e1, e2⟩
  have hnum : (0 : Rat) < (data.shared.synRatioNum : Rat) := by
    have : 0 < data.shared.synRatioNum := by omega
    exact_mod_cast this
  have q1 : -(data.shared.synRatioNum : Rat)
      ≤ (data.shared.synRatioDen : Rat)
          * ((ps.getLastD data.syncData.positionCurrent - data.syncData.positionCurrent : Int) : Rat)
        - (data.shared.synRatioNum : Rat)
          * (((syncTicks ps (SyncMotionInit data)).shared.finalPosition
              - data.shared.finalPosition : Int) : Rat) := by
    exact_mod_cast e1
  have q2 : (data.shared.synRatioDen : Rat)
          * ((ps.getLastD data.syncData.positionCurrent - data.syncData.positionCurrent : Int) : Rat)
        - (data.shared.synRatioNum : Rat)
          * (((syncTicks ps (SyncMotionInit data)).shared.finalPosition
              - data.shared.finalPosition : Int) : Rat)
      < 2 * (data.shared.synRatioNum : Rat) := by
    exact_mod_cast e2
  have hx : ((ps.getLastD data.syncData.positionCurrent - data.syncData.positionCurrent : Int) : Rat)
        * (data.shared.synRatioDen : Rat) / (data.shared.synRatioNum : Rat)
        * (data.shared.synRatioNum : Rat)
      = ((ps.getLastD data.syncData.positionCurrent - data.syncData.positionCurrent : Int) : Rat)
        * (data.shared.synRatioDen : Rat) := div_mul_cancel₀ _ (ne_of_gt hnum)
  rw [abs_lt]
  constructor
  · by_contra hcon
    push_neg at hcon
    have := mul_le_mul_of_nonneg_right hcon (le_of_lt hnum)
    rw [sub_mul, hx] at this
    linarith
  · by_contra hcon
    push_neg at hcon
    have := mul_le_mul_of_nonneg_right hcon (le_of_lt hnum)
    rw [sub_mul, hx] at this
    linarith

/-- Witness for the amended C3: the 10:1 request with the master found 3
counts back. -/
theorem sync_accounting_witness :
    (syncRequest 10 1).synchroRefreshTimer.SR &&& 1 ≠ 0 ∧
    0 < (syncRequest 10 1).shared.synRatioDen ∧
    (syncRequest 10 1).shared.synRatioDen ≤ (syncRequest 10 1).shared.synRatioNum ∧
    |(((syncTicks [-3] (SyncMotionInit (syncRequest 10 1))).shared.finalPosition
          - (syncRequest 10 1).shared.finalPosition : Int) : Rat)
        - (([-3].getLastD (syncRequest 10 1).syncData.positionCurrent
            - (syncRequest 10 1).syncData.positionCurrent : Int) : Rat)
          * ((syncRequest 10 1).shared.synRatioDen : Rat)
          / ((syncRequest 10 1).shared.synRatioNum : Rat)| < 2 :=
  ⟨by decide, by decide, by decide,
   (sync_accounting (syncRequest 10 1) [-3] (by decide) (by decide) (by decide)).1⟩

/-- C4 as stated fails on both of its examples: with ratio 2:1 and the master
advanced by 10 from the snapshot, `finalPosition` advances by 4, not
`10 * 1 / 2 = 5`; with ratio 3:2 and the master advanced by 6 it advances by
3, not `6 * 2 / 3 = 4`. -/
theorem sync_whole_periods_counterexample :
    (SyncMotionInit (syncRequest 2 1)).syncData.positionCurrent = 0 ∧
    (syncTicks [10] (SyncMotionInit (syncRequest 2 1))).shared.finalPosition
      - (SyncMotionInit (syncRequest 2 1)).shared.finalPosition = 4 ∧
    (10 * 1 / 2 : Int) = 5 ∧
    (SyncMotionInit (syncRequest 3 2)).syncData.positionCurrent = 0 ∧
    (syncTicks [6] (SyncMotionInit (syncRequest 3 2))).shared.finalPosition
      - (SyncMotionInit (syncRequest 3 2)).shared.finalPosition = 3 ∧
    (6 * 2 / 3 : Int) = 4 := by
  decide

/-- C4, amended: after `SyncMotionInit` with `0 < den ≤ num`, when the master
then advances from the snapshot by `Δ > 0` counts without ever moving back
(seen by Phase B ticks with the update flag raised and the pulses drained
between ticks) and `Δ * den` is divisible by `num`, `finalPosition` advances
by exactly `Δ * den / num - 1`: one step short of the exact ratio. -/
theorem sync_whole_periods (data : rampsHandler_t F) (ps : List Int)
    (hSR : data.synchroRefreshTimer.SR &&& 1 ≠ 0)
    (hden : 0 < data.shared.synRatioDen) (hle : data.shared.synRatioDen ≤ data.shared.synRatioNum)
    (hchain : List.Chain (fun a b => a ≤ b) data.syncData.positionCurrent ps)
    (hpos : data.syncData.positionCurrent < ps.getLastD data.syncData.positionCurrent)
    (hdvd : data.shared.synRatioNum ∣
      (ps.getLastD data.syncData.positionCurrent - data.syncData.positionCurrent)
        * data.shared.synRatioDen) :
    (syncTicks ps (SyncMotionInit data)).shared.finalPosition
      = data.shared.finalPosition
        + (ps.getLastD data.syncData.positionCurrent - data.syncData.positionCurrent)
            * data.shared.synRatioDen / data.shared.synRatioNum
        - 1 := by
  obtain ⟨j1, j2, j3, j4, j5, j6, j7, j8⟩ := SyncMotionInit_positive data hden hle
  have hnum : 0 < data.shared.synRatioNum := by omega
  obtain ⟨r1, _, _, _⟩ := syncTicks_run data.shared.synRatioNum data.shared.synRatioDen 1
    (2 * data.shared.synRatioNum) hden hle (by omega) (by omega) (by norm_num) ps
    (SyncMotionInit data) (by rw [j8]; exact hSR) j3 j5 j6 j1
    (by rw [j2]; omega) (by rw [j2]; omega)
  obtain ⟨_, f2, f3⟩ := syncTicks_forward_run data.shared.synRatioNum data.shared.synRatioDen
    hden hle ps (SyncMotionInit data) (by rw [j8]; exact hSR) j3 j5 j6
    (by rw [j7]; exact hchain) (by rw [j2]) (by rw [j2]; omega)
  rw [j7] at f3
  have f3' := f3 (Or.inl hpos)
  rw [j2, j4, j7] at r1
  obtain ⟨m, hm⟩ := hdvd
  rw [hm, Int.mul_ediv_cancel_left m (ne_of_gt hnum)]
  have hprod : 0 < data.shared.synRatioNum
        * (m - ((syncTicks ps (SyncMotionInit data)).shared.finalPosition
            - data.shared.finalPosition)) ∧
      data.shared.synRatioNum
        * (m - ((syncTicks ps (SyncMotionInit data)).shared.finalPosition
            - data.shared.finalPosition)) ≤ data.shared.synRatioNum * 1 := by
    constructor <;> nlinarith
  have hgt : 0 < m - ((syncTicks ps (SyncMotionInit data)).shared.finalPosition
      - data.shared.finalPosition) := pos_of_mul_pos_right hprod.1 (le_of_lt hnum)
  have hle1 : m - ((syncTicks ps (SyncMotionInit data)).shared.finalPosition
      - data.shared.finalPosition) ≤ 1 := le_of_mul_le_mul_left hprod.2 hnum
  omega

/-- Witness for the amended C4: ratio 2:1, the master found at 4 and then at
10; `finalPosition` advances by `10 * 1 / 2 - 1 = 4`. -/
theorem sync_whole_periods_witness :
    (syncRequest 2 1).synchroRefreshTimer.SR &&& 1 ≠ 0 ∧
    0 < (syncRequest 2 1).shared.synRatioDen ∧
    (syncRequest 2 1).shared.synRatioDen ≤ (syncRequest 2 1).shared.synRatioNum ∧
    List.Chain (fun a b => a ≤ b) (syncRequest 2 1).syncData.positionCurrent [4, 10] ∧
    (syncRequest 2 1).syncData.positionCurrent
      < [4, 10].getLastD (syncRequest 2 1).syncData.positionCurrent ∧
    (syncTicks [4, 10] (SyncMotionInit (syncRequest 2 1))).shared.finalPosition
      = (syncRequest 2 1).shared.finalPosition
        + ([4, 10].getLastD (syncRequest 2 1).syncData.positionCurrent
            - (syncRequest 2 1).syncData.positionCurrent)
            * (syncRequest 2 1).shared.synRatioDen / (syncRequest 2 1).shared.synRatioNum
        - 1 :=
  ⟨by decide, by decide, by decide,
   List.Chain.cons (by decide) (List.Chain.cons (by decide) List.Chain.nil), by decide,
   sync_whole_periods (syncRequest 2 1) [4, 10] (by decide) (by decide) (by decide)
     (List.Chain.cons (by decide) (List.Chain.cons (by decide) List.Chain.nil))
     (by decide) (by decide)⟩

/-- C5 as stated fails: after `SyncMotionInit` with ratio 1:1 and the snapshot
at 0, the master sequence 0, 2, 0 leaves `finalPosition` one step ahead of
where it started. -/
theorem sync_reversal_counterexample :
    (SyncMotionInit (syncRequest 1 1)).shared.mode = MODE_SYNCHRO ∧
    (SyncMotionInit (syncRequest 1 1)).syncData.positionCurrent = 0 ∧
    (SyncMotionInit (syncRequest 1 1)).shared.finalPosition = 0 ∧
    (syncTicks [0, 2] (SyncMotionInit (syncRequest 1 1))).shared.finalPosition = 1 ∧
    (syncTicks [0, 2, 0] (SyncMotionInit (syncRequest 1 1))).shared.finalPosition = 1 ∧
    (syncTicks [0, 2, 0] (SyncMotionInit (syncRequest 1 1))).shared.finalPosition
      ≠ (SyncMotionInit (syncRequest 1 1)).shared.finalPosition := by
  decide

/-- A run of drained ticks keeps the update flag, the mode, the ratio
registers and `yi`. -/
theorem syncTicks_frame_run (ps : List Int) :
    ∀ data : rampsHandler_t F,
    data.synchroRefreshTimer.SR &&& 1 ≠ 0 → data.shared.mode = MODE_SYNCHRO →
    (syncTicks ps data).synchroRefreshTimer.SR &&& 1 ≠ 0 ∧
    (syncTicks ps data).shared.mode = MODE_SYNCHRO ∧
    (syncTicks ps data).shared.synRatioNum = data.shared.synRatioNum ∧
    (syncTicks ps data).shared.synRatioDen = data.shared.synRatioDen ∧
    (syncTicks ps data).syncData.yi = data.syncData.yi := by
  induction ps with
  | nil => intro data hSR hmode; exact ⟨hSR, hmode, rfl, rfl, rfl⟩
  | cons p rest ih =>
    intro data hSR hmode
    obtain ⟨_, f2, f3, f4, f5, f6⟩ := syncTick_frame p data hSR hmode
    obtain ⟨i1, i2, i3, i4, i5⟩ :=
      ih (SyncMotionIsr (scalesAt data.shared.synScaleIndex p) (drained data)) f6 f3
    rw [syncTicks]
    exact ⟨i1, i2, by rw [i3, f4], by rw [i4, f5], by rw [i5, f2]⟩

/-- A run that starts right at the initialisation and ends at the snapshot it
started from leaves `finalPosition` within one step. -/
theorem syncTicks_return_from_init (data : rampsHandler_t F) (ps : List Int)
    (hSR : data.synchroRefreshTimer.SR &&& 1 ≠ 0)
    (hden : 0 < data.shared.synRatioDen) (hle : data.shared.synRatioDen ≤ data.shared.synRatioNum)
    (hret : ps.getLastD data.syncData.positionCurrent = data.syncData.positionCurrent) :
    |(syncTicks ps (SyncMotionInit data)).shared.finalPosition - data.shared.finalPosition| ≤ 1 := by
  obtain ⟨e1, e2⟩ := syncTicks_accounting_int data ps hSR hden hle
  rw [hret, sub_self, mul_zero, zero_sub] at e1 e2
  have hnum : 0 < data.shared.synRatioNum := by omega
  rw [abs_le]
  constructor
  · by_contra hcon
    push_neg at hcon
    have h2 : (syncTicks ps (SyncMotionInit data)).shared.finalPosition
        - data.shared.finalPosition ≤ -2 := by omega
    have := mul_le_mul_of_nonneg_left h2 (le_of_lt hnum)
    linarith
  · by_contra hcon
    push_neg at hcon
    have h2 : 2 ≤ (syncTicks ps (SyncMotionInit data)).shared.finalPosition
        - data.shared.finalPosition := by omega
    have := mul_le_mul_of_nonneg_left h2 (le_of_lt hnum)
    linarith

/-- From any state reached after the initialisation by drained ticks, a run
that ends at the master position it started from changes `finalPosition` by
`(D before - D after) / (2 * num)`, with both values of `D` in the window
`[-M, M]`, `M` the larger of `2 * den` and `2 * (num - den)`. -/
theorem syncTicks_excursion (data : rampsHandler_t F) (qs ps : List Int)
    (hSR : data.synchroRefreshTimer.SR &&& 1 ≠ 0)
    (hden : 0 < data.shared.synRatioDen) (hle : data.shared.synRatioDen ≤ data.shared.synRatioNum)
    (hret : ps.getLastD (qs.getLastD data.syncData.positionCurrent)
      = qs.getLastD data.syncData.positionCurrent) :
    2 * data.shared.synRatioNum
        * ((syncTicks ps (syncTicks qs (SyncMotionInit data))).shared.finalPosition
          - (syncTicks qs (SyncMotionInit data)).shared.finalPosition)
      = (syncTicks qs (SyncMotionInit data)).syncData.D
        - (syncTicks ps (syncTicks qs (SyncMotionInit data))).syncData.D ∧
    (-(max (2 * data.shared.synRatioDen) (2 * (data.shared.synRatioNum - data.shared.synRatioDen)))
        ≤ (syncTicks qs (SyncMotionInit data)).syncData.D ∧
      (syncTicks qs (SyncMotionInit data)).syncData.D
        ≤ max (2 * data.shared.synRatioDen)
            (2 * (data.shared.synRatioNum - data.shared.synRatioDen))) ∧
    (-(max (2 * data.shared.synRatioDen) (2 * (data.shared.synRatioNum - data.shared.synRatioDen)))
        ≤ (syncTicks ps (syncTicks qs (SyncMotionInit data))).syncData.D ∧
      (syncTicks ps (syncTicks qs (SyncMotionInit data))).syncData.D
        ≤ max (2 * data.shared.synRatioDen)
            (2 * (data.shared.synRatioNum - data.shared.synRatioDen))) := by
  obtain ⟨j1, j2, j3, j4, j5, j6, j7, j8⟩ := SyncMotionInit_positive data hden hle
  have hMa := le_max_left (2 * data.shared.synRatioDen)
    (2 * (data.shared.synRatioNum - data.shared.synRatioDen))
  have hMb := le_max_right (2 * data.shared.synRatioDen)
    (2 * (data.shared.synRatioNum - data.shared.synRatioDen))
  have hSR0 : (SyncMotionInit data).synchroRefreshTimer.SR &&& 1 ≠ 0 := by rw [j8]; exact hSR
  obtain ⟨_, a2, a3, a4⟩ := syncTicks_run data.shared.synRatioNum data.shared.synRatioDen 1
    (max (2 * data.shared.synRatioDen) (2 * (data.shared.synRatioNum - data.shared.synRatioDen)))
    hden hle hMa hMb (by norm_num) qs (SyncMotionInit data) hSR0 j3 j5 j6 j1
    (by rw [j2]; omega) (by rw [j2]; omega)
  obtain ⟨g1, g2, g3, g4, g5⟩ := syncTicks_frame_run qs (SyncMotionInit data) hSR0 j3
  obtain ⟨b1, b2, b3, _⟩ := syncTicks_run data.shared.synRatioNum data.shared.synRatioDen 1
    (max (2 * data.shared.synRatioDen) (2 * (data.shared.synRatioNum - data.shared.synRatioDen)))
    hden hle hMa hMb (by norm_num) ps (syncTicks qs (SyncMotionInit data)) g1 g2
    (by rw [g3, j5]) (by rw [g4, j6]) (by rw [g5, j1]) a2 a3
  rw [a4, j7, hret] at b1
  refine ⟨by linarith, ⟨a2, a3⟩, ⟨b2, b3⟩⟩

/-- C5, amended: for every ratio with `0 < den ≤ num`, from any state reached
after `SyncMotionInit` by Phase B ticks (the run `qs`; update flag raised,
drained between ticks), for every master position sequence presented to
successive Phase B ticks that ends at the position it started from, so for
`p0, p1, ..., pn, ..., p1, p0` with `p0` the position of the last tick before
it, `finalPosition` at the end is within two steps of `finalPosition` at the
start, and within one step when `den < num` or when the sequence starts right
at the initialisation. -/
theorem sync_reversal (data : rampsHandler_t F) (qs ps : List Int)
    (hSR : data.synchroRefreshTimer.SR &&& 1 ≠ 0)
    (hden : 0 < data.shared.synRatioDen) (hle : data.shared.synRatioDen ≤ data.shared.synRatioNum)
    (hret : ps.getLastD (qs.getLastD data.syncData.positionCurrent)
      = qs.getLastD data.syncData.positionCurrent) :
    |(syncTicks ps (syncTicks qs (SyncMotionInit data))).shared.finalPosition
        - (syncTicks qs (SyncMotionInit data)).shared.finalPosition| ≤ 2 ∧
    (data.shared.synRatioDen < data.shared.synRatioNum →
      |(syncTicks ps (syncTicks qs (SyncMotionInit data))).shared.finalPosition
        - (syncTicks qs (SyncMotionInit data)).shared.finalPosition| ≤ 1) ∧
    (qs = [] →
      |(syncTicks ps (syncTicks qs (SyncMotionInit data))).shared.finalPosition
        - (syncTicks qs (SyncMotionInit data)).shared.finalPosition| ≤ 1) := by
  obtain ⟨e, ⟨a1, a2⟩, ⟨b1, b2⟩⟩ := syncTicks_excursion data qs ps hSR hden hle hret
  have hnum : 0 < data.shared.synRatioNum := by omega
  have hM : max (2 * data.shared.synRatioDen) (2 * (data.shared.synRatioNum - data.shared.synRatioDen))
      ≤ 2 * data.shared.synRatioNum := max_le (by omega) (by omega)
  refine ⟨?_, fun hlt => ?_, fun hq => ?_⟩
  · rw [abs_le]
    constructor
    · by_contra hcon
      push_neg at hcon
      have h3 : (syncTicks ps (syncTicks qs (SyncMotionInit data))).shared.finalPosition
          - (syncTicks qs (SyncMotionInit data)).shared.finalPosition ≤ -3 := by omega
      have := mul_le_mul_of_nonneg_left h3 (le_of_lt hnum)
      linarith
    · by_contra hcon
      push_neg at hcon
      have h3 : 3 ≤ (syncTicks ps (syncTicks qs (SyncMotionInit data))).shared.finalPosition
          - (syncTicks qs (SyncMotionInit data)).shared.finalPosition := by omega
      have := mul_le_mul_of_nonneg_left h3 (le_of_lt hnum)
      linarith
  · have hM' : max (2 * data.shared.synRatioDen)
          (2 * (data.shared.synRatioNum - data.shared.synRatioDen))
        ≤ 2 * data.shared.synRatioNum - 2 := max_le (by omega) (by omega)
    rw [abs_le]
    constructor
    · by_contra hcon
      push_neg at hcon
      have h2 : (syncTicks ps (syncTicks qs (SyncMotionInit data))).shared.finalPosition
          - (syncTicks qs (SyncMotionInit data)).shared.finalPosition ≤ -2 := by omega
      have := mul_le_mul_of_nonneg_left h2 (le_of_lt hnum)
      linarith
    · by_contra hcon
      push_neg at hcon
      have h2 : 2 ≤ (syncTicks ps (syncTicks qs (SyncMotionInit data))).shared.finalPosition
          - (syncTicks qs (SyncMotionInit data)).shared.finalPosition := by omega
      have := mul_le_mul_of_nonneg_left h2 (le_of_lt hnum)
      linarith
  · subst hq
    have hret' : ps.getLastD data.syncData.positionCurrent = data.syncData.positionCurrent :=
      hret
    have h := syncTicks_return_from_init data ps hSR hden hle hret'
    have hfp : (syncTicks [] (SyncMotionInit data)).shared.finalPosition
        = data.shared.finalPosition := (SyncMotionInit_positive data hden hle).2.2.2.1
    rw [hfp]
    exact h

/-- Witness for the amended C5: ratio 1:1; after one forward count (master
at 1) the excursion 3, 1 moves `finalPosition` by exactly two steps, so the
bound of two is attained.  With ratio 2:1 the same run stays within one step,
and so does the excursion 2, 0 taken right at the initialisation with ratio
1:1. -/
theorem sync_reversal_witness :
    (syncRequest 1 1).synchroRefreshTimer.SR &&& 1 ≠ 0 ∧
    0 < (syncRequest 1 1).shared.synRatioDen ∧
    (syncRequest 1 1).shared.synRatioDen ≤ (syncRequest 1 1).shared.synRatioNum ∧
    [3, 1].getLastD ([1].getLastD (syncRequest 1 1).syncData.positionCurrent)
      = [1].getLastD (syncRequest 1 1).syncData.positionCurrent ∧
    (syncTicks [3, 1] (syncTicks [1] (SyncMotionInit (syncRequest 1 1)))).shared.finalPosition
      - (syncTicks [1] (SyncMotionInit (syncRequest 1 1))).shared.finalPosition = 2 ∧
    |(syncTicks [3, 1] (syncTicks [1] (SyncMotionInit (syncRequest 1 1)))).shared.finalPosition
      - (syncTicks [1] (SyncMotionInit (syncRequest 1 1))).shared.finalPosition| ≤ 2 ∧
    (syncRequest 2 1).shared.synRatioDen < (syncRequest 2 1).shared.synRatioNum ∧
    |(syncTicks [3, 1] (syncTicks [1] (SyncMotionInit (syncRequest 2 1)))).shared.finalPosition
      - (syncTicks [1] (SyncMotionInit (syncRequest 2 1))).shared.finalPosition| ≤ 1 ∧
    |(syncTicks [2, 0] (syncTicks [] (SyncMotionInit (syncRequest 1 1)))).shared.finalPosition
      - (syncTicks [] (SyncMotionInit (syncRequest 1 1))).shared.finalPosition| ≤ 1 :=
  ⟨by decide, by decide, by decide, by decide, by decide,
   (sync_reversal (syncRequest 1 1) [1] [3, 1] (by decide) (by decide) (by decide)
     (by decide)).1,
   by decide,
   (sync_reversal (syncRequest 2 1) [1] [3, 1] (by decide) (by decide) (by decide)
     (by decide)).2.1 (by decide),
   (sync_reversal (syncRequest 1 1) [] [2, 0] (by decide) (by decide) (by decide)
     (by decide)).2.2 rfl⟩

/-! ## Set-encoder command -/

/-- C12: in `MODE_SET_ENCODER` with `encoderPresetIndex = i < SCALES_COUNT`, one
task iteration is defined and leaves scale `i` with `positionCurrent =
encoderPresetValue` and `encoderCurrent = encoderPrevious = 0` (its timer
counter zeroed), the telemetry copy `scalesPosition[i] = encoderPresetValue`,
and the mode `MODE_HALT`; every other scale is as it was. -/
theorem RampsTask_set_encoder (SCALES_COUNT : Nat) (data : rampsHandler_t F)
    (hmode : data.shared.mode = MODE_SET_ENCODER)
    (hidx : data.shared.encoderPresetIndex < SCALES_COUNT) :
    ∃ data', RampsTask SCALES_COUNT data = some data' ∧
      (data'.scales.scalePosition data.shared.encoderPresetIndex).positionCurrent
        = data.shared.encoderPresetValue ∧
      data'.shared.scalesPosition data.shared.encoderPresetIndex
        = data.shared.encoderPresetValue ∧
      (data'.scales.scalePosition data.shared.encoderPresetIndex).encoderCurrent = 0 ∧
      (data'.scales.scalePosition data.shared.encoderPresetIndex).encoderPrevious = 0 ∧
      (data'.scales.scaleTimer data.shared.encoderPresetIndex).CNT = 0 ∧
      data'.shared.mode = MODE_HALT ∧
      (∀ j, j ≠ data.shared.encoderPresetIndex →
        data'.scales.scalePosition j = data.scales.scalePosition j) := by
  have hm1 : (taskRefreshScales SCALES_COUNT data).shared.mode = MODE_SET_ENCODER := hmode
  have hni : (taskRefreshScales SCALES_COUNT data).shared.mode ≠ MODE_SYNCHRO_INIT := by
    rw [hm1]; decide
  have hi1 : (taskRefreshScales SCALES_COUNT data).shared.encoderPresetIndex < SCALES_COUNT :=
    hidx
  refine ⟨taskSetEncoder (taskRefreshScales SCALES_COUNT data), ?_, ?_, ?_, ?_, ?_, ?_, ?_, ?_⟩
  · unfold RampsTask
    simp only
    rw [if_neg hni, if_pos hm1, if_pos hi1]
  · simp [taskSetEncoder, taskRefreshScales]
  · simp [taskSetEncoder, taskRefreshScales]
  · simp [taskSetEncoder, taskRefreshScales]
  · simp [taskSetEncoder, taskRefreshScales]
  · simp [taskSetEncoder, taskRefreshScales]
  · simp [taskSetEncoder]
  · intro j hj
    simp [taskSetEncoder, taskRefreshScales, hj]

/-- Witness for C12: scenario S5 with four scales; scale 0 is preset to 12345
and scale 1 keeps its position 77. -/
theorem RampsTask_set_encoder_witness :
    presetRequest.shared.mode = MODE_SET_ENCODER ∧
    presetRequest.shared.encoderPresetIndex < 4 ∧
    (∃ data', RampsTask 4 presetRequest = some data' ∧
      (data'.scales.scalePosition presetRequest.shared.encoderPresetIndex).positionCurrent
        = presetRequest.shared.encoderPresetValue ∧
      data'.shared.scalesPosition presetRequest.shared.encoderPresetIndex
        = presetRequest.shared.encoderPresetValue ∧
      (data'.scales.scalePosition presetRequest.shared.encoderPresetIndex).encoderCurrent = 0 ∧
      (data'.scales.scalePosition presetRequest.shared.encoderPresetIndex).encoderPrevious = 0 ∧
      (data'.scales.scaleTimer presetRequest.shared.encoderPresetIndex).CNT = 0 ∧
      data'.shared.mode = MODE_HALT ∧
      (∀ j, j ≠ presetRequest.shared.encoderPresetIndex →
        data'.scales.scalePosition j = presetRequest.scales.scalePosition j)) :=
  ⟨by decide, by decide, RampsTask_set_encoder 4 presetRequest (by decide) (by decide)⟩

/-! ## The synchronizer outside `MODE_SYNCHRO` and the bad-ratio mode -/

/-- Outside `MODE_SYNCHRO` the synchro tick changes nothing but the scales it
samples. -/
theorem SyncMotionIsr_of_not_synchro (updateScales : scales_t → scales_t)
    (data : rampsHandler_t F) (hmode : data.shared.mode ≠ MODE_SYNCHRO) :
    (SyncMotionIsr updateScales data).shared = data.shared ∧
    (SyncMotionIsr updateScales data).syncData = data.syncData ∧
    (SyncMotionIsr updateScales data).indexData = data.indexData ∧
    (SyncMotionIsr updateScales data).dirPin = data.dirPin ∧
    (SyncMotionIsr updateScales data).motorPwmTimer = data.motorPwmTimer ∧
    (SyncMotionIsr updateScales data).synchroRefreshTimer = data.synchroRefreshTimer ∧
    (SyncMotionIsr updateScales data).indexRefreshTimer = data.indexRefreshTimer := by
  unfold SyncMotionIsr
  by_cases hSR : data.synchroRefreshTimer.SR &&& 1 = 0
  · rw [if_pos hSR]
    exact ⟨rfl, rfl, rfl, rfl, rfl, rfl, rfl⟩
  · rw [if_neg hSR]
    simp only
    rw [if_neg (fun h => hmode h.1), if_pos hmode]
    exact ⟨rfl, rfl, rfl, rfl, rfl, rfl, rfl⟩

/-- C16: for every state with `mode ≠ MODE_SYNCHRO` and every scale sampler
(so whatever the master position is), `SyncMotionIsr` leaves every
register-window field, the synchronizer state (`D`, `yi`, `direction`,
`positionPrevious`, `positionCurrent`) and the direction line unchanged; the
indexer state and the three timers are unchanged too. -/
theorem SyncMotionIsr_inert_outside_synchro (updateScales : scales_t → scales_t)
    (data : rampsHandler_t F) (hmode : data.shared.mode ≠ MODE_SYNCHRO) :
    (SyncMotionIsr updateScales data).shared = data.shared ∧
    (SyncMotionIsr updateScales data).syncData = data.syncData ∧
    (SyncMotionIsr updateScales data).dirPin = data.dirPin ∧
    (SyncMotionIsr updateScales data).indexData = data.indexData ∧
    (SyncMotionIsr updateScales data).motorPwmTimer = data.motorPwmTimer ∧
    (SyncMotionIsr updateScales data).synchroRefreshTimer = data.synchroRefreshTimer ∧
    (SyncMotionIsr updateScales data).indexRefreshTimer = data.indexRefreshTimer := by
  obtain ⟨h1, h2, h3, h4, h5, h6, h7⟩ := SyncMotionIsr_of_not_synchro updateScales data hmode
  exact ⟨h1, h2, h4, h3, h5, h6, h7⟩

/-- Witness for C16: the bad-ratio state, with a sampler that moves the master
scale to 1000. -/
theorem SyncMotionIsr_inert_outside_synchro_witness :
    badRatio.shared.mode ≠ MODE_SYNCHRO ∧
    (SyncMotionIsr (scalesAt 0 1000) badRatio).shared = badRatio.shared ∧
    (SyncMotionIsr (scalesAt 0 1000) badRatio).syncData = badRatio.syncData ∧
    (SyncMotionIsr (scalesAt 0 1000) badRatio).dirPin = badRatio.dirPin :=
  ⟨by decide,
   (SyncMotionIsr_inert_outside_synchro (scalesAt 0 1000) badRatio (by decide)).1,
   (SyncMotionIsr_inert_outside_synchro (scalesAt 0 1000) badRatio (by decide)).2.1,
   (SyncMotionIsr_inert_outside_synchro (scalesAt 0 1000) badRatio (by decide)).2.2.1⟩

/-- The index tick never writes `mode`. -/
theorem IndexMotionIsr_mode (ops : FloatOps F) (data : rampsHandler_t F) :
    (IndexMotionIsr ops data).shared.mode = data.shared.mode := by
  unfold IndexMotionIsr
  simp only
  split_ifs <;> simp [indexEmit]

/-- In `MODE_SYNCHRO_BAD_RATIO` a task iteration only refreshes the
telemetry. -/
theorem RampsTask_of_bad_ratio (SCALES_COUNT : Nat) (data : rampsHandler_t F)
    (hmode : data.shared.mode = MODE_SYNCHRO_BAD_RATIO) :
    RampsTask SCALES_COUNT data = some (taskRefreshScales SCALES_COUNT data) := by
  have hm1 : (taskRefreshScales SCALES_COUNT data).shared.mode = MODE_SYNCHRO_BAD_RATIO := hmode
  have hni : (taskRefreshScales SCALES_COUNT data).shared.mode ≠ MODE_SYNCHRO_INIT := by
    rw [hm1]; decide
  have hns : (taskRefreshScales SCALES_COUNT data).shared.mode ≠ MODE_SET_ENCODER := by
    rw [hm1]; decide
  unfold RampsTask
  simp only
  rw [if_neg hni, if_neg hns]

/-- In `MODE_SYNCHRO_BAD_RATIO` every engine operation is defined and keeps
the mode and `currentPosition`. -/
theorem EngineOp_apply_of_bad_ratio (SCALES_COUNT : Nat) (ops : FloatOps F) (o : EngineOp)
    (data : rampsHandler_t F) (hmode : data.shared.mode = MODE_SYNCHRO_BAD_RATIO) :
    ∃ data', o.apply SCALES_COUNT ops data = some data' ∧
      data'.shared.mode = MODE_SYNCHRO_BAD_RATIO ∧
      data'.shared.currentPosition = data.shared.currentPosition := by
  have hns : data.shared.mode ≠ MODE_SYNCHRO := by rw [hmode]; decide
  cases o with
  | syncTick u =>
    refine ⟨SyncMotionIsr u data, rfl, ?_, SyncMotionIsr_currentPosition u data⟩
    rw [(SyncMotionIsr_of_not_synchro u data hns).1]
    exact hmode
  | indexTick =>
    refine ⟨IndexMotionIsr ops data, rfl, ?_, IndexMotionIsr_currentPosition ops data⟩
    rw [IndexMotionIsr_mode]
    exact hmode
  | pulseComplete =>
    refine ⟨RampsMotionIsr data, rfl, ?_, ?_⟩
    · unfold RampsMotionIsr
      rw [if_neg hns]
      exact hmode
    · unfold RampsMotionIsr
      rw [if_neg hns]
  | taskIteration =>
    exact ⟨taskRefreshScales SCALES_COUNT data, RampsTask_of_bad_ratio SCALES_COUNT data hmode,
      hmode, rfl⟩

/-- In `MODE_SYNCHRO_BAD_RATIO` every sequence of engine operations is defined
and keeps the mode and `currentPosition`. -/
theorem runEngineOps_of_bad_ratio (SCALES_COUNT : Nat) (ops : FloatOps F) (os : List EngineOp) :
    ∀ data : rampsHandler_t F, data.shared.mode = MODE_SYNCHRO_BAD_RATIO →
    ∃ data', runEngineOps SCALES_COUNT ops os data = some data' ∧
      data'.shared.mode = MODE_SYNCHRO_BAD_RATIO ∧
      data'.shared.currentPosition = data.shared.currentPosition := by
  induction os with
  | nil => intro data hmode; exact ⟨data, rfl, hmode, rfl⟩
  | cons o os ih =>
    intro data hmode
    obtain ⟨d1, h1, m1, c1⟩ := EngineOp_apply_of_bad_ratio SCALES_COUNT ops o data hmode
    obtain ⟨d2, h2, m2, c2⟩ := ih d1 m1
    refine ⟨d2, ?_, m2, by rw [c2, c1]⟩
    rw [runEngineOps, h1]
    exact h2

/-- C13: from any state with `mode = MODE_SYNCHRO_BAD_RATIO`, each engine
operation (`SyncMotionIsr` with any sampler, `IndexMotionIsr`,
`RampsMotionIsr`, one `RampsTask` iteration, which is defined there) leaves
`mode = MODE_SYNCHRO_BAD_RATIO` and `currentPosition` unchanged, and so does
every sequence of such operations: no step is accounted until the mode
register is rewritten from outside. -/
theorem bad_ratio_terminal (SCALES_COUNT : Nat) (ops : FloatOps F)
    (updateScales : scales_t → scales_t) (data : rampsHandler_t F)
    (hmode : data.shared.mode = MODE_SYNCHRO_BAD_RATIO) :
    ((SyncMotionIsr updateScales data).shared.mode = MODE_SYNCHRO_BAD_RATIO ∧
      (SyncMotionIsr updateScales data).shared.currentPosition = data.shared.currentPosition) ∧
    ((IndexMotionIsr ops data).shared.mode = MODE_SYNCHRO_BAD_RATIO ∧
      (IndexMotionIsr ops data).shared.currentPosition = data.shared.currentPosition) ∧
    ((RampsMotionIsr data).shared.mode = MODE_SYNCHRO_BAD_RATIO ∧
      (RampsMotionIsr data).shared.currentPosition = data.shared.currentPosition) ∧
    (∃ data', RampsTask SCALES_COUNT data = some data' ∧
      data'.shared.mode = MODE_SYNCHRO_BAD_RATIO ∧
      data'.shared.currentPosition = data.shared.currentPosition) ∧
    (∀ os : List EngineOp, ∃ data', runEngineOps SCALES_COUNT ops os data = some data' ∧
      data'.shared.mode = MODE_SYNCHRO_BAD_RATIO ∧
      data'.shared.currentPosition = data.shared.currentPosition) := by
  obtain ⟨a, ha, ma, ca⟩ := EngineOp_apply_of_bad_ratio SCALES_COUNT ops
    (EngineOp.syncTick updateScales) data hmode
  obtain ⟨b, hb, mb, cb⟩ := EngineOp_apply_of_bad_ratio SCALES_COUNT ops
    EngineOp.indexTick data hmode
  obtain ⟨c, hc, mc, cc⟩ := EngineOp_apply_of_bad_ratio SCALES_COUNT ops
    EngineOp.pulseComplete data hmode
  have ea : SyncMotionIsr updateScales data = a := Option.some.inj ha
  have eb : IndexMotionIsr ops data = b := Option.some.inj hb
  have ec : RampsMotionIsr data = c := Option.some.inj hc
  refine ⟨by rw [ea]; exact ⟨ma, ca⟩, by rw [eb]; exact ⟨mb, cb⟩, by rw [ec]; exact ⟨mc, cc⟩,
    EngineOp_apply_of_bad_ratio SCALES_COUNT ops EngineOp.taskIteration data hmode,
    fun os => runEngineOps_of_bad_ratio SCALES_COUNT ops os data hmode⟩

/-- Witness for C13: the bad-ratio state with an index request pending and the
direction line high; a synchro tick, an index tick, a pulse interrupt and a
task iteration in a row leave the mode and `currentPosition = 4`. -/
theorem bad_ratio_terminal_witness :
    badRatio.shared.mode = MODE_SYNCHRO_BAD_RATIO ∧
    (RampsMotionIsr badRatio).shared.currentPosition = badRatio.shared.currentPosition ∧
    (∃ data', runEngineOps 4 ratOps
        [EngineOp.syncTick (scalesAt 0 1000), EngineOp.indexTick, EngineOp.pulseComplete,
          EngineOp.taskIteration] badRatio = some data' ∧
      data'.shared.mode = MODE_SYNCHRO_BAD_RATIO ∧
      data'.shared.currentPosition = badRatio.shared.currentPosition) :=
  ⟨by decide,
   (bad_ratio_terminal 4 ratOps id badRatio (by decide)).2.2.1.2,
   (bad_ratio_terminal 4 ratOps id badRatio (by decide)).2.2.2.2 _⟩

/-! ## Phase A: draining the outstanding steps -/

/-- A synchro call with the update flag clear returns the state as it is. -/
theorem SyncMotionIsr_of_flag_clear (updateScales : scales_t → scales_t)
    (data : rampsHandler_t F) (hSR : data.synchroRefreshTimer.SR &&& 1 = 0) :
    SyncMotionIsr updateScales data = data := by
  unfold SyncMotionIsr
  rw [if_pos hSR]

/-- A Phase A tick (update flag raised, `MODE_SYNCHRO`, steps outstanding): the
direction line takes the sign of `finalPosition - currentPosition`, the pulse
channel is started when the tick timer is enabled, and the register window,
the synchronizer state, the indexer state and the tick timers are
untouched. -/
theorem SyncMotionIsr_phaseA (updateScales : scales_t → scales_t) (data : rampsHandler_t F)
    (hSR : data.synchroRefreshTimer.SR &&& 1 ≠ 0) (hmode : data.shared.mode = MODE_SYNCHRO)
    (hne : data.shared.finalPosition ≠ data.shared.currentPosition) :
    (SyncMotionIsr updateScales data).dirPin
      = decide (data.shared.finalPosition > data.shared.currentPosition) ∧
    (SyncMotionIsr updateScales data).motorPwmTimer
      = (if data.synchroRefreshTimer.CR1 &&& 1 = 1
          then { data.motorPwmTimer with pwmStarted := true } else data.motorPwmTimer) ∧
    (SyncMotionIsr updateScales data).shared = data.shared ∧
    (SyncMotionIsr updateScales data).syncData = data.syncData ∧
    (SyncMotionIsr updateScales data).indexData = data.indexData ∧
    (SyncMotionIsr updateScales data).synchroRefreshTimer = data.synchroRefreshTimer ∧
    (SyncMotionIsr updateScales data).indexRefreshTimer = data.indexRefreshTimer := by
  unfold SyncMotionIsr
  rw [if_neg hSR]
  simp only
  rw [if_pos ⟨hmode, hne⟩]
  by_cases hgt : data.shared.finalPosition > data.shared.currentPosition
  · by_cases hcr : data.synchroRefreshTimer.CR1 &&& 1 = 1
    · simp only [hgt, hcr, if_true, decide_True]
      refine ⟨?_, ?_, ?_, ?_, ?_, ?_, ?_⟩ <;> first | rfl | trivial
    · simp only [hgt, hcr, if_true, if_false, decide_True]
      refine ⟨?_, ?_, ?_, ?_, ?_, ?_, ?_⟩ <;> first | rfl | trivial
  · by_cases hcr : data.synchroRefreshTimer.CR1 &&& 1 = 1
    · simp only [hgt, hcr, if_true, if_false, decide_False]
      refine ⟨?_, ?_, ?_, ?_, ?_, ?_, ?_⟩ <;> first | rfl | trivial
    · simp only [hgt, hcr, if_false, decide_False]
      refine ⟨?_, ?_, ?_, ?_, ?_, ?_, ?_⟩ <;> first | rfl | trivial

/-- C14: for every state with `mode = MODE_SYNCHRO` and `finalPosition ≠
currentPosition`, a tick of the synchro timer (a call with the update flag
raised) sets the direction line high if `finalPosition > currentPosition` and
low otherwise, starts a pulse if the tick timer is enabled and leaves the pulse
timer alone if it is not, and leaves the whole register window and the whole
synchronizer state unchanged, so `finalPosition`, `currentPosition`, `D`, `yi`,
`positionPrevious` and `positionCurrent`: no master count is consumed.  A call
with the update flag clear is not a tick of this timer and returns at once. -/
theorem SyncMotionIsr_phaseA_tick (updateScales : scales_t → scales_t)
    (data : rampsHandler_t F) (hmode : data.shared.mode = MODE_SYNCHRO)
    (hne : data.shared.finalPosition ≠ data.shared.currentPosition) :
    (data.synchroRefreshTimer.SR &&& 1 ≠ 0 →
      (data.shared.finalPosition > data.shared.currentPosition →
        (SyncMotionIsr updateScales data).dirPin = true) ∧
      (¬ data.shared.finalPosition > data.shared.currentPosition →
        (SyncMotionIsr updateScales data).dirPin = false) ∧
      (data.synchroRefreshTimer.CR1 &&& 1 = 1 →
        (SyncMotionIsr updateScales data).motorPwmTimer
          = { data.motorPwmTimer with pwmStarted := true }) ∧
      (data.synchroRefreshTimer.CR1 &&& 1 ≠ 1 →
        (SyncMotionIsr updateScales data).motorPwmTimer = data.motorPwmTimer) ∧
      (SyncMotionIsr updateScales data).shared = data.shared ∧
      (SyncMotionIsr updateScales data).syncData = data.syncData) ∧
    (data.synchroRefreshTimer.SR &&& 1 = 0 → SyncMotionIsr updateScales data = data) := by
  refine ⟨fun hSR => ?_, fun hSR => SyncMotionIsr_of_flag_clear updateScales data hSR⟩
  obtain ⟨h1, h2, h3, h4, _, _, _⟩ := SyncMotionIsr_phaseA updateScales data hSR hmode hne
  refine ⟨fun hgt => ?_, fun hgt => ?_, fun hcr => ?_, fun hcr => ?_, h3, h4⟩
  · rw [h1]; exact decide_eq_true hgt
  · rw [h1]; exact decide_eq_false hgt
  · rw [h2, if_pos hcr]
  · rw [h2, if_neg hcr]

/-- Witness for C14: five steps outstanding, direction line low before the
tick, tick timer enabled: the line goes high and a pulse is started. -/
theorem SyncMotionIsr_phaseA_tick_witness :
    outstanding.shared.mode = MODE_SYNCHRO ∧
    outstanding.shared.finalPosition ≠ outstanding.shared.currentPosition ∧
    outstanding.synchroRefreshTimer.SR &&& 1 ≠ 0 ∧
    outstanding.dirPin = false ∧
    (SyncMotionIsr (scalesAt 0 40) outstanding).dirPin = true ∧
    (SyncMotionIsr (scalesAt 0 40) outstanding).motorPwmTimer
      = { outstanding.motorPwmTimer with pwmStarted := true } ∧
    (SyncMotionIsr (scalesAt 0 40) outstanding).syncData = outstanding.syncData :=
  ⟨by decide, by decide, by decide, by decide,
   ((SyncMotionIsr_phaseA_tick (scalesAt 0 40) outstanding (by decide) (by decide)).1
      (by decide)).1 (by decide),
   ((SyncMotionIsr_phaseA_tick (scalesAt 0 40) outstanding (by decide) (by decide)).1
      (by decide)).2.2.1 (by decide),
   ((SyncMotionIsr_phaseA_tick (scalesAt 0 40) outstanding (by decide) (by decide)).1
      (by decide)).2.2.2.2.2⟩

/-- One drain round with steps outstanding: `currentPosition` moves one unit
towards `finalPosition`, nothing else in the register window changes, and the
synchronizer state and the synchro timer are untouched. -/
theorem drainRound_of_outstanding (updateScales : scales_t → scales_t)
    (data : rampsHandler_t F)
    (hSR : data.synchroRefreshTimer.SR &&& 1 ≠ 0) (hmode : data.shared.mode = MODE_SYNCHRO)
    (hne : data.shared.finalPosition ≠ data.shared.currentPosition) :
    (drainRound updateScales data).shared
      = { data.shared with
          currentPosition :=
            if data.shared.finalPosition > data.shared.currentPosition
            then data.shared.currentPosition + 1 else data.shared.currentPosition - 1 } ∧
    (drainRound updateScales data).syncData = data.syncData ∧
    (drainRound updateScales data).synchroRefreshTimer = data.synchroRefreshTimer := by
  obtain ⟨h1, _, h3, h4, _, h6, _⟩ := SyncMotionIsr_phaseA updateScales data hSR hmode hne
  have hm : (SyncMotionIsr updateScales data).shared.mode = MODE_SYNCHRO := by
    rw [h3]; exact hmode
  unfold drainRound RampsMotionIsr
  rw [if_pos hm]
  unfold motorSynchroModeIsr
  by_cases hgt : data.shared.finalPosition > data.shared.currentPosition
  · have hd : (SyncMotionIsr updateScales data).dirPin = true := by
      rw [h1]; exact decide_eq_true hgt
    simp only [hd, if_true, h3, h4, h6, if_pos hgt, and_self]
  · have hd : (SyncMotionIsr updateScales data).dirPin = false := by
      rw [h1]; exact decide_eq_false hgt
    simp only [hd, Bool.false_eq_true, if_false, h3, h4, h6, if_neg hgt, and_self]

/-- Drain rounds, at most as many as there are steps outstanding, leave
`finalPosition` alone and shorten the distance by one per round. -/
theorem drainRounds_distance (us : List (scales_t → scales_t)) :
    ∀ data : rampsHandler_t F,
    data.synchroRefreshTimer.SR &&& 1 ≠ 0 → data.shared.mode = MODE_SYNCHRO →
    us.length ≤ (data.shared.finalPosition - data.shared.currentPosition).natAbs →
    (drainRounds us data).shared.finalPosition = data.shared.finalPosition ∧
    ((drainRounds us data).shared.finalPosition
        - (drainRounds us data).shared.currentPosition).natAbs
      = (data.shared.finalPosition - data.shared.currentPosition).natAbs - us.length := by
  induction us with
  | nil => intro data _ _ _; exact ⟨rfl, rfl⟩
  | cons u rest ih =>
    intro data hSR hmode hlen
    have hlen' : rest.length + 1
        ≤ (data.shared.finalPosition - data.shared.currentPosition).natAbs := hlen
    have hne : data.shared.finalPosition ≠ data.shared.currentPosition := by
      intro h
      rw [h, sub_self] at hlen'
      simp at hlen'
    obtain ⟨r1, _, r3⟩ := drainRound_of_outstanding u data hSR hmode hne
    have hfp : (drainRound u data).shared.finalPosition = data.shared.finalPosition := by
      rw [r1]
    have hcp : (drainRound u data).shared.currentPosition
        = (if data.shared.finalPosition > data.shared.currentPosition
            then data.shared.currentPosition + 1 else data.shared.currentPosition - 1) := by
      rw [r1]
    have hmd : (drainRound u data).shared.mode = MODE_SYNCHRO := by
      rw [r1]; exact hmode
    have hdist : ((drainRound u data).shared.finalPosition
          - (drainRound u data).shared.currentPosition).natAbs
        = (data.shared.finalPosition - data.shared.currentPosition).natAbs - 1 := by
      rw [hfp, hcp]
      split_ifs with hgt <;> omega
    obtain ⟨i1, i2⟩ := ih (drainRound u data) (by rw [r3]; exact hSR) hmd
      (by rw [hdist]; omega)
    rw [drainRounds]
    refine ⟨by rw [i1, hfp], ?_⟩
    rw [i2, hdist, List.length_cons]
    omega

/-- C15: for every state with `mode = MODE_SYNCHRO`, the tick timer enabled
and `finalPosition - currentPosition = d ≠ 0`, a tick of the synchro timer (a
call with the update flag raised) starts a pulse, and the tick followed by the
pulse-complete interrupt `RampsMotionIsr` moves `currentPosition` by one unit
towards `finalPosition`: `|finalPosition - currentPosition|` drops by exactly
1 with `finalPosition` unchanged; after `|d|` such rounds, whatever the scale
samplers do, `currentPosition = finalPosition`. -/
theorem drain_converges (updateScales : scales_t → scales_t) (data : rampsHandler_t F)
    (hSR : data.synchroRefreshTimer.SR &&& 1 ≠ 0)
    (hCR : data.synchroRefreshTimer.CR1 &&& 1 = 1)
    (hmode : data.shared.mode = MODE_SYNCHRO)
    (hne : data.shared.finalPosition - data.shared.currentPosition ≠ 0) :
    (SyncMotionIsr updateScales data).motorPwmTimer.pwmStarted = true ∧
    (drainRound updateScales data).shared.currentPosition
      = (if data.shared.finalPosition > data.shared.currentPosition
          then data.shared.currentPosition + 1 else data.shared.currentPosition - 1) ∧
    (drainRound updateScales data).shared.finalPosition = data.shared.finalPosition ∧
    |(drainRound updateScales data).shared.finalPosition
        - (drainRound updateScales data).shared.currentPosition|
      = |data.shared.finalPosition - data.shared.currentPosition| - 1 ∧
    (∀ us : List (scales_t → scales_t),
      us.length = (data.shared.finalPosition - data.shared.currentPosition).natAbs →
      (drainRounds us data).shared.currentPosition = data.shared.finalPosition ∧
      (drainRounds us data).shared.finalPosition = data.shared.finalPosition) := by
  have hne' : data.shared.finalPosition ≠ data.shared.currentPosition :=
    fun h => hne (by rw [h, sub_self])
  obtain ⟨_, p2, _, _, _, _, _⟩ := SyncMotionIsr_phaseA updateScales data hSR hmode hne'
  obtain ⟨r1, _, _⟩ := drainRound_of_outstanding updateScales data hSR hmode hne'
  refine ⟨by rw [p2, if_pos hCR], by rw [r1], by rw [r1], ?_, fun us hlen => ?_⟩
  · rw [r1]
    simp only
    split_ifs with hgt
    · rw [abs_of_nonneg (by omega), abs_of_pos (by omega)]
      ring
    · rw [abs_of_nonpos (by omega), abs_of_neg (by omega)]
      ring
  · obtain ⟨d1, d2⟩ := drainRounds_distance us data hSR hmode (le_of_eq hlen)
    refine ⟨?_, d1⟩
    rw [hlen, Nat.sub_self, d1] at d2
    have := Int.natAbs_eq_zero.mp d2
    omega

/-- Witness for C15: five steps outstanding (`d = 5`) need five rounds. -/
theorem drain_converges_witness :
    outstanding.synchroRefreshTimer.SR &&& 1 ≠ 0 ∧
    outstanding.synchroRefreshTimer.CR1 &&& 1 = 1 ∧
    outstanding.shared.mode = MODE_SYNCHRO ∧
    outstanding.shared.finalPosition - outstanding.shared.currentPosition = 5 ∧
    (drainRounds [id, id, id, id, id] outstanding).shared.currentPosition
      = outstanding.shared.finalPosition ∧
    (drainRounds [id, id, id, id, id] outstanding).shared.finalPosition
      = outstanding.shared.finalPosition :=
  ⟨by decide, by decide, by decide, by decide,
   (drain_converges id outstanding (by decide) (by decide) (by decide) (by decide)).2.2.2.2
     [id, id, id, id, id] (by decide)⟩

/-! ## Synchronizer: the conserved quantity and the forward bounds -/

/-- A Phase B tick with any sampler conserves
`D + 2 * num * yi * finalPosition - 2 * den * positionCurrent` when `yi` is a
unit, and leaves the ratio registers and `yi` as they were. -/
theorem SyncMotionIsr_phaseB_conserved (updateScales : scales_t → scales_t)
    (data : rampsHandler_t F)
    (hSR : data.synchroRefreshTimer.SR &&& 1 ≠ 0) (hmode : data.shared.mode = MODE_SYNCHRO)
    (hdr : data.shared.finalPosition = data.shared.currentPosition)
    (hyi : data.syncData.yi * data.syncData.yi = 1) :
    (SyncMotionIsr updateScales data).syncData.D
        + 2 * data.shared.synRatioNum * (data.syncData.yi
          * (SyncMotionIsr updateScales data).shared.finalPosition)
        - 2 * data.shared.synRatioDen * (SyncMotionIsr updateScales data).syncData.positionCurrent
      = data.syncData.D + 2 * data.shared.synRatioNum * (data.syncData.yi * data.shared.finalPosition)
        - 2 * data.shared.synRatioDen * data.syncData.positionCurrent := by
  obtain ⟨h1, h2, _⟩ := SyncMotionIsr_phaseB updateScales data hSR hmode hdr
  have hD := congrArg Prod.fst h1
  have hF := congrArg Prod.snd h1
  simp only at hD hF
  rw [hD, hF, h2]
  split_ifs with hlt hgt
  · have hc := syncForwardLoop_conserved data.shared.synRatioNum data.shared.synRatioDen
      data.syncData.yi hyi
      (((updateScales data.scales).scalePosition data.shared.synScaleIndex).positionCurrent
        - data.syncData.positionCurrent).toNat (data.syncData.D, data.shared.finalPosition)
    have hn : ((((updateScales data.scales).scalePosition data.shared.synScaleIndex).positionCurrent
        - data.syncData.positionCurrent).toNat : Int)
        = ((updateScales data.scales).scalePosition data.shared.synScaleIndex).positionCurrent
          - data.syncData.positionCurrent := Int.toNat_of_nonneg (by omega)
    rw [hn] at hc
    simp only at hc
    linarith
  · have hc := syncBackwardLoop_conserved data.shared.synRatioNum data.shared.synRatioDen
      data.syncData.yi hyi
      (data.syncData.positionCurrent
        - ((updateScales data.scales).scalePosition data.shared.synScaleIndex).positionCurrent).toNat
      (data.syncData.D, data.shared.finalPosition)
    have hn : ((data.syncData.positionCurrent
        - ((updateScales data.scales).scalePosition
            data.shared.synScaleIndex).positionCurrent).toNat : Int)
        = data.syncData.positionCurrent
          - ((updateScales data.scales).scalePosition data.shared.synScaleIndex).positionCurrent :=
      Int.toNat_of_nonneg (by omega)
    rw [hn] at hc
    simp only at hc
    linarith
  · have he : ((updateScales data.scales).scalePosition data.shared.synScaleIndex).positionCurrent
        = data.syncData.positionCurrent := by omega
    rw [he]

/-- Along any run of drained ticks, for any ratio and a unit `yi`, the
quantity `D + 2 * num * yi * finalPosition - 2 * den * master` is conserved. -/
theorem syncTicks_conserved (num den yi : Int) (hyi : yi * yi = 1) (ps : List Int) :
    ∀ data : rampsHandler_t F,
    data.synchroRefreshTimer.SR &&& 1 ≠ 0 → data.shared.mode = MODE_SYNCHRO →
    data.shared.synRatioNum = num → data.shared.synRatioDen = den → data.syncData.yi = yi →
    (syncTicks ps data).syncData.D + 2 * num * (yi * (syncTicks ps data).shared.finalPosition)
        - 2 * den * ps.getLastD data.syncData.positionCurrent
      = data.syncData.D + 2 * num * (yi * data.shared.finalPosition)
        - 2 * den * data.syncData.positionCurrent := by
  induction ps with
  | nil => intro data _ _ _ _ _; rfl
  | cons p rest ih =>
    intro data hSR hmode hnum hdn hy
    obtain ⟨f1, f2, f3, f4, f5, f6⟩ := syncTick_frame p data hSR hmode
    have hc := syncTick_conserved p data hSR hmode (by rw [hy]; exact hyi)
    have i1 := ih (SyncMotionIsr (scalesAt data.shared.synScaleIndex p) (drained data))
      f6 f3 (by rw [f4, hnum]) (by rw [f5, hdn]) (by rw [f2, hy])
    rw [f1] at i1
    rw [hnum, hdn, hy] at hc
    rw [syncTicks, List.getLastD_cons, i1, hc]

/-- C19: with `yi` equal to 1 or -1, a Phase B tick of `SyncMotionIsr` (update
flag raised, `MODE_SYNCHRO`, nothing outstanding), for any sampler, so for
master motion in either direction and any number of counts, leaves the ratio
registers and `yi` as they were and preserves
`D + 2 * num * yi * finalPosition - 2 * den * positionCurrent`; hence after
any run of such ticks `D` is its initial value plus `2 * den` times the net
master counts minus `2 * num` times the net slave steps
`yi * (finalPosition change)`. -/
theorem sync_conserved_quantity (updateScales : scales_t → scales_t) (data : rampsHandler_t F)
    (hSR : data.synchroRefreshTimer.SR &&& 1 ≠ 0) (hmode : data.shared.mode = MODE_SYNCHRO)
    (hdr : data.shared.finalPosition = data.shared.currentPosition)
    (hyi : data.syncData.yi = 1 ∨ data.syncData.yi = -1) :
    ((SyncMotionIsr updateScales data).shared.synRatioNum = data.shared.synRatioNum ∧
      (SyncMotionIsr updateScales data).shared.synRatioDen = data.shared.synRatioDen ∧
      (SyncMotionIsr updateScales data).syncData.yi = data.syncData.yi) ∧
    (SyncMotionIsr updateScales data).syncData.D
        + 2 * (SyncMotionIsr updateScales data).shared.synRatioNum
          * (SyncMotionIsr updateScales data).syncData.yi
          * (SyncMotionIsr updateScales data).shared.finalPosition
        - 2 * (SyncMotionIsr updateScales data).shared.synRatioDen
          * (SyncMotionIsr updateScales data).syncData.positionCurrent
      = data.syncData.D
        + 2 * data.shared.synRatioNum * data.syncData.yi * data.shared.finalPosition
        - 2 * data.shared.synRatioDen * data.syncData.positionCurrent ∧
    (∀ ps : List Int,
      (syncTicks ps data).syncData.D
        = data.syncData.D
          + 2 * data.shared.synRatioDen
            * (ps.getLastD data.syncData.positionCurrent - data.syncData.positionCurrent)
          - 2 * data.shared.synRatioNum
            * (data.syncData.yi
              * ((syncTicks ps data).shared.finalPosition - data.shared.finalPosition))) := by
  have hunit : data.syncData.yi * data.syncData.yi = 1 := by
    rcases hyi with h | h <;> rw [h] <;> norm_num
  obtain ⟨_, _, _, b4, _, b6, b7, _, _⟩ := SyncMotionIsr_phaseB updateScales data hSR hmode hdr
  have hc := SyncMotionIsr_phaseB_conserved updateScales data hSR hmode hdr hunit
  refine ⟨⟨b6, b7, b4⟩, ?_, fun ps => ?_⟩
  · rw [b6, b7, b4]
    linarith
  · have hr := syncTicks_conserved data.shared.synRatioNum data.shared.synRatioDen
      data.syncData.yi hunit ps data hSR hmode rfl rfl rfl
    linarith

/-- Witness for C19: ratio 10:1 right after initialisation, a tick that finds
the master 3 counts back. -/
theorem sync_conserved_quantity_witness :
    (SyncMotionInit (syncRequest 10 1)).synchroRefreshTimer.SR &&& 1 ≠ 0 ∧
    (SyncMotionInit (syncRequest 10 1)).shared.mode = MODE_SYNCHRO ∧
    (SyncMotionInit (syncRequest 10 1)).shared.finalPosition
      = (SyncMotionInit (syncRequest 10 1)).shared.currentPosition ∧
    ((SyncMotionInit (syncRequest 10 1)).syncData.yi = 1 ∨
      (SyncMotionInit (syncRequest 10 1)).syncData.yi = -1) ∧
    (SyncMotionIsr (scalesAt 0 (-3)) (SyncMotionInit (syncRequest 10 1))).syncData.D
        + 2 * (SyncMotionIsr (scalesAt 0 (-3)) (SyncMotionInit (syncRequest 10 1))).shared.synRatioNum
          * (SyncMotionIsr (scalesAt 0 (-3)) (SyncMotionInit (syncRequest 10 1))).syncData.yi
          * (SyncMotionIsr (scalesAt 0 (-3)) (SyncMotionInit (syncRequest 10 1))).shared.finalPosition
        - 2 * (SyncMotionIsr (scalesAt 0 (-3)) (SyncMotionInit (syncRequest 10 1))).shared.synRatioDen
          * (SyncMotionIsr (scalesAt 0 (-3))
              (SyncMotionInit (syncRequest 10 1))).syncData.positionCurrent
      = (SyncMotionInit (syncRequest 10 1)).syncData.D
        + 2 * (SyncMotionInit (syncRequest 10 1)).shared.synRatioNum
          * (SyncMotionInit (syncRequest 10 1)).syncData.yi
          * (SyncMotionInit (syncRequest 10 1)).shared.finalPosition
        - 2 * (SyncMotionInit (syncRequest 10 1)).shared.synRatioDen
          * (SyncMotionInit (syncRequest 10 1)).syncData.positionCurrent :=
  ⟨by decide, by decide, by decide, by decide,
   (sync_conserved_quantity (scalesAt 0 (-3)) (SyncMotionInit (syncRequest 10 1))
      (by decide) (by decide) (by decide) (by decide)).2.1⟩

/-- After `SyncMotionInit` with `0 < den ≤ num` and a run of drained ticks in
which the master never moves back: the window of `D`, strictness once the
master has advanced, and `D` in terms of the counts `n` and the steps `k`. -/
theorem syncTicks_forward_from_init (data : rampsHandler_t F) (ps : List Int)
    (hSR : data.synchroRefreshTimer.SR &&& 1 ≠ 0)
    (hden : 0 < data.shared.synRatioDen) (hle : data.shared.synRatioDen ≤ data.shared.synRatioNum)
    (hchain : List.Chain (fun a b => a ≤ b) data.syncData.positionCurrent ps) :
    2 * (data.shared.synRatioDen - data.shared.synRatioNum)
      ≤ (syncTicks ps (SyncMotionInit data)).syncData.D ∧
    (syncTicks ps (SyncMotionInit data)).syncData.D ≤ 2 * data.shared.synRatioDen ∧
    (data.syncData.positionCurrent < ps.getLastD data.syncData.positionCurrent →
      2 * (data.shared.synRatioDen - data.shared.synRatioNum)
        < (syncTicks ps (SyncMotionInit data)).syncData.D) ∧
    (syncTicks ps (SyncMotionInit data)).syncData.D
      = 2 * (data.shared.synRatioDen - data.shared.synRatioNum)
        + 2 * ((ps.getLastD data.syncData.positionCurrent - data.syncData.positionCurrent)
              * data.shared.synRatioDen
            - ((syncTicks ps (SyncMotionInit data)).shared.finalPosition
                - data.shared.finalPosition) * data.shared.synRatioNum) := by
  obtain ⟨j1, j2, j3, j4, j5, j6, j7, j8⟩ := SyncMotionInit_positive data hden hle
  have hc := syncTicks_conserved data.shared.synRatioNum data.shared.synRatioDen 1 (by norm_num)
    ps (SyncMotionInit data) (by rw [j8]; exact hSR) j3 j5 j6 j1
  obtain ⟨f1, f2, f3⟩ := syncTicks_forward_run data.shared.synRatioNum data.shared.synRatioDen
    hden hle ps (SyncMotionInit data) (by rw [j8]; exact hSR) j3 j5 j6
    (by rw [j7]; exact hchain) (by rw [j2]) (by rw [j2]; omega)
  rw [j7] at f3
  rw [j2, j4, j7] at hc
  refine ⟨f1, f2, fun hpos => f3 (Or.inl hpos), ?_⟩
  linarith

/-- C18: for every ratio with `0 < den ≤ num`, after `SyncMotionInit` and
`n ≥ 0` forward master counts processed by Phase B ticks (update flag raised,
drained between ticks, the master never moving back), the accumulator satisfies
`2 * (den - num) ≤ D ≤ 2 * den` and the number `k` of steps added to
`finalPosition` satisfies `0 ≤ n * den - k * num ≤ num`, that is
`k ≤ n * den / num ≤ k + 1`. -/
theorem sync_forward_bound (data : rampsHandler_t F) (ps : List Int)
    (hSR : data.synchroRefreshTimer.SR &&& 1 ≠ 0)
    (hden : 0 < data.shared.synRatioDen) (hle : data.shared.synRatioDen ≤ data.shared.synRatioNum)
    (hchain : List.Chain (fun a b => a ≤ b) data.syncData.positionCurrent ps) :
    2 * (data.shared.synRatioDen - data.shared.synRatioNum)
      ≤ (syncTicks ps (SyncMotionInit data)).syncData.D ∧
    (syncTicks ps (SyncMotionInit data)).syncData.D ≤ 2 * data.shared.synRatioDen ∧
    0 ≤ (ps.getLastD data.syncData.positionCurrent - data.syncData.positionCurrent)
          * data.shared.synRatioDen
        - ((syncTicks ps (SyncMotionInit data)).shared.finalPosition - data.shared.finalPosition)
          * data.shared.synRatioNum ∧
    (ps.getLastD data.syncData.positionCurrent - data.syncData.positionCurrent)
          * data.shared.synRatioDen
        - ((syncTicks ps (SyncMotionInit data)).shared.finalPosition - data.shared.finalPosition)
          * data.shared.synRatioNum
      ≤ data.shared.synRatioNum ∧
    (((syncTicks ps (SyncMotionInit data)).shared.finalPosition
          - data.shared.finalPosition : Int) : Rat)
      ≤ ((ps.getLastD data.syncData.positionCurrent - data.syncData.positionCurrent : Int) : Rat)
          * (data.shared.synRatioDen : Rat) / (data.shared.synRatioNum : Rat) ∧
    ((ps.getLastD data.syncData.positionCurrent - data.syncData.positionCurrent : Int) : Rat)
          * (data.shared.synRatioDen : Rat) / (data.shared.synRatioNum : Rat)
      ≤ (((syncTicks ps (SyncMotionInit data)).shared.finalPosition
          - data.shared.finalPosition : Int) : Rat) + 1 := by
  obtain ⟨w1, w2, _, w4⟩ := syncTicks_forward_from_init data ps hSR hden hle hchain
  have e1 : 0 ≤ (ps.getLastD data.syncData.positionCurrent - data.syncData.positionCurrent)
          * data.shared.synRatioDen
        - ((syncTicks ps (SyncMotionInit data)).shared.finalPosition - data.shared.finalPosition)
          * data.shared.synRatioNum := by linarith
  have e2 : (ps.getLastD data.syncData.positionCurrent - data.syncData.positionCurrent)
          * data.shared.synRatioDen
        - ((syncTicks ps (SyncMotionInit data)).shared.finalPosition - data.shared.finalPosition)
          * data.shared.synRatioNum
      ≤ data.shared.synRatioNum := by linarith
  have hnum : (0 : Rat) < (data.shared.synRatioNum : Rat) := by
    have : 0 < data.shared.synRatioNum := by omega
    exact_mod_cast this
  have q1 : (0 : Rat)
      ≤ ((ps.getLastD data.syncData.positionCurrent - data.syncData.positionCurrent : Int) : Rat)
          * (data.shared.synRatioDen : Rat)
        - (((syncTicks ps (SyncMotionInit data)).shared.finalPosition
            - data.shared.finalPosition : Int) : Rat) * (data.shared.synRatioNum : Rat) := by
    exact_mod_cast e1
  have q2 : ((ps.getLastD data.syncData.positionCurrent - data.syncData.positionCurrent : Int) : Rat)
          * (data.shared.synRatioDen : Rat)
        - (((syncTicks ps (SyncMotionInit data)).shared.finalPosition
            - data.shared.finalPosition : Int) : Rat) * (data.shared.synRatioNum : Rat)
      ≤ (data.shared.synRatioNum : Rat) := by
    exact_mod_cast e2
  refine ⟨w1, w2, e1, e2, ?_, ?_⟩
  · rw [le_div_iff₀ hnum]
    linarith
  · rw [div_le_iff₀ hnum]
    linarith

/-- Witness for C18: ratio 3:2 and the master found at 2, then 2 again, then
7. -/
theorem sync_forward_bound_witness :
    (syncRequest 3 2).synchroRefreshTimer.SR &&& 1 ≠ 0 ∧
    0 < (syncRequest 3 2).shared.synRatioDen ∧
    (syncRequest 3 2).shared.synRatioDen ≤ (syncRequest 3 2).shared.synRatioNum ∧
    List.Chain (fun a b => a ≤ b) (syncRequest 3 2).syncData.positionCurrent [2, 2, 7] ∧
    2 * ((syncRequest 3 2).shared.synRatioDen - (syncRequest 3 2).shared.synRatioNum)
      ≤ (syncTicks [2, 2, 7] (SyncMotionInit (syncRequest 3 2))).syncData.D ∧
    (syncTicks [2, 2, 7] (SyncMotionInit (syncRequest 3 2))).syncData.D
      ≤ 2 * (syncRequest 3 2).shared.synRatioDen :=
  ⟨by decide, by decide, by decide,
   List.Chain.cons (by decide)
     (List.Chain.cons (by decide) (List.Chain.cons (by decide) List.Chain.nil)),
   (sync_forward_bound (syncRequest 3 2) [2, 2, 7] (by decide) (by decide) (by decide)
     (List.Chain.cons (by decide)
       (List.Chain.cons (by decide) (List.Chain.cons (by decide) List.Chain.nil)))).1,
   (sync_forward_bound (syncRequest 3 2) [2, 2, 7] (by decide) (by decide) (by decide)
     (List.Chain.cons (by decide)
       (List.Chain.cons (by decide) (List.Chain.cons (by decide) List.Chain.nil)))).2.1⟩

/-- C17 as stated fails: with ratio 3:2, after `SyncMotionInit` (`D = -2`) and
a forward move of six master counts, two whole periods, `D` is 4, not its
initial value; after one period (three counts) it is 4 as well. -/
theorem sync_accumulator_counterexample :
    (SyncMotionInit (syncRequest 3 2)).syncData.D = -2 ∧
    2 * ((syncRequest 3 2).shared.synRatioDen - (syncRequest 3 2).shared.synRatioNum) = -2 ∧
    (syncTicks [6] (SyncMotionInit (syncRequest 3 2))).syncData.D = 4 ∧
    (syncTicks [3] (SyncMotionInit (syncRequest 3 2))).syncData.D = 4 ∧
    (syncTicks [6] (SyncMotionInit (syncRequest 3 2))).syncData.D
      ≠ (SyncMotionInit (syncRequest 3 2)).syncData.D := by
  decide

/-- C17, amended: for every ratio with `0 < den ≤ num`, after `SyncMotionInit`
and a forward master move of `m ≥ 1` whole periods (`m * num` counts, seen by
Phase B ticks with the update flag raised, drained between ticks, the master
never moving back), the accumulator `D` equals `2 * den`, the same after every
whole period, and differs from its initial value `2 * (den - num)`. -/
theorem sync_accumulator_after_periods (data : rampsHandler_t F) (ps : List Int) (m : Int)
    (hSR : data.synchroRefreshTimer.SR &&& 1 ≠ 0)
    (hden : 0 < data.shared.synRatioDen) (hle : data.shared.synRatioDen ≤ data.shared.synRatioNum)
    (hchain : List.Chain (fun a b => a ≤ b) data.syncData.positionCurrent ps)
    (hm : 1 ≤ m)
    (hperiods : ps.getLastD data.syncData.positionCurrent - data.syncData.positionCurrent
      = m * data.shared.synRatioNum) :
    (syncTicks ps (SyncMotionInit data)).syncData.D = 2 * data.shared.synRatioDen ∧
    (syncTicks ps (SyncMotionInit data)).syncData.D
      ≠ 2 * (data.shared.synRatioDen - data.shared.synRatioNum) ∧
    (SyncMotionInit data).syncData.D
      = 2 * (data.shared.synRatioDen - data.shared.synRatioNum) := by
  have hnum : 0 < data.shared.synRatioNum := by omega
  obtain ⟨w1, w2, w3, w4⟩ := syncTicks_forward_from_init data ps hSR hden hle hchain
  have hpos : data.syncData.positionCurrent < ps.getLastD data.syncData.positionCurrent := by
    have : 0 < m * data.shared.synRatioNum := mul_pos (by omega) hnum
    omega
  have w3' := w3 hpos
  rw [hperiods] at w4
  have hprod : 0 < data.shared.synRatioNum
        * (m * data.shared.synRatioDen
          - ((syncTicks ps (SyncMotionInit data)).shared.finalPosition
            - data.shared.finalPosition)) ∧
      data.shared.synRatioNum
        * (m * data.shared.synRatioDen
          - ((syncTicks ps (SyncMotionInit data)).shared.finalPosition
            - data.shared.finalPosition)) ≤ data.shared.synRatioNum * 1 := by
    constructor <;> nlinarith
  have hgt : 0 < m * data.shared.synRatioDen
      - ((syncTicks ps (SyncMotionInit data)).shared.finalPosition
        - data.shared.finalPosition) := pos_of_mul_pos_right hprod.1 (le_of_lt hnum)
  have hle1 : m * data.shared.synRatioDen
      - ((syncTicks ps (SyncMotionInit data)).shared.finalPosition
        - data.shared.finalPosition) ≤ 1 := le_of_mul_le_mul_left hprod.2 hnum
  have hone : m * data.shared.synRatioDen
      - ((syncTicks ps (SyncMotionInit data)).shared.finalPosition
        - data.shared.finalPosition) = 1 := by omega
  have hD : (syncTicks ps (SyncMotionInit data)).syncData.D = 2 * data.shared.synRatioDen := by
    have hk : (syncTicks ps (SyncMotionInit data)).shared.finalPosition
        - data.shared.finalPosition = m * data.shared.synRatioDen - 1 := by omega
    rw [w4, hk]
    ring
  refine ⟨hD, ?_, (SyncMotionInit_positive data hden hle).2.1⟩
  rw [hD]
  omega

/-- Witness for the amended C17: ratio 3:2, the master found at 4 and then at
6, two whole periods. -/
theorem sync_accumulator_after_periods_witness :
    (syncRequest 3 2).synchroRefreshTimer.SR &&& 1 ≠ 0 ∧
    0 < (syncRequest 3 2).shared.synRatioDen ∧
    (syncRequest 3 2).shared.synRatioDen ≤ (syncRequest 3 2).shared.synRatioNum ∧
    List.Chain (fun a b => a ≤ b) (syncRequest 3 2).syncData.positionCurrent [4, 6] ∧
    [4, 6].getLastD (syncRequest 3 2).syncData.positionCurrent
        - (syncRequest 3 2).syncData.positionCurrent
      = 2 * (syncRequest 3 2).shared.synRatioNum ∧
    (syncTicks [4, 6] (SyncMotionInit (syncRequest 3 2))).syncData.D
      = 2 * (syncRequest 3 2).shared.synRatioDen :=
  ⟨by decide, by decide, by decide,
   List.Chain.cons (by decide) (List.Chain.cons (by decide) List.Chain.nil),
   by decide,
   (sync_accumulator_after_periods (syncRequest 3 2) [4, 6] 2 (by decide) (by decide)
     (by decide) (List.Chain.cons (by decide) (List.Chain.cons (by decide) List.Chain.nil))
     (by decide) (by decide)).1⟩

/-! ## The master snapshot across initialisation -/

/-- `SyncMotionInit` never writes the master snapshot, the scales, the scale
index or the synchro timer. -/
theorem SyncMotionInit_frame (data : rampsHandler_t F) :
    (SyncMotionInit data).syncData.positionPrevious = data.syncData.positionPrevious ∧
    (SyncMotionInit data).syncData.positionCurrent = data.syncData.positionCurrent ∧
    (SyncMotionInit data).scales = data.scales ∧
    (SyncMotionInit data).shared.synScaleIndex = data.shared.synScaleIndex ∧
    (SyncMotionInit data).shared.synRatioNum = data.shared.synRatioNum ∧
    (SyncMotionInit data).shared.synRatioDen = data.shared.synRatioDen ∧
    (SyncMotionInit data).synchroRefreshTimer = data.synchroRefreshTimer := by
  unfold SyncMotionInit
  simp only
  split_ifs <;> exact ⟨rfl, rfl, rfl, rfl, rfl, rfl, rfl⟩

/-- The state left by `SyncMotionInit` on an accepted ratio. -/
theorem SyncMotionInit_of_accepted (data : rampsHandler_t F)
    (hacc : ¬ (data.shared.synRatioNum = 0 ∨ data.shared.synRatioDen = 0 ∨
        data.shared.synRatioDen > data.shared.synRatioNum)) :
    (SyncMotionInit data).syncData.yi = (if data.shared.synRatioDen < 0 then -1 else 1) ∧
    (SyncMotionInit data).syncData.D = 2 * (data.shared.synRatioDen - data.shared.synRatioNum) ∧
    (SyncMotionInit data).shared.mode = MODE_SYNCHRO ∧
    (SyncMotionInit data).shared.finalPosition = data.shared.finalPosition ∧
    (SyncMotionInit data).shared.currentPosition = data.shared.finalPosition := by
  unfold SyncMotionInit
  simp only
  rw [if_neg hacc]
  exact ⟨rfl, rfl, rfl, rfl, rfl⟩

/-- In `MODE_SET_ENCODER` with a scale index inside the arrays, the task
iteration presets the scale and leaves the synchronizer state alone. -/
theorem RampsTask_preset_syncData (SCALES_COUNT : Nat) (data : rampsHandler_t F)
    (hmode : data.shared.mode = MODE_SET_ENCODER)
    (hidx : data.shared.encoderPresetIndex < SCALES_COUNT) :
    ∃ data', RampsTask SCALES_COUNT data = some data' ∧
      data'.syncData = data.syncData ∧
      (data'.scales.scalePosition data.shared.encoderPresetIndex).positionCurrent
        = data.shared.encoderPresetValue := by
  have hm1 : (taskRefreshScales SCALES_COUNT data).shared.mode = MODE_SET_ENCODER := hmode
  have hni : (taskRefreshScales SCALES_COUNT data).shared.mode ≠ MODE_SYNCHRO_INIT := by
    rw [hm1]; decide
  have hi1 : (taskRefreshScales SCALES_COUNT data).shared.encoderPresetIndex < SCALES_COUNT :=
    hidx
  refine ⟨taskSetEncoder (taskRefreshScales SCALES_COUNT data), ?_, rfl, ?_⟩
  · unfold RampsTask
    simp only
    rw [if_neg hni, if_pos hm1, if_pos hi1]
  · simp [taskSetEncoder, taskRefreshScales]

/-- C20: `SyncMotionInit` leaves `syncData.positionPrevious` and
`syncData.positionCurrent` unchanged, whether it accepts or rejects; outside
`MODE_SYNCHRO` neither a synchro call (whatever the sampler reads) nor a
set-encoder preset touches the snapshot either, so it goes stale while the
master moves or is preset.  On an accepted ratio, the first Phase B tick after
the initialisation (update flag raised) runs the Bresenham loop over
`master - snapshot` counts, where `master` is the scale position sampled at
that tick and `snapshot` the value stored before the initialisation, and
stores `master` as the new snapshot.  In particular `finalPosition` can change
on that tick although the master has not moved since the initialisation: with
ratio 1:1, the snapshot at 0 and the master resting at 5, the first tick adds
4 steps. -/
theorem SyncMotionInit_keeps_snapshot (SCALES_COUNT : Nat) (updateScales : scales_t → scales_t)
    (data : rampsHandler_t F) :
    (SyncMotionInit data).syncData.positionPrevious = data.syncData.positionPrevious ∧
    (SyncMotionInit data).syncData.positionCurrent = data.syncData.positionCurrent ∧
    (data.shared.mode ≠ MODE_SYNCHRO →
      (SyncMotionIsr updateScales data).syncData = data.syncData) ∧
    (data.shared.mode = MODE_SET_ENCODER → data.shared.encoderPresetIndex < SCALES_COUNT →
      ∃ data', RampsTask SCALES_COUNT data = some data' ∧
        data'.syncData = data.syncData ∧
        (data'.scales.scalePosition data.shared.encoderPresetIndex).positionCurrent
          = data.shared.encoderPresetValue) ∧
    (¬ (data.shared.synRatioNum = 0 ∨ data.shared.synRatioDen = 0 ∨
          data.shared.synRatioDen > data.shared.synRatioNum) →
      data.synchroRefreshTimer.SR &&& 1 ≠ 0 →
      ((SyncMotionIsr updateScales (SyncMotionInit data)).syncData.D,
          (SyncMotionIsr updateScales (SyncMotionInit data)).shared.finalPosition)
        = (if data.syncData.positionCurrent
              < ((updateScales data.scales).scalePosition data.shared.synScaleIndex).positionCurrent
            then
              syncForwardLoop data.shared.synRatioNum data.shared.synRatioDen
                (if data.shared.synRatioDen < 0 then -1 else 1)
                (((updateScales data.scales).scalePosition
                    data.shared.synScaleIndex).positionCurrent
                  - data.syncData.positionCurrent).toNat
                (2 * (data.shared.synRatioDen - data.shared.synRatioNum),
                  data.shared.finalPosition)
            else if data.syncData.positionCurrent
              > ((updateScales data.scales).scalePosition data.shared.synScaleIndex).positionCurrent
            then
              syncBackwardLoop data.shared.synRatioNum data.shared.synRatioDen
                (if data.shared.synRatioDen < 0 then -1 else 1)
                (data.syncData.positionCurrent
                  - ((updateScales data.scales).scalePosition
                      data.shared.synScaleIndex).positionCurrent).toNat
                (2 * (data.shared.synRatioDen - data.shared.synRatioNum),
                  data.shared.finalPosition)
            else (2 * (data.shared.synRatioDen - data.shared.synRatioNum),
              data.shared.finalPosition)) ∧
      (SyncMotionIsr updateScales (SyncMotionInit data)).syncData.positionPrevious
        = data.syncData.positionCurrent ∧
      (SyncMotionIsr updateScales (SyncMotionInit data)).syncData.positionCurrent
        = ((updateScales data.scales).scalePosition data.shared.synScaleIndex).positionCurrent) ∧
    ((SyncMotionInit staleSync).shared.mode = MODE_SYNCHRO ∧
      ((SyncMotionInit staleSync).scales.scalePosition
          (SyncMotionInit staleSync).shared.synScaleIndex).positionCurrent = 5 ∧
      ((SyncMotionIsr id (SyncMotionInit staleSync)).scales.scalePosition
          (SyncMotionInit staleSync).shared.synScaleIndex).positionCurrent = 5 ∧
      (SyncMotionInit staleSync).shared.finalPosition = 0 ∧
      (SyncMotionIsr id (SyncMotionInit staleSync)).shared.finalPosition = 4) := by
  obtain ⟨g1, g2, g3, g4, g5, g6, g7⟩ := SyncMotionInit_frame data
  refine ⟨g1, g2, fun hns => (SyncMotionIsr_of_not_synchro updateScales data hns).2.1,
    fun hset hidx => RampsTask_preset_syncData SCALES_COUNT data hset hidx,
    fun hacc hSR => ?_, by decide⟩
  obtain ⟨a1, a2, a3, a4, a5⟩ := SyncMotionInit_of_accepted data hacc
  obtain ⟨b1, b2, b3, _⟩ := SyncMotionIsr_phaseB updateScales (SyncMotionInit data)
    (by rw [g7]; exact hSR) a3 (by rw [a4, a5])
  rw [g2, g3, g4, g5, g6, a1, a2, a4] at b1
  rw [g3, g4] at b2
  rw [g2] at b3
  exact ⟨b1, b3, b2⟩

/-- Witness for C20: the 1:1 request whose master scale reads 5 while the
snapshot is 0; the sampler of the first tick leaves the scales as they are. -/
theorem SyncMotionInit_keeps_snapshot_witness :
    ¬ (staleSync.shared.synRatioNum = 0 ∨ staleSync.shared.synRatioDen = 0 ∨
        staleSync.shared.synRatioDen > staleSync.shared.synRatioNum) ∧
    staleSync.synchroRefreshTimer.SR &&& 1 ≠ 0 ∧
    (SyncMotionIsr id (SyncMotionInit staleSync)).syncData.positionPrevious
      = staleSync.syncData.positionCurrent ∧
    (SyncMotionIsr id (SyncMotionInit staleSync)).syncData.positionCurrent
      = ((id staleSync.scales).scalePosition staleSync.shared.synScaleIndex).positionCurrent ∧
    (SyncMotionIsr id (SyncMotionInit staleSync)).syncData.positionCurrent = 5 ∧
    staleSync.syncData.positionCurrent = 0 ∧
    staleSync.shared.mode ≠ MODE_SYNCHRO ∧
    (SyncMotionIsr (scalesAt 0 9) staleSync).syncData = staleSync.syncData :=
  ⟨by decide, by decide,
   ((SyncMotionInit_keeps_snapshot 4 id staleSync).2.2.2.2.1 (by decide) (by decide)).2.1,
   ((SyncMotionInit_keeps_snapshot 4 id staleSync).2.2.2.2.1 (by decide) (by decide)).2.2,
   by decide, by decide, by decide,
   (SyncMotionInit_keeps_snapshot 4 (scalesAt 0 9) staleSync).2.2.1 (by decide)⟩

/-! ## Indexer: the speed profile of scenario S4 -/

set_option maxRecDepth 1000000 in
set_option maxHeartbeats 4000000 in
/-- C11 as stated fails on the move of scenario S4 (`T = 200` steps, maxSpeed
1000, minSpeed 100, acceleration 10, step ratio 1:1, exact arithmetic, from the
zero handler): the 200 ticks of the move raise `currentSpeed` 90 times and
lower it 89 times, so the two counts differ; `decelSteps` is latched at 90, the
speed ends at 110 instead of 100, and the ticks that neither raise nor lower
the speed number `200 - 90 - 89 = 21`, while `T - 2 * decelSteps = 20`. -/
theorem index_profile_S4 :
    countRaising ratOps 200 (indexRequest 200) = 90 ∧
    countLowering ratOps 200 (indexRequest 200) = 89 ∧
    ((IndexMotionIsr ratOps)^[200] (indexRequest 200)).indexData.decelSteps = 90 ∧
    ((IndexMotionIsr ratOps)^[200] (indexRequest 200)).indexData.currentStep = 200 ∧
    ((IndexMotionIsr ratOps)^[200] (indexRequest 200)).shared.currentSpeed = 110 ∧
    ((IndexMotionIsr ratOps)^[90] (indexRequest 200)).shared.currentSpeed = 1000 ∧
    countRaising ratOps 200 (indexRequest 200) ≠ countLowering ratOps 200 (indexRequest 200) ∧
    200 - countRaising ratOps 200 (indexRequest 200) - countLowering ratOps 200 (indexRequest 200)
      = 21 ∧
    (200 : Int) - (countRaising ratOps 200 (indexRequest 200) : Int)
        - (countLowering ratOps 200 (indexRequest 200) : Int)
      ≠ 200 - 2 * ((IndexMotionIsr ratOps)^[200] (indexRequest 200)).indexData.decelSteps := by
  with_unfolding_all decide


/-! ## Indexer: the speed profile of a move in exact arithmetic -/

@[simp] theorem indexStart_maxSpeed (ops : FloatOps F) (data : rampsHandler_t F) :
    (indexStart ops data).shared.maxSpeed = data.shared.maxSpeed := by
  unfold indexStart
  split_ifs <;> rfl

@[simp] theorem indexStart_minSpeed (ops : FloatOps F) (data : rampsHandler_t F) :
    (indexStart ops data).shared.minSpeed = data.shared.minSpeed := by
  unfold indexStart
  split_ifs <;> rfl

@[simp] theorem indexStart_acceleration (ops : FloatOps F) (data : rampsHandler_t F) :
    (indexStart ops data).shared.acceleration = data.shared.acceleration := by
  unfold indexStart
  split_ifs <;> rfl

@[simp] theorem indexAccelerate_maxSpeed (ops : FloatOps F) (data : rampsHandler_t F) :
    (indexAccelerate ops data).shared.maxSpeed = data.shared.maxSpeed := by
  unfold indexAccelerate
  split_ifs <;> rfl

@[simp] theorem indexAccelerate_minSpeed (ops : FloatOps F) (data : rampsHandler_t F) :
    (indexAccelerate ops data).shared.minSpeed = data.shared.minSpeed := by
  unfold indexAccelerate
  split_ifs <;> rfl

@[simp] theorem indexAccelerate_acceleration (ops : FloatOps F) (data : rampsHandler_t F) :
    (indexAccelerate ops data).shared.acceleration = data.shared.acceleration := by
  unfold indexAccelerate
  split_ifs <;> rfl

@[simp] theorem indexDecelerate_maxSpeed (ops : FloatOps F) (data : rampsHandler_t F) :
    (indexDecelerate ops data).shared.maxSpeed = data.shared.maxSpeed := by
  unfold indexDecelerate
  split_ifs <;> rfl

@[simp] theorem indexDecelerate_minSpeed (ops : FloatOps F) (data : rampsHandler_t F) :
    (indexDecelerate ops data).shared.minSpeed = data.shared.minSpeed := by
  unfold indexDecelerate
  split_ifs <;> rfl

@[simp] theorem indexDecelerate_acceleration (ops : FloatOps F) (data : rampsHandler_t F) :
    (indexDecelerate ops data).shared.acceleration = data.shared.acceleration := by
  unfold indexDecelerate
  split_ifs <;> rfl

/-- The index tick never writes the profile registers `maxSpeed`, `minSpeed`
and `acceleration`. -/
theorem IndexMotionIsr_profile (ops : FloatOps F) (data : rampsHandler_t F) :
    (IndexMotionIsr ops data).shared.maxSpeed = data.shared.maxSpeed ∧
    (IndexMotionIsr ops data).shared.minSpeed = data.shared.minSpeed ∧
    (IndexMotionIsr ops data).shared.acceleration = data.shared.acceleration := by
  unfold IndexMotionIsr
  simp only
  split_ifs <;> simp [indexEmit]

/-- Speed left by the acceleration block. -/
theorem indexAccelerate_speed (ops : FloatOps F) (data : rampsHandler_t F) :
    (indexAccelerate ops data).shared.currentSpeed =
      if ops.lt data.shared.currentSpeed data.shared.maxSpeed = true ∧
          data.indexData.currentStep < Int.tdiv data.indexData.totalSteps 2 then
        (if ops.lt data.shared.maxSpeed
              (ops.add data.shared.currentSpeed data.shared.acceleration) = true
          then data.shared.maxSpeed
          else ops.add data.shared.currentSpeed data.shared.acceleration)
      else data.shared.currentSpeed := by
  unfold indexAccelerate
  by_cases h : ops.lt data.shared.currentSpeed data.shared.maxSpeed = true ∧
      data.indexData.currentStep < Int.tdiv data.indexData.totalSteps 2
  · rw [if_pos h, if_pos h]
  · rw [if_neg h, if_neg h]
    split_ifs <;> rfl

/-- The value of `decelSteps` left by the acceleration block. -/
theorem indexAccelerate_decelSteps (ops : FloatOps F) (data : rampsHandler_t F) :
    (indexAccelerate ops data).indexData.decelSteps =
      if ops.lt data.shared.currentSpeed data.shared.maxSpeed = true ∧
          data.indexData.currentStep < Int.tdiv data.indexData.totalSteps 2 then
        data.indexData.decelSteps
      else if data.indexData.decelSteps = 0 then data.indexData.currentStep
      else data.indexData.decelSteps := by
  unfold indexAccelerate
  split_ifs <;> rfl

/-- Speed left by the deceleration block. -/
theorem indexDecelerate_speed (ops : FloatOps F) (data : rampsHandler_t F) :
    (indexDecelerate ops data).shared.currentSpeed =
      if ops.lt data.shared.minSpeed data.shared.currentSpeed = true ∧
          data.indexData.currentStep > Int.tdiv data.indexData.totalSteps 2 ∧
          data.indexData.currentStep > data.indexData.totalSteps - data.indexData.decelSteps then
        ops.sub data.shared.currentSpeed data.shared.acceleration
      else data.shared.currentSpeed := by
  unfold indexDecelerate
  split_ifs <;> rfl

/-- On a tick that passes the idle test, the speed and `decelSteps` are those
left by the acceleration and deceleration blocks run on the state of the
start block. -/
theorem IndexMotionIsr_speed_of_busy (ops : FloatOps F) (data : rampsHandler_t F)
    (h : ¬ ((indexStart ops data).shared.indexDeltaSteps = 0 ∧
      (indexStart ops data).indexData.currentStep = (indexStart ops data).indexData.totalSteps)) :
    (IndexMotionIsr ops data).shared.currentSpeed
      = (indexDecelerate ops (indexAccelerate ops (indexStart ops data))).shared.currentSpeed ∧
    (IndexMotionIsr ops data).indexData.decelSteps
      = (indexAccelerate ops (indexStart ops data)).indexData.decelSteps := by
  unfold IndexMotionIsr
  simp only
  rw [if_neg h]
  simp [indexEmit]


/-- In exact arithmetic the comparison of the float operations is `<`. -/
theorem ratOps_lt (a b : Rat) : (ratOps.lt a b = true) ↔ a < b := by
  simp [ratOps]

/-- A tick of the acceleration ramp in exact arithmetic: below `maxSpeed` and
before the half-way step, the speed grows by `acceleration`, clamped to
`maxSpeed`, and `decelSteps` is kept. -/
theorem profile_accel (s : rampsHandler_t Rat)
    (hv : s.shared.currentSpeed < s.shared.maxSpeed)
    (hc : s.indexData.currentStep < Int.tdiv s.indexData.totalSteps 2) :
    (indexDecelerate ratOps (indexAccelerate ratOps s)).shared.currentSpeed
      = (if s.shared.maxSpeed < s.shared.currentSpeed + s.shared.acceleration
          then s.shared.maxSpeed else s.shared.currentSpeed + s.shared.acceleration) ∧
    (indexAccelerate ratOps s).indexData.decelSteps = s.indexData.decelSteps := by
  have hcond : ratOps.lt s.shared.currentSpeed s.shared.maxSpeed = true ∧
      s.indexData.currentStep < Int.tdiv s.indexData.totalSteps 2 :=
    ⟨(ratOps_lt _ _).mpr hv, hc⟩
  have hnd : ¬ (ratOps.lt (indexAccelerate ratOps s).shared.minSpeed
        (indexAccelerate ratOps s).shared.currentSpeed = true ∧
      (indexAccelerate ratOps s).indexData.currentStep
        > Int.tdiv (indexAccelerate ratOps s).indexData.totalSteps 2 ∧
      (indexAccelerate ratOps s).indexData.currentStep
        > (indexAccelerate ratOps s).indexData.totalSteps
          - (indexAccelerate ratOps s).indexData.decelSteps) := by
    rw [indexAccelerate_currentStep, indexAccelerate_totalSteps]
    intro h
    exact absurd h.2.1 (by omega)
  refine ⟨?_, ?_⟩
  · rw [indexDecelerate_speed, if_neg hnd, indexAccelerate_speed, if_pos hcond,
      show ratOps.add s.shared.currentSpeed s.shared.acceleration
        = s.shared.currentSpeed + s.shared.acceleration from rfl]
    by_cases hm : s.shared.maxSpeed < s.shared.currentSpeed + s.shared.acceleration
    · rw [if_pos hm, if_pos ((ratOps_lt _ _).mpr hm)]
    · rw [if_neg hm, if_neg (fun h => hm ((ratOps_lt _ _).mp h))]
  · rw [indexAccelerate_decelSteps, if_pos hcond]

/-- A tick outside the acceleration ramp in exact arithmetic: `decelSteps` is
latched if it is still zero, and the speed drops by `acceleration` exactly
when the three deceleration tests pass. -/
theorem profile_noaccel (s : rampsHandler_t Rat)
    (h : ¬ (s.shared.currentSpeed < s.shared.maxSpeed ∧
      s.indexData.currentStep < Int.tdiv s.indexData.totalSteps 2)) :
    (indexDecelerate ratOps (indexAccelerate ratOps s)).shared.currentSpeed
      = (if s.shared.minSpeed < s.shared.currentSpeed ∧
            s.indexData.currentStep > Int.tdiv s.indexData.totalSteps 2 ∧
            s.indexData.currentStep > s.indexData.totalSteps
              - (if s.indexData.decelSteps = 0 then s.indexData.currentStep
                  else s.indexData.decelSteps)
          then s.shared.currentSpeed - s.shared.acceleration else s.shared.currentSpeed) ∧
    (indexAccelerate ratOps s).indexData.decelSteps
      = (if s.indexData.decelSteps = 0 then s.indexData.currentStep
          else s.indexData.decelSteps) := by
  have hcond : ¬ (ratOps.lt s.shared.currentSpeed s.shared.maxSpeed = true ∧
      s.indexData.currentStep < Int.tdiv s.indexData.totalSteps 2) :=
    fun hh => h ⟨(ratOps_lt _ _).mp hh.1, hh.2⟩
  have hds : (indexAccelerate ratOps s).indexData.decelSteps
      = (if s.indexData.decelSteps = 0 then s.indexData.currentStep
          else s.indexData.decelSteps) := by
    rw [indexAccelerate_decelSteps, if_neg hcond]
  have hsp : (indexAccelerate ratOps s).shared.currentSpeed = s.shared.currentSpeed := by
    rw [indexAccelerate_speed, if_neg hcond]
  refine ⟨?_, hds⟩
  rw [indexDecelerate_speed, hds, hsp, indexAccelerate_currentStep, indexAccelerate_totalSteps,
    indexAccelerate_minSpeed, indexAccelerate_acceleration]
  by_cases hd : s.shared.minSpeed < s.shared.currentSpeed ∧
      s.indexData.currentStep > Int.tdiv s.indexData.totalSteps 2 ∧
      s.indexData.currentStep > s.indexData.totalSteps
        - (if s.indexData.decelSteps = 0 then s.indexData.currentStep
            else s.indexData.decelSteps)
  · rw [if_pos hd, if_pos ⟨(ratOps_lt _ _).mpr hd.1, hd.2⟩]
    rfl
  · rw [if_neg hd, if_neg (fun hh => hd ⟨(ratOps_lt _ _).mp hh.1, hh.2⟩)]

/-- A tick of the acceleration ramp in the middle of a move. -/
theorem IndexMotionIsr_moving_accel (d : rampsHandler_t Rat)
    (hbusy : d.indexData.currentStep ≠ d.indexData.totalSteps)
    (hv : d.shared.currentSpeed < d.shared.maxSpeed)
    (hc : d.indexData.currentStep < Int.tdiv d.indexData.totalSteps 2) :
    (IndexMotionIsr ratOps d).shared.currentSpeed
      = (if d.shared.maxSpeed < d.shared.currentSpeed + d.shared.acceleration
          then d.shared.maxSpeed else d.shared.currentSpeed + d.shared.acceleration) ∧
    (IndexMotionIsr ratOps d).indexData.decelSteps = d.indexData.decelSteps := by
  have hs : indexStart ratOps d = d := indexStart_of_not ratOps d (fun h => hbusy h.2)
  have hb : ¬ ((indexStart ratOps d).shared.indexDeltaSteps = 0 ∧
      (indexStart ratOps d).indexData.currentStep
        = (indexStart ratOps d).indexData.totalSteps) := by
    rw [hs]
    exact fun h => hbusy h.2
  obtain ⟨h1, h2⟩ := IndexMotionIsr_speed_of_busy ratOps d hb
  rw [hs] at h1 h2
  obtain ⟨p1, p2⟩ := profile_accel d hv hc
  exact ⟨h1.trans p1, h2.trans p2⟩

/-- A tick outside the acceleration ramp in the middle of a move. -/
theorem IndexMotionIsr_moving_noaccel (d : rampsHandler_t Rat)
    (hbusy : d.indexData.currentStep ≠ d.indexData.totalSteps)
    (h : ¬ (d.shared.currentSpeed < d.shared.maxSpeed ∧
      d.indexData.currentStep < Int.tdiv d.indexData.totalSteps 2)) :
    (IndexMotionIsr ratOps d).shared.currentSpeed
      = (if d.shared.minSpeed < d.shared.currentSpeed ∧
            d.indexData.currentStep > Int.tdiv d.indexData.totalSteps 2 ∧
            d.indexData.currentStep > d.indexData.totalSteps
              - (if d.indexData.decelSteps = 0 then d.indexData.currentStep
                  else d.indexData.decelSteps)
          then d.shared.currentSpeed - d.shared.acceleration else d.shared.currentSpeed) ∧
    (IndexMotionIsr ratOps d).indexData.decelSteps
      = (if d.indexData.decelSteps = 0 then d.indexData.currentStep
          else d.indexData.decelSteps) := by
  have hs : indexStart ratOps d = d := indexStart_of_not ratOps d (fun h => hbusy h.2)
  have hb : ¬ ((indexStart ratOps d).shared.indexDeltaSteps = 0 ∧
      (indexStart ratOps d).indexData.currentStep
        = (indexStart ratOps d).indexData.totalSteps) := by
    rw [hs]
    exact fun h => hbusy h.2
  obtain ⟨h1, h2⟩ := IndexMotionIsr_speed_of_busy ratOps d hb
  rw [hs] at h1 h2
  obtain ⟨p1, p2⟩ := profile_noaccel d h
  exact ⟨h1.trans p1, h2.trans p2⟩

/-- The accepting tick of a move of at least two steps in exact arithmetic,
with `minSpeed < maxSpeed`: the start block resets the speed to `minSpeed` and
the acceleration block raises it once, so the tick leaves
`min maxSpeed (minSpeed + acceleration)` whatever the register held. -/
theorem IndexMotionIsr_first_speed (d : rampsHandler_t Rat)
    (hidle : d.indexData.currentStep = d.indexData.totalSteps)
    (hT : 2 ≤ |d.shared.indexDeltaSteps|)
    (hsp : d.shared.minSpeed < d.shared.maxSpeed) :
    (IndexMotionIsr ratOps d).shared.currentSpeed
      = (if d.shared.maxSpeed < d.shared.minSpeed + d.shared.acceleration
          then d.shared.maxSpeed else d.shared.minSpeed + d.shared.acceleration) := by
  have hk : d.shared.indexDeltaSteps ≠ 0 := by
    intro h
    rw [h] at hT
    simp at hT
  obtain ⟨h1, h2, h3, _, h5⟩ := indexStart_of_request ratOps d hidle hk
  have hv : (indexStart ratOps d).shared.currentSpeed = d.shared.minSpeed := by
    unfold indexStart
    rw [if_pos ⟨hk, hidle⟩]
  have hb : ¬ ((indexStart ratOps d).shared.indexDeltaSteps = 0 ∧
      (indexStart ratOps d).indexData.currentStep
        = (indexStart ratOps d).indexData.totalSteps) := by
    rw [h2, h3]
    intro h
    have := h.2
    omega
  have htd : Int.tdiv |d.shared.indexDeltaSteps| 2 = |d.shared.indexDeltaSteps| / 2 :=
    Int.tdiv_eq_ediv (by omega) (by decide)
  obtain ⟨p1, _⟩ := profile_accel (indexStart ratOps d)
    (by rw [hv, indexStart_maxSpeed]; exact hsp)
    (by rw [h2, h3, htd]; omega)
  rw [(IndexMotionIsr_speed_of_busy ratOps d hb).1, p1, hv, indexStart_maxSpeed,
    indexStart_acceleration]

/-- The profile registers are constant along any run of index ticks. -/
theorem IndexMotionIsr_profile_iterate (ops : FloatOps F) (data : rampsHandler_t F) (n : Nat) :
    ((IndexMotionIsr ops)^[n] data).shared.maxSpeed = data.shared.maxSpeed ∧
    ((IndexMotionIsr ops)^[n] data).shared.minSpeed = data.shared.minSpeed ∧
    ((IndexMotionIsr ops)^[n] data).shared.acceleration = data.shared.acceleration := by
  induction n with
  | zero => exact ⟨rfl, rfl, rfl⟩
  | succ i ih =>
    rw [Function.iterate_succ_apply']
    obtain ⟨a, b, c⟩ := IndexMotionIsr_profile ops ((IndexMotionIsr ops)^[i] data)
    exact ⟨a.trans ih.1, b.trans ih.2.1, c.trans ih.2.2⟩

/-- Counting the raising ticks of one more tick at the end of the run. -/
theorem countRaising_succ (ops : FloatOps F) (n : Nat) (data : rampsHandler_t F) :
    countRaising ops (n + 1) data
      = countRaising ops n data
        + (if tickRaisesSpeed ops ((IndexMotionIsr ops)^[n] data) = true then 1 else 0) := by
  induction n generalizing data with
  | zero => simp [countRaising]
  | succ i ih =>
    rw [countRaising, ih (IndexMotionIsr ops data), countRaising, Function.iterate_succ_apply]
    omega

/-- Counting the lowering ticks of one more tick at the end of the run. -/
theorem countLowering_succ (ops : FloatOps F) (n : Nat) (data : rampsHandler_t F) :
    countLowering ops (n + 1) data
      = countLowering ops n data
        + (if tickLowersSpeed ops ((IndexMotionIsr ops)^[n] data) = true then 1 else 0) := by
  induction n generalizing data with
  | zero => simp [countLowering]
  | succ i ih =>
    rw [countLowering, ih (IndexMotionIsr ops data), countLowering, Function.iterate_succ_apply]
    omega

/-- In exact arithmetic a tick raises the speed exactly when the speed after
it is above the speed before it. -/
theorem tickRaisesSpeed_rat (d : rampsHandler_t Rat) :
    tickRaisesSpeed ratOps d = true
      ↔ d.shared.currentSpeed < (IndexMotionIsr ratOps d).shared.currentSpeed := by
  unfold tickRaisesSpeed
  exact ratOps_lt _ _

/-- In exact arithmetic a tick lowers the speed exactly when the speed after
it is below the speed before it. -/
theorem tickLowersSpeed_rat (d : rampsHandler_t Rat) :
    tickLowersSpeed ratOps d = true
      ↔ (IndexMotionIsr ratOps d).shared.currentSpeed < d.shared.currentSpeed := by
  unfold tickLowersSpeed
  exact ratOps_lt _ _

/-- The speed profile of a move after its accepting tick, in exact arithmetic.
The state `d` is the one left by the accepting tick (`currentStep = 1`,
`decelSteps = 0`, speed above `minSpeed` and either at `maxSpeed` or at
`minSpeed + acceleration`).  After `j` further ticks, `j + 1 ≤ T`, the move is
in one of two phases.  In the ramp, every tick so far has raised the speed.  In
the rest of the move `decelSteps` holds the number `A` of ramp ticks including
the accepting one, `A - 1` of the `j` ticks have raised the speed, and the
ticks that lowered it are those taken at `currentStep > T - A`. -/
theorem index_profile_run (d : rampsHandler_t Rat) (T : Int)
    (hts : d.indexData.totalSteps = T) (hcs : d.indexData.currentStep = 1)
    (hds : d.indexData.decelSteps = 0) (hT : 2 ≤ T)
    (hac : 0 < d.shared.acceleration)
    (hv1 : d.shared.minSpeed < d.shared.currentSpeed)
    (hv2 : d.shared.currentSpeed < d.shared.maxSpeed →
      d.shared.currentSpeed = d.shared.minSpeed + d.shared.acceleration)
    (j : Nat) :
    (j : Int) + 1 ≤ T →
    ((IndexMotionIsr ratOps)^[j] d).indexData.currentStep = (j : Int) + 1 ∧
    ((IndexMotionIsr ratOps)^[j] d).indexData.totalSteps = T ∧
    ((((IndexMotionIsr ratOps)^[j] d).indexData.decelSteps = 0 ∧
        2 * ((j : Int) + 1) ≤ T ∧
        countRaising ratOps j d = j ∧ countLowering ratOps j d = 0 ∧
        d.shared.minSpeed + (j : Rat) * d.shared.acceleration
          < ((IndexMotionIsr ratOps)^[j] d).shared.currentSpeed ∧
        (((IndexMotionIsr ratOps)^[j] d).shared.currentSpeed < d.shared.maxSpeed →
          ((IndexMotionIsr ratOps)^[j] d).shared.currentSpeed
            = d.shared.minSpeed + ((j : Rat) + 1) * d.shared.acceleration)) ∨
      (∃ A m : Nat, 1 ≤ A ∧ 2 * (A : Int) ≤ T ∧ A ≤ j ∧
        ((IndexMotionIsr ratOps)^[j] d).indexData.decelSteps = (A : Int) ∧
        countRaising ratOps j d + 1 = A ∧
        (((j : Int) + 1 ≤ T - A + 1 ∧ countLowering ratOps j d = 0) ∨
          (T - A + 1 < (j : Int) + 1 ∧
            (countLowering ratOps j d : Int) = (j : Int) + 1 - (T - A + 1))) ∧
        (m : Int) = (A : Int) - 1 - (countLowering ratOps j d : Int) ∧
        d.shared.minSpeed + (m : Rat) * d.shared.acceleration
          < ((IndexMotionIsr ratOps)^[j] d).shared.currentSpeed ∧
        (¬ ((j : Int) + 1 < T / 2) ∨
          d.shared.maxSpeed ≤ ((IndexMotionIsr ratOps)^[j] d).shared.currentSpeed))) := by
  induction j with
  | zero =>
    intro _
    simp only [Function.iterate_zero, id_eq]
    refine ⟨by rw [hcs]; simp, hts, Or.inl ⟨hds, by simpa using hT, rfl, rfl, ?_, ?_⟩⟩
    · simpa using hv1
    · intro h
      rw [hv2 h]
      simp
  | succ i ih =>
    intro hle
    have hle1 : (i : Int) + 2 ≤ T := by push_cast at hle; omega
    obtain ⟨ecs, ets, hphase⟩ := ih (by omega)
    obtain ⟨pmx, pmn, pac⟩ := IndexMotionIsr_profile_iterate ratOps d i
    rw [Function.iterate_succ_apply', countRaising_succ, countLowering_succ]
    generalize (IndexMotionIsr ratOps)^[i] d = e at ecs ets hphase pmx pmn pac ⊢
    have hbusy : e.indexData.currentStep ≠ e.indexData.totalSteps := by
      rw [ecs, ets]
      omega
    obtain ⟨_, m2, m3, _, _⟩ := IndexMotionIsr_moving ratOps e hbusy
    have htd : Int.tdiv e.indexData.totalSteps 2 = T / 2 := by
      rw [ets]
      exact Int.tdiv_eq_ediv (by omega) (by decide)
    refine ⟨by rw [m2, ecs]; push_cast; ring, by rw [m3, ets], ?_⟩
    rcases hphase with ⟨eds, h2, hR, hL, hlo, hup⟩ |
      ⟨A, m, hA1, hA2, hAj, eds, hR, hL, hm, hlo, hstop⟩
    · by_cases hacc : e.shared.currentSpeed < e.shared.maxSpeed ∧
          e.indexData.currentStep < Int.tdiv e.indexData.totalSteps 2
      · obtain ⟨s1, s2⟩ := IndexMotionIsr_moving_accel e hbusy hacc.1 hacc.2
        have hveq : e.shared.currentSpeed
            = d.shared.minSpeed + ((i : Rat) + 1) * d.shared.acceleration :=
          hup (by rw [← pmx]; exact hacc.1)
        have hgt : e.shared.currentSpeed < (IndexMotionIsr ratOps e).shared.currentSpeed := by
          rw [s1]
          split_ifs
          · exact hacc.1
          · rw [pac]
            linarith
        have hR1 : tickRaisesSpeed ratOps e = true := (tickRaisesSpeed_rat e).mpr hgt
        have hL1 : ¬ tickLowersSpeed ratOps e = true :=
          fun h => absurd ((tickLowersSpeed_rat e).mp h) (not_lt.mpr hgt.le)
        have hc2 := hacc.2
        rw [ecs, htd] at hc2
        left
        rw [if_pos hR1, if_neg hL1]
        refine ⟨by rw [s2, eds], by push_cast; omega, by omega, by omega, ?_, ?_⟩
        · push_cast
          linarith
        · intro hlt
          rw [s1] at hlt ⊢
          rw [pmx, pac] at hlt ⊢
          by_cases hm : d.shared.maxSpeed < e.shared.currentSpeed + d.shared.acceleration
          · rw [if_pos hm] at hlt
            exact absurd hlt (lt_irrefl _)
          · rw [if_neg hm, hveq]
            push_cast
            ring
      · obtain ⟨s1, s2⟩ := IndexMotionIsr_moving_noaccel e hbusy hacc
        rw [eds, if_pos rfl, ecs] at s2
        have hnd : ¬ (e.shared.minSpeed < e.shared.currentSpeed ∧
            e.indexData.currentStep > Int.tdiv e.indexData.totalSteps 2 ∧
            e.indexData.currentStep > e.indexData.totalSteps
              - (if e.indexData.decelSteps = 0 then e.indexData.currentStep
                  else e.indexData.decelSteps)) := by
          rw [htd, ecs]
          intro h
          have := h.2.1
          omega
        rw [if_neg hnd] at s1
        have hR1 : ¬ tickRaisesSpeed ratOps e = true :=
          fun h => absurd ((tickRaisesSpeed_rat e).mp h) (by rw [s1]; exact lt_irrefl _)
        have hL1 : ¬ tickLowersSpeed ratOps e = true :=
          fun h => absurd ((tickLowersSpeed_rat e).mp h) (by rw [s1]; exact lt_irrefl _)
        right
        rw [if_neg hR1, if_neg hL1]
        refine ⟨i + 1, i, by omega, by push_cast; omega, le_refl _, by rw [s2]; push_cast; ring,
          by omega, Or.inl ⟨by push_cast; omega, by omega⟩, by push_cast; omega, ?_, ?_⟩
        · rw [s1]
          exact hlo
        · rw [s1]
          by_cases hvm : e.shared.currentSpeed < e.shared.maxSpeed
          · left
            have hc : ¬ e.indexData.currentStep < Int.tdiv e.indexData.totalSteps 2 :=
              fun h => hacc ⟨hvm, h⟩
            rw [ecs, htd] at hc
            push_cast
            omega
          · right
            rw [← pmx]
            exact not_lt.mp hvm
    · have hacc : ¬ (e.shared.currentSpeed < e.shared.maxSpeed ∧
          e.indexData.currentStep < Int.tdiv e.indexData.totalSteps 2) := by
        rw [ecs, htd, pmx]
        rintro ⟨a, b⟩
        rcases hstop with h | h
        · exact h b
        · exact absurd a (not_lt.mpr h)
      have hdsne : e.indexData.decelSteps ≠ 0 := by
        rw [eds]
        omega
      obtain ⟨s1, s2⟩ := IndexMotionIsr_moving_noaccel e hbusy hacc
      rw [if_neg hdsne] at s1 s2
      rw [htd, ecs, ets, eds, pmn, pac] at s1
      by_cases hdec : T - (A : Int) < (i : Int) + 1
      · have hmpos : 1 ≤ m := by
          rcases hL with ⟨a, b⟩ | ⟨a, b⟩ <;> omega
        have hmr : (1 : Rat) ≤ (m : Rat) := by exact_mod_cast hmpos
        have hvgt : d.shared.minSpeed < e.shared.currentSpeed := by
          nlinarith
        have hcond : d.shared.minSpeed < e.shared.currentSpeed ∧
            (i : Int) + 1 > T / 2 ∧ (i : Int) + 1 > T - (A : Int) :=
          ⟨hvgt, by omega, hdec⟩
        rw [if_pos hcond] at s1
        have hR1 : ¬ tickRaisesSpeed ratOps e = true :=
          fun h => absurd ((tickRaisesSpeed_rat e).mp h) (by rw [s1]; linarith)
        have hL1 : tickLowersSpeed ratOps e = true :=
          (tickLowersSpeed_rat e).mpr (by rw [s1]; linarith)
        right
        rw [if_neg hR1, if_pos hL1]
        refine ⟨A, m - 1, hA1, hA2, by omega, by rw [s2, eds], by omega,
          Or.inr ⟨by push_cast; omega, ?_⟩, ?_, ?_, Or.inl (by push_cast; omega)⟩
        · rcases hL with ⟨a, b⟩ | ⟨a, b⟩ <;> push_cast <;> omega
        · push_cast
          omega
        · rw [s1]
          have hm1 : ((m - 1 : Nat) : Rat) = (m : Rat) - 1 := by
            rw [Nat.cast_sub hmpos]
            simp
          rw [hm1]
          linarith
      · have hcond : ¬ (d.shared.minSpeed < e.shared.currentSpeed ∧
            (i : Int) + 1 > T / 2 ∧ (i : Int) + 1 > T - (A : Int)) :=
          fun h => hdec h.2.2
        rw [if_neg hcond] at s1
        have hR1 : ¬ tickRaisesSpeed ratOps e = true :=
          fun h => absurd ((tickRaisesSpeed_rat e).mp h) (by rw [s1]; exact lt_irrefl _)
        have hL1 : ¬ tickLowersSpeed ratOps e = true :=
          fun h => absurd ((tickLowersSpeed_rat e).mp h) (by rw [s1]; exact lt_irrefl _)
        have hL0 : countLowering ratOps i d = 0 := by
          rcases hL with ⟨a, b⟩ | ⟨a, b⟩
          · exact b
          · omega
        right
        rw [if_neg hR1, if_neg hL1]
        refine ⟨A, m, hA1, hA2, by omega, by rw [s2, eds], by omega,
          Or.inl ⟨by push_cast; omega, by omega⟩, by omega, by rw [s1]; exact hlo, ?_⟩
        rw [s1]
        rcases hstop with h | h
        · left
          push_cast
          omega
        · right
          exact h

/-- C11, amended: in exact arithmetic, for every accepted move of `T` steps
(`T = |indexDeltaSteps| ≥ 1`, taken by an idle indexer) with
`minSpeed < maxSpeed` and `acceleration > 0`, whatever `currentSpeed` held
before, over the `T` ticks of the move, where `decelSteps` is the value the
move has latched when it ends.
For `T = 1`: the single tick completes the move and leaves
`currentSpeed = minSpeed` and `decelSteps = 0`; it raises the register exactly
when that was below `minSpeed` and lowers it exactly when it was above.
For `T ≥ 2`:
the move is complete after the `T` ticks and `1 ≤ decelSteps ≤ T / 2`;
the accepting tick leaves `currentSpeed = min maxSpeed (minSpeed + acceleration)`;
of the `T - 1` ticks after it, `decelSteps - 1` raise `currentSpeed` and
`decelSteps - 1` lower it;
over all `T` ticks the raising ticks number `decelSteps - 1` plus one if the
accepting tick raised the register, and the lowering ticks `decelSteps - 1`
plus one if the accepting tick lowered it;
so when the register at acceptance is below
`min maxSpeed (minSpeed + acceleration)`, as it is at power-up, the raising
ticks number `decelSteps`, the lowering ticks `decelSteps - 1`, one fewer and
not as many, and the remaining ticks number `T - 2 * decelSteps + 1`. -/
theorem index_profile_law (data : rampsHandler_t Rat)
    (hidle : data.indexData.currentStep = data.indexData.totalSteps)
    (hk : data.shared.indexDeltaSteps ≠ 0)
    (hsp : data.shared.minSpeed < data.shared.maxSpeed)
    (hac : 0 < data.shared.acceleration) :
    (|data.shared.indexDeltaSteps| = 1 →
      (IndexMotionIsr ratOps data).indexData.currentStep = 1 ∧
      (IndexMotionIsr ratOps data).indexData.totalSteps = 1 ∧
      (IndexMotionIsr ratOps data).indexData.decelSteps = 0 ∧
      (IndexMotionIsr ratOps data).shared.currentSpeed = data.shared.minSpeed ∧
      countRaising ratOps 1 data
        = (if data.shared.currentSpeed < data.shared.minSpeed then 1 else 0) ∧
      countLowering ratOps 1 data
        = (if data.shared.minSpeed < data.shared.currentSpeed then 1 else 0)) ∧
    (2 ≤ |data.shared.indexDeltaSteps| →
      ((IndexMotionIsr ratOps)^[data.shared.indexDeltaSteps.natAbs] data).indexData.currentStep
        = |data.shared.indexDeltaSteps| ∧
      ((IndexMotionIsr ratOps)^[data.shared.indexDeltaSteps.natAbs] data).indexData.totalSteps
        = |data.shared.indexDeltaSteps| ∧
      1 ≤ ((IndexMotionIsr ratOps)^[data.shared.indexDeltaSteps.natAbs] data).indexData.decelSteps ∧
      2 * ((IndexMotionIsr ratOps)^[data.shared.indexDeltaSteps.natAbs] data).indexData.decelSteps
        ≤ |data.shared.indexDeltaSteps| ∧
      (IndexMotionIsr ratOps data).shared.currentSpeed
        = min data.shared.maxSpeed (data.shared.minSpeed + data.shared.acceleration) ∧
      (countRaising ratOps (data.shared.indexDeltaSteps.natAbs - 1) (IndexMotionIsr ratOps data) : Int)
        = ((IndexMotionIsr ratOps)^[data.shared.indexDeltaSteps.natAbs] data).indexData.decelSteps
          - 1 ∧
      (countLowering ratOps (data.shared.indexDeltaSteps.natAbs - 1) (IndexMotionIsr ratOps data) : Int)
        = ((IndexMotionIsr ratOps)^[data.shared.indexDeltaSteps.natAbs] data).indexData.decelSteps
          - 1 ∧
      (countRaising ratOps data.shared.indexDeltaSteps.natAbs data : Int)
        = (if data.shared.currentSpeed
              < min data.shared.maxSpeed (data.shared.minSpeed + data.shared.acceleration)
            then 1 else 0)
          + (((IndexMotionIsr ratOps)^[data.shared.indexDeltaSteps.natAbs] data).indexData.decelSteps
            - 1) ∧
      (countLowering ratOps data.shared.indexDeltaSteps.natAbs data : Int)
        = (if min data.shared.maxSpeed (data.shared.minSpeed + data.shared.acceleration)
              < data.shared.currentSpeed
            then 1 else 0)
          + (((IndexMotionIsr ratOps)^[data.shared.indexDeltaSteps.natAbs] data).indexData.decelSteps
            - 1) ∧
      (data.shared.currentSpeed
          < min data.shared.maxSpeed (data.shared.minSpeed + data.shared.acceleration) →
        (countRaising ratOps data.shared.indexDeltaSteps.natAbs data : Int)
          = ((IndexMotionIsr ratOps)^[data.shared.indexDeltaSteps.natAbs] data).indexData.decelSteps ∧
        countRaising ratOps data.shared.indexDeltaSteps.natAbs data
          = countLowering ratOps data.shared.indexDeltaSteps.natAbs data + 1 ∧
        countRaising ratOps data.shared.indexDeltaSteps.natAbs data
          ≠ countLowering ratOps data.shared.indexDeltaSteps.natAbs data ∧
        (data.shared.indexDeltaSteps.natAbs : Int)
            - (countRaising ratOps data.shared.indexDeltaSteps.natAbs data : Int)
            - (countLowering ratOps data.shared.indexDeltaSteps.natAbs data : Int)
          = |data.shared.indexDeltaSteps|
            - 2 * ((IndexMotionIsr ratOps)^[data.shared.indexDeltaSteps.natAbs] data).indexData.decelSteps
            + 1)) := by
  refine ⟨fun h1 => ?_, fun hT => ?_⟩
  · obtain ⟨_, s2, s3, _, s5⟩ := indexStart_of_request ratOps data hidle hk
    have sv : (indexStart ratOps data).shared.currentSpeed = data.shared.minSpeed := by
      unfold indexStart
      rw [if_pos ⟨hk, hidle⟩]
    have hb : ¬ ((indexStart ratOps data).shared.indexDeltaSteps = 0 ∧
        (indexStart ratOps data).indexData.currentStep
          = (indexStart ratOps data).indexData.totalSteps) := by
      rw [s2, s3, h1]
      exact fun h => absurd h.2 (by decide)
    obtain ⟨_, f2, _, f4, f5, _⟩ := IndexMotionIsr_first_step ratOps data hidle hk
    have hna : ¬ ((indexStart ratOps data).shared.currentSpeed
          < (indexStart ratOps data).shared.maxSpeed ∧
        (indexStart ratOps data).indexData.currentStep
          < Int.tdiv (indexStart ratOps data).indexData.totalSteps 2) := by
      rw [s2, s3, h1]
      exact fun h => absurd h.2 (by decide)
    obtain ⟨p1, _⟩ := profile_noaccel (indexStart ratOps data) hna
    have hnd : ¬ ((indexStart ratOps data).shared.minSpeed
          < (indexStart ratOps data).shared.currentSpeed ∧
        (indexStart ratOps data).indexData.currentStep
          > Int.tdiv (indexStart ratOps data).indexData.totalSteps 2 ∧
        (indexStart ratOps data).indexData.currentStep
          > (indexStart ratOps data).indexData.totalSteps
            - (if (indexStart ratOps data).indexData.decelSteps = 0
                then (indexStart ratOps data).indexData.currentStep
                else (indexStart ratOps data).indexData.decelSteps)) := by
      rw [s2, s3, h1]
      exact fun h => absurd h.2.1 (by decide)
    rw [if_neg hnd, sv] at p1
    have hv : (IndexMotionIsr ratOps data).shared.currentSpeed = data.shared.minSpeed :=
      (IndexMotionIsr_speed_of_busy ratOps data hb).1.trans p1
    refine ⟨f5, by rw [f2, h1], f4, hv, ?_, ?_⟩
    · have hR : countRaising ratOps 1 data
          = (if tickRaisesSpeed ratOps data = true then 1 else 0) := rfl
      rw [hR]
      by_cases h : data.shared.currentSpeed < data.shared.minSpeed
      · rw [if_pos h, if_pos ((tickRaisesSpeed_rat data).mpr (by rw [hv]; exact h))]
      · rw [if_neg h, if_neg (fun hh => h (by
          have := (tickRaisesSpeed_rat data).mp hh
          rwa [hv] at this))]
    · have hL : countLowering ratOps 1 data
          = (if tickLowersSpeed ratOps data = true then 1 else 0) := rfl
      rw [hL]
      by_cases h : data.shared.minSpeed < data.shared.currentSpeed
      · rw [if_pos h, if_pos ((tickLowersSpeed_rat data).mpr (by rw [hv]; exact h))]
      · rw [if_neg h, if_neg (fun hh => h (by
          have := (tickLowersSpeed_rat data).mp hh
          rwa [hv] at this))]
  · have habs : |data.shared.indexDeltaSteps| = (data.shared.indexDeltaSteps.natAbs : Int) :=
      Int.abs_eq_natAbs _
    have hk : data.shared.indexDeltaSteps ≠ 0 := by
      intro h
      rw [h] at hT
      simp at hT
    obtain ⟨n, hn⟩ : ∃ n : Nat, data.shared.indexDeltaSteps.natAbs = n + 1 :=
      ⟨data.shared.indexDeltaSteps.natAbs - 1, by omega⟩
    obtain ⟨_, f2, _, f4, f5, _⟩ := IndexMotionIsr_first_step ratOps data hidle hk
    obtain ⟨qmx, qmn, qac⟩ := IndexMotionIsr_profile ratOps data
    have hfirst := IndexMotionIsr_first_speed data hidle hT hsp
    have hmin : (if data.shared.maxSpeed < data.shared.minSpeed + data.shared.acceleration
        then data.shared.maxSpeed else data.shared.minSpeed + data.shared.acceleration)
        = min data.shared.maxSpeed (data.shared.minSpeed + data.shared.acceleration) := by
      by_cases h : data.shared.maxSpeed < data.shared.minSpeed + data.shared.acceleration
      · rw [if_pos h, min_eq_left h.le]
      · rw [if_neg h, min_eq_right (not_lt.mp h)]
    have hv1 : (IndexMotionIsr ratOps data).shared.minSpeed
        < (IndexMotionIsr ratOps data).shared.currentSpeed := by
      rw [qmn, hfirst]
      split_ifs
      · exact hsp
      · linarith
    have hv2 : (IndexMotionIsr ratOps data).shared.currentSpeed
          < (IndexMotionIsr ratOps data).shared.maxSpeed →
        (IndexMotionIsr ratOps data).shared.currentSpeed
          = (IndexMotionIsr ratOps data).shared.minSpeed
            + (IndexMotionIsr ratOps data).shared.acceleration := by
      rw [qmx, qmn, qac, hfirst]
      split_ifs
      · intro h
        exact absurd h (lt_irrefl _)
      · intro _
        rfl
    obtain ⟨rcs, rts, rphase⟩ := index_profile_run (IndexMotionIsr ratOps data)
      |data.shared.indexDeltaSteps| f2 f5 f4 hT (by rw [qac]; exact hac) hv1 hv2 n (by omega)
    rw [← Function.iterate_succ_apply] at rcs rts rphase
    have hR : countRaising ratOps (n + 1) data
        = (if tickRaisesSpeed ratOps data = true then 1 else 0)
          + countRaising ratOps n (IndexMotionIsr ratOps data) := rfl
    have hL : countLowering ratOps (n + 1) data
        = (if tickLowersSpeed ratOps data = true then 1 else 0)
          + countLowering ratOps n (IndexMotionIsr ratOps data) := rfl
    have hRi : (if tickRaisesSpeed ratOps data = true then 1 else 0 : Nat)
        = (if data.shared.currentSpeed
              < min data.shared.maxSpeed (data.shared.minSpeed + data.shared.acceleration)
            then 1 else 0 : Nat) := by
      by_cases h : data.shared.currentSpeed
          < min data.shared.maxSpeed (data.shared.minSpeed + data.shared.acceleration)
      · rw [if_pos h, if_pos ((tickRaisesSpeed_rat data).mpr (by rw [hfirst, hmin]; exact h))]
      · rw [if_neg h, if_neg (fun hh => h (by
          have := (tickRaisesSpeed_rat data).mp hh
          rwa [hfirst, hmin] at this))]
    have hLi : (if tickLowersSpeed ratOps data = true then 1 else 0 : Nat)
        = (if min data.shared.maxSpeed (data.shared.minSpeed + data.shared.acceleration)
              < data.shared.currentSpeed
            then 1 else 0 : Nat) := by
      by_cases h : min data.shared.maxSpeed (data.shared.minSpeed + data.shared.acceleration)
          < data.shared.currentSpeed
      · rw [if_pos h, if_pos ((tickLowersSpeed_rat data).mpr (by rw [hfirst, hmin]; exact h))]
      · rw [if_neg h, if_neg (fun hh => h (by
          have := (tickLowersSpeed_rat data).mp hh
          rwa [hfirst, hmin] at this))]
    rw [hRi] at hR
    rw [hLi] at hL
    rw [hn, Nat.add_sub_cancel, hR, hL, hfirst, hmin]
    have habsn : |data.shared.indexDeltaSteps| = (n : Int) + 1 := by
      rw [habs, hn]
      push_cast
      rfl
    rw [habsn] at rts rphase ⊢
    rcases rphase with ⟨_, h2, _⟩ | ⟨A, m, hA1, hA2, hAj, eds, hRn, hLn, _, _, _⟩
    · omega
    · have hLval : (countLowering ratOps n (IndexMotionIsr ratOps data) : Int) = (A : Int) - 1 := by
        rcases hLn with ⟨a, b⟩ | ⟨a, b⟩
        · rw [b]
          push_cast
          omega
        · omega
      have hRval : (countRaising ratOps n (IndexMotionIsr ratOps data) : Int) = (A : Int) - 1 := by
        omega
      rw [eds]
      refine ⟨by rw [rcs], rts, by omega, by omega, rfl,
        hRval, hLval, ?_, ?_, ?_⟩
      · push_cast
        rw [hRval]
      · push_cast
        rw [hLval]
      · intro hlt
        have hnl : ¬ min data.shared.maxSpeed (data.shared.minSpeed + data.shared.acceleration)
            < data.shared.currentSpeed := not_lt.mpr hlt.le
        rw [if_pos hlt, if_neg hnl]
        refine ⟨by push_cast; omega, by omega, by omega, by push_cast; omega⟩

/-- Witness for C11 (amended): moves of one and of seven steps from the zero
handler with the profile of scenario S4.  The speed register holds 0 at
acceptance, below `minSpeed = 100`.  The single tick of the one-step move
raises the speed and nothing lowers it.  In the seven-step move three ticks
raise the speed, two lower it, `decelSteps` is latched at 3 and the remaining
ticks number `7 - 2 * 3 + 1 = 2`. -/
theorem index_profile_law_witness :
    ((indexRequest 1).indexData.currentStep = (indexRequest 1).indexData.totalSteps ∧
      (indexRequest 1).shared.indexDeltaSteps ≠ 0 ∧
      (indexRequest 1).shared.minSpeed < (indexRequest 1).shared.maxSpeed ∧
      0 < (indexRequest 1).shared.acceleration ∧
      |(indexRequest 1).shared.indexDeltaSteps| = 1 ∧
      (IndexMotionIsr ratOps (indexRequest 1)).shared.currentSpeed
        = (indexRequest 1).shared.minSpeed ∧
      countRaising ratOps 1 (indexRequest 1) = 1 ∧
      countLowering ratOps 1 (indexRequest 1) = 0) ∧
    (indexRequest 7).indexData.currentStep = (indexRequest 7).indexData.totalSteps ∧
    (indexRequest 7).shared.indexDeltaSteps ≠ 0 ∧
    (indexRequest 7).shared.minSpeed < (indexRequest 7).shared.maxSpeed ∧
    0 < (indexRequest 7).shared.acceleration ∧
    2 ≤ |(indexRequest 7).shared.indexDeltaSteps| ∧
    (indexRequest 7).shared.currentSpeed
      < min (indexRequest 7).shared.maxSpeed
          ((indexRequest 7).shared.minSpeed + (indexRequest 7).shared.acceleration) ∧
    (countRaising ratOps 7 (indexRequest 7) : Int)
      = ((IndexMotionIsr ratOps)^[7] (indexRequest 7)).indexData.decelSteps ∧
    countRaising ratOps 7 (indexRequest 7) = countLowering ratOps 7 (indexRequest 7) + 1 ∧
    countRaising ratOps 7 (indexRequest 7) ≠ countLowering ratOps 7 (indexRequest 7) ∧
    (((7 : Nat) : Int) - (countRaising ratOps 7 (indexRequest 7) : Int)
        - (countLowering ratOps 7 (indexRequest 7) : Int)
      = |(indexRequest 7).shared.indexDeltaSteps|
        - 2 * ((IndexMotionIsr ratOps)^[7] (indexRequest 7)).indexData.decelSteps + 1) ∧
    countRaising ratOps 7 (indexRequest 7) = 3 ∧
    countLowering ratOps 7 (indexRequest 7) = 2 ∧
    ((IndexMotionIsr ratOps)^[7] (indexRequest 7)).indexData.decelSteps = 3 :=
  ⟨⟨by decide, by decide, by with_unfolding_all decide, by with_unfolding_all decide,
    by decide,
    ((index_profile_law (indexRequest 1) (by decide) (by decide)
      (by with_unfolding_all decide) (by with_unfolding_all decide)).1 (by decide)).2.2.2.1,
    by with_unfolding_all decide, by with_unfolding_all decide⟩,
   by decide, by decide, by with_unfolding_all decide, by with_unfolding_all decide,
   by decide, by with_unfolding_all decide,
   (((index_profile_law (indexRequest 7) (by decide) (by decide)
     (by with_unfolding_all decide) (by with_unfolding_all decide)).2
     (by decide)).2.2.2.2.2.2.2.2.2 (by with_unfolding_all decide)).1,
   (((index_profile_law (indexRequest 7) (by decide) (by decide)
     (by with_unfolding_all decide) (by with_unfolding_all decide)).2
     (by decide)).2.2.2.2.2.2.2.2.2 (by with_unfolding_all decide)).2.1,
   (((index_profile_law (indexRequest 7) (by decide) (by decide)
     (by with_unfolding_all decide) (by with_unfolding_all decide)).2
     (by decide)).2.2.2.2.2.2.2.2.2 (by with_unfolding_all decide)).2.2.1,
   (((index_profile_law (indexRequest 7) (by decide) (by decide)
     (by with_unfolding_all decide) (by with_unfolding_all decide)).2
     (by decide)).2.2.2.2.2.2.2.2.2 (by with_unfolding_all decide)).2.2.2,
   by with_unfolding_all decide, by with_unfolding_all decide, by with_unfolding_all decide⟩

end Ramps
